import Mathlib

/-!
# Replica placement scheduler (`scheduler/replica_scheduler.go`)

A shallow embedding of the replica scheduler of longhorn-manager and a
verification of its specification.

Conventions of the embedding.

* Go `int64` values are integers (`Int`); every arithmetic operation that can
  overflow is followed by `wrapInt64`, Go's two's-complement wrap-around.
  Division is Go's truncating division (`Int.tdiv`).
* A Go map is the list of its entries.  A map that the scheduler receives is
  given in the order in which the `range` loop visits it.  A map that the
  scheduler builds itself (`mapInsert`) is visited by a later `range` loop in an
  order chosen by the `Runtime` (any permutation of the entries).
* Pointers that the code dereferences unconditionally are values.  A function
  that writes through a pointer returns the new value of the object.
* Every call of the datastore advances a clock; the datastore answers a call
  as a function of the clock, so that a setting may be readable at one moment
  and unreadable at the next.
-/

set_option maxRecDepth 20000

namespace Scheduler

/-! ## Machine integers -/

/-- Two's-complement wrap-around of an integer into the range of `int64`. -/
def wrapInt64 (x : Int) : Int := (x + 2 ^ 63) % 2 ^ 64 - 2 ^ 63

/-- Go `a + b` on `int64`. -/
def add64 (a b : Int) : Int := wrapInt64 (a + b)

/-- Go `a - b` on `int64`. -/
def sub64 (a b : Int) : Int := wrapInt64 (a - b)

/-- Go `a * b` on `int64`. -/
def mul64 (a b : Int) : Int := wrapInt64 (a * b)

/-- Go `a / b` on `int64` for a non-zero constant divisor: truncation toward zero. -/
def div64 (a b : Int) : Int := wrapInt64 (Int.tdiv a b)

/-- The values of type `int64`. -/
def IsInt64 (x : Int) : Prop := -(2 ^ 63) ≤ x ∧ x < 2 ^ 63

/-! ## Go maps -/

/-- A Go map with string keys, as the list of its entries. -/
abbrev GoMap (V : Type) := List (String × V)

/-- Go `_, ok := m[k]`. -/
def mapContains {V : Type} (m : GoMap V) (k : String) : Bool :=
  m.any (fun e => e.1 == k)

/-- Go `m[k]` with the zero value `zero` for a missing key. -/
def mapIndex {V : Type} (m : GoMap V) (k : String) (zero : V) : V :=
  (m.lookup k).getD zero

/-- Go `m[k] = v`: overwrite the entry of `k` when there is one, add one otherwise. -/
def mapInsert {V : Type} (m : GoMap V) (k : String) (v : V) : GoMap V :=
  if mapContains m k then m.map (fun e => if e.1 == k then (k, v) else e)
  else m ++ [(k, v)]

/-- The keys of a Go map are pairwise distinct. -/
def WellFormedMap {V : Type} (m : GoMap V) : Prop := (m.map Prod.fst).Nodup

/-! ## Data model -/

/-- Modelled from the spec: `types.DiskSpec`, declared outside the scheduler
package; the fields are those the scheduler reads (spec section 3, Disk). -/
structure DiskSpec where
  Path : String
  AllowScheduling : Bool
  StorageReserved : Int
  Tags : List String
  deriving DecidableEq, Repr

/-- Modelled from the spec: `types.DiskStatus`, declared outside the scheduler
package (spec section 3, the status record of a Disk).  `ScheduledReplica`
maps a replica identity to its accounted size. -/
structure DiskStatus where
  StorageAvailable : Int
  StorageScheduled : Int
  StorageMaximum : Int
  ScheduledReplica : GoMap Int
  deriving DecidableEq, Repr

/-- The zero value of `types.DiskStatus`, the result of indexing the status map
with a missing key. -/
def DiskStatus.zero : DiskStatus :=
  { StorageAvailable := 0, StorageScheduled := 0, StorageMaximum := 0, ScheduledReplica := [] }

/-- Modelled from the spec: `types.Condition`, declared outside the scheduler
package; only its status is read. -/
structure Condition where
  Status : String
  deriving DecidableEq, Repr

/-- Modelled from the spec: `types.NodeSpec`, declared outside the scheduler
package (spec section 3, Node). -/
structure NodeSpec where
  AllowScheduling : Bool
  Tags : List String
  Disks : GoMap DiskSpec
  deriving DecidableEq, Repr

/-- Modelled from the spec: `types.NodeStatus`, declared outside the scheduler
package (spec section 3, Node). -/
structure NodeStatus where
  Conditions : GoMap Condition
  DiskStatus : GoMap DiskStatus
  deriving DecidableEq, Repr

/-- Modelled from the spec: `longhorn.Node`, declared outside the scheduler
package.  `DeletionTimestamp` is the deletion marker (`none` is Go `nil`). -/
structure Node where
  Name : String
  DeletionTimestamp : Option Nat
  Spec : NodeSpec
  Status : NodeStatus
  deriving DecidableEq, Repr

/-- Modelled from the spec: `types.ReplicaSpec`, declared outside the scheduler
package (spec section 3, Replica). -/
structure ReplicaSpec where
  VolumeName : String
  VolumeSize : Int
  NodeID : String
  DiskID : String
  DataPath : String
  FailedAt : String
  deriving DecidableEq, Repr

/-- Modelled from the spec: `longhorn.Replica`, declared outside the scheduler
package.  `DeletionTimestamp` is the deletion marker (`none` is Go `nil`). -/
structure Replica where
  Name : String
  DeletionTimestamp : Option Nat
  Spec : ReplicaSpec
  deriving DecidableEq, Repr

/-- Modelled from the spec: `types.VolumeSpec`, declared outside the scheduler
package (spec section 3, Volume). -/
structure VolumeSpec where
  NodeSelector : List String
  DiskSelector : List String
  deriving DecidableEq, Repr

/-- Modelled from the spec: `longhorn.Volume`, declared outside the scheduler
package. -/
structure Volume where
  Name : String
  Spec : VolumeSpec
  deriving DecidableEq, Repr

/-- The candidate disk of the scheduler: `type Disk struct`. -/
structure Disk where
  DiskSpec : DiskSpec
  NodeID : String
  deriving DecidableEq, Repr

/-- The scheduling figures of one disk: `type DiskSchedulingInfo struct`. -/
structure DiskSchedulingInfo where
  StorageAvailable : Int
  StorageMaximum : Int
  StorageReserved : Int
  StorageScheduled : Int
  OverProvisioningPercentage : Int
  MinimalAvailablePercentage : Int
  deriving DecidableEq, Repr

/-! ## External collaborators -/

/-- Modelled from the spec: the names of the three settings the scheduler reads
(`types.SettingName...` constants, declared outside the scheduler package). -/
inductive SettingName where
  | ReplicaSoftAntiAffinity
  | StorageOverProvisioningPercentage
  | StorageMinimalAvailablePercentage
  deriving DecidableEq, Repr

/-- Modelled from the spec: the cluster state reader `datastore.DataStore`
(spec section 6).  Each operation is a function of the clock, the number of
datastore calls made before it; `Except.error` is a non-nil Go error. -/
structure DataStore where
  ListNodes : Nat → Except String (List Node)
  GetSettingAsBool : Nat → SettingName → Except String Bool
  GetSettingAsInt : Nat → SettingName → Except String Int

/-- What the Go runtime and the helpers outside the scheduler package decide:
the order in which a `range` loop visits a map built by the scheduler (any
permutation of its entries), the identifier `util.RandomID()` draws, and
`filepath.Join`. -/
structure Runtime where
  rangeNodes : GoMap Node → List (String × Node)
  rangeNodes_perm : ∀ m, (rangeNodes m).Perm m
  rangeDisks : GoMap Disk → List (String × Disk)
  rangeDisks_perm : ∀ m, (rangeDisks m).Perm m
  RandomID : String
  filepathJoin : List String → String

/-- Modelled from the spec: `types.NodeConditionTypeReady`. -/
def NodeConditionTypeReady : String := "Ready"

/-- Modelled from the spec: `types.ConditionStatusTrue`. -/
def ConditionStatusTrue : String := "True"

/-- Modelled from the spec: `types.GetNodeConditionFromStatus`, declared outside
the scheduler package: the condition of the given type in the node status, and
a condition of unknown status when the node reports none. -/
def GetNodeConditionFromStatus (status : NodeStatus) (conditionType : String) : Condition :=
  mapIndex status.Conditions conditionType { Status := "Unknown" }

/-! ## The Go standard library: package `sort` -/

/-- Go `a <= b` on strings: the byte-wise lexicographic order, which on UTF-8
text is the lexicographic order of the characters. -/
def tagLE (a b : String) : Prop := a.toList ≤ b.toList

instance tagLE.decidable : DecidableRel tagLE :=
  fun a b => inferInstanceAs (Decidable (a.toList ≤ b.toList))

/-- Go `a < b` on strings. -/
def tagLT (a b : String) : Prop := a.toList < b.toList

instance tagLT.decidable : DecidableRel tagLT :=
  fun a b => inferInstanceAs (Decidable (a.toList < b.toList))

/-- `sort.StringsAreSorted`: no element is smaller than its predecessor. -/
def StringsAreSorted : List String → Bool
  | a :: b :: rest => !decide (tagLT b a) && StringsAreSorted (b :: rest)
  | _ => true

/-- `sort.Strings`, by its contract: the ascending rearrangement of the slice. -/
def Strings (a : List String) : List String := List.insertionSort tagLE a

/-- The loop of `sort.Search` on the interval `[i, j)`.  Each round shrinks
the interval, so `fuel = j - i` rounds are enough. -/
def searchLoop (f : Nat → Bool) : Nat → Nat → Nat → Nat
  | 0, i, _ => i
  | fuel + 1, i, j =>
    if i < j then
      let h := (i + j) / 2
      if !f h then searchLoop f fuel (h + 1) j else searchLoop f fuel i h
    else i

/-- `sort.Search(n, f)`: binary search for the least index in `[0, n)` at which
`f` holds, `n` when there is none. -/
def Search (n : Nat) (f : Nat → Bool) : Nat := searchLoop f n 0 n

/-- `sort.SearchStrings(a, x)`: `Search(len(a), func(i) { a[i] >= x })`.  The
search calls the function inside the slice only. -/
def SearchStrings (a : List String) (x : String) : Nat :=
  Search a.length (fun i => match a[i]? with
    | some s => decide (tagLE x s)
    | none => true)

/-! ## The scheduler -/

/-- `checkTagsAreFulfilled(itemTags, volumeTags)`.  The first component is
`itemTags` after the call (the slice is sorted in place when it is found
unsorted), the second the boolean result. -/
def checkTagsAreFulfilled (itemTags volumeTags : List String) : List String × Bool :=
  let itemTags := if !StringsAreSorted itemTags then Strings itemTags else itemTags
  (itemTags, volumeTags.all (fun tag =>
    let index := SearchStrings itemTags tag
    !(decide (index ≥ itemTags.length) || itemTags[index]? != some tag)))

/-- `IsSchedulableToDisk(size, info)`. -/
def IsSchedulableToDisk (size : Int) (info : DiskSchedulingInfo) : Bool :=
  decide (info.StorageMaximum > 0) && decide (info.StorageAvailable > 0) &&
  decide (add64 size info.StorageScheduled ≤
    mul64 (sub64 info.StorageMaximum info.StorageReserved)
      (div64 info.OverProvisioningPercentage 100)) &&
  decide (info.StorageAvailable >
    div64 (mul64 info.StorageMaximum info.MinimalAvailablePercentage) 100)

/-- `GetDiskSchedulingInfo(disk, diskStatus)`, started at clock `t`; the second
component is the clock after the call. -/
def GetDiskSchedulingInfo (ds : DataStore) (t : Nat) (disk : DiskSpec) (diskStatus : DiskStatus) :
    Except String DiskSchedulingInfo × Nat :=
  match ds.GetSettingAsInt t SettingName.StorageOverProvisioningPercentage with
  | .error err => (.error err, t + 1)
  | .ok overProvisioningPercentage =>
    match ds.GetSettingAsInt (t + 1) SettingName.StorageMinimalAvailablePercentage with
    | .error err => (.error err, t + 2)
    | .ok minimalAvailablePercentage =>
      (.ok { StorageAvailable := diskStatus.StorageAvailable
             StorageScheduled := diskStatus.StorageScheduled
             StorageReserved := disk.StorageReserved
             StorageMaximum := diskStatus.StorageMaximum
             OverProvisioningPercentage := overProvisioningPercentage
             MinimalAvailablePercentage := minimalAvailablePercentage }, t + 2)

/-- The inner loop of `filterNodeDisksForReplica` (lines 128-133): the sizes of
the replicas of the volume assigned to the node `nodeName` that the disk has
not accounted in `scheduledReplica`, added up in `int64`. -/
def storageScheduled (replicas : GoMap Replica) (scheduledReplica : GoMap Int)
    (nodeName : String) : Int :=
  replicas.foldl (fun acc e =>
    if !mapContains scheduledReplica e.1 && e.2.Spec.NodeID != "" && e.2.Spec.NodeID == nodeName
    then add64 acc e.2.Spec.VolumeSize else acc) 0

/-- Lines 134-136 of `filterNodeDisksForReplica`: the scheduling info handed to
the capacity test. -/
def addStorageScheduled (info : DiskSchedulingInfo) (extra : Int) : DiskSchedulingInfo :=
  if extra > 0 then { info with StorageScheduled := add64 info.StorageScheduled extra } else info

/-- The loop of `filterNodeDisksForReplica` over the disks of the node that are
still to be visited; `preferredDisk` holds the candidates found so far. -/
def filterNodeDisksLoop (ds : DataStore) (node : Node) (replica : Replica)
    (replicas : GoMap Replica) (volume : Volume) :
    List (String × DiskSpec) → GoMap Disk → Nat → GoMap Disk × Nat
  | [], preferredDisk, t => (preferredDisk, t)
  | (fsid, disk) :: rest, preferredDisk, t =>
    let status := mapIndex node.Status.DiskStatus fsid DiskStatus.zero
    match GetDiskSchedulingInfo ds t disk status with
    | (.error _, t') => (preferredDisk, t')
    | (.ok info, t') =>
      let info := addStorageScheduled info
        (storageScheduled replicas status.ScheduledReplica node.Name)
      if !disk.AllowScheduling || !IsSchedulableToDisk replica.Spec.VolumeSize info then
        filterNodeDisksLoop ds node replica replicas volume rest preferredDisk t'
      else
        let checked := checkTagsAreFulfilled disk.Tags volume.Spec.DiskSelector
        if !checked.2 then
          filterNodeDisksLoop ds node replica replicas volume rest preferredDisk t'
        else
          filterNodeDisksLoop ds node replica replicas volume rest
            (mapInsert preferredDisk fsid
              { DiskSpec := { disk with Tags := checked.1 }, NodeID := node.Name }) t'

/-- `filterNodeDisksForReplica(node, replica, replicas, volume)`, started at
clock `t`.  A candidate carries the tags of its disk as the tag check left them. -/
def filterNodeDisksForReplica (ds : DataStore) (t : Nat) (node : Node) (replica : Replica)
    (replicas : GoMap Replica) (volume : Volume) : GoMap Disk × Nat :=
  filterNodeDisksLoop ds node replica replicas volume node.Spec.Disks [] t

/-- The condition of line 84 of `chooseDiskCandidates`: the replica `r` is
assigned to the node `nodeName`, is not being deleted and has not failed. -/
def occupies (r : Replica) (nodeName : String) : Bool :=
  r.Spec.NodeID != "" && r.Spec.NodeID == nodeName && r.DeletionTimestamp.isNone &&
    r.Spec.FailedAt == ""

/-- The loop of lines 82-89 of `chooseDiskCandidates`: some replica of the
volume occupies the node. -/
def nodeIsBlocked (replicas : GoMap Replica) (nodeName : String) : Bool :=
  replicas.any (fun e => occupies e.2 nodeName)

/-- The first loop of `chooseDiskCandidates` (lines 76-96) over the nodes that
are still to be visited.  The first component is the candidate set the loop
returns early with, if it does; the second is `filterdNode`.  The tag check
sorts the tags of the node in place; nothing reads them afterwards. -/
def chooseFirstPass (ds : DataStore) (replicas : GoMap Replica) (replica : Replica)
    (volume : Volume) :
    List (String × Node) → List Node → Nat → Option (GoMap Disk) × List Node × Nat
  | [], filterdNode, t => (none, filterdNode, t)
  | (nodeName, node) :: rest, filterdNode, t =>
    let tagsFulfilled := (checkTagsAreFulfilled node.Spec.Tags volume.Spec.NodeSelector).2
    let blocked := nodeIsBlocked replicas nodeName
    let filterdNode := if blocked then filterdNode ++ [node] else filterdNode
    if !tagsFulfilled || blocked then
      chooseFirstPass ds replicas replica volume rest filterdNode t
    else
      let found := filterNodeDisksForReplica ds t node replica replicas volume
      if found.1.length > 0 then (some found.1, filterdNode, found.2)
      else chooseFirstPass ds replicas replica volume rest filterdNode found.2

/-- The second loop of `chooseDiskCandidates` (lines 106-108): every blocked
node is filtered, each result replacing the one before. -/
def chooseSecondPass (ds : DataStore) (replicas : GoMap Replica) (replica : Replica)
    (volume : Volume) : List Node → GoMap Disk → Nat → GoMap Disk × Nat
  | [], diskCandidates, t => (diskCandidates, t)
  | node :: rest, _, t =>
    let found := filterNodeDisksForReplica ds t node replica replicas volume
    chooseSecondPass ds replicas replica volume rest found.1 found.2

/-- `chooseDiskCandidates(nodeInfo, replicas, replica, volume)`, started at
clock `t`. -/
def chooseDiskCandidates (rt : Runtime) (ds : DataStore) (t : Nat) (nodeInfo : GoMap Node)
    (replicas : GoMap Replica) (replica : Replica) (volume : Volume) : GoMap Disk × Nat :=
  match chooseFirstPass ds replicas replica volume (rt.rangeNodes nodeInfo) [] t with
  | (some diskCandidates, _, t') => (diskCandidates, t')
  | (none, filterdNode, t') =>
    match ds.GetSettingAsBool t' SettingName.ReplicaSoftAntiAffinity with
    | .ok false => ([], t' + 1)
    | _ => chooseSecondPass ds replicas replica volume filterdNode [] (t' + 1)

/-- The condition of line 178 of `getNodeInfo`: the node is not marked for
deletion, reports its ready condition as true and has scheduling enabled.  The
test `node != nil` of that line comes after line 177 has read the status of the
node, so a listed node is a value here. -/
def nodeIsSchedulable (node : Node) : Bool :=
  node.DeletionTimestamp.isNone &&
    (GetNodeConditionFromStatus node.Status NodeConditionTypeReady).Status == ConditionStatusTrue &&
    node.Spec.AllowScheduling

/-- The loop of `getNodeInfo` (lines 175-181): the schedulable nodes, keyed by name. -/
def scheduledNode (nodeInfo : List Node) : GoMap Node :=
  nodeInfo.foldl (fun scheduledNode node =>
    if nodeIsSchedulable node then mapInsert scheduledNode node.Name node else scheduledNode) []

/-- `getNodeInfo()`, started at clock `t`. -/
def getNodeInfo (ds : DataStore) (t : Nat) : Except String (GoMap Node) × Nat :=
  match ds.ListNodes t with
  | .error err => (.error err, t + 1)
  | .ok nodeInfo => (.ok (scheduledNode nodeInfo), t + 1)

/-- `scheduleReplicaToDisk(replica, diskCandidates)`: the replica after the
call, `none` when the candidate set is empty (the code then dereferences a nil
disk). -/
def scheduleReplicaToDisk (rt : Runtime) (replica : Replica) (diskCandidates : GoMap Disk) :
    Option Replica :=
  match rt.rangeDisks diskCandidates with
  | [] => none
  | (fsid, disk) :: _ =>
    some { replica with Spec := { replica.Spec with
      NodeID := disk.NodeID
      DiskID := fsid
      DataPath := rt.filepathJoin
        [disk.DiskSpec.Path, "replicas", replica.Spec.VolumeName ++ "-" ++ rt.RandomID] } }

/-- What a call of `ScheduleReplica` leaves behind: the returned pointer (`none`
is `nil`, otherwise it points to the replica passed in), the returned error
(`none` is `nil`) and the replica passed in as it is after the call. -/
structure ScheduleResult where
  ret : Option Replica
  err : Option String
  replica : Replica
  deriving DecidableEq, Repr

/-- `ScheduleReplica(replica, replicas, volume)`, started at clock `t`; `none`
is a run-time panic. -/
def ScheduleReplica (rt : Runtime) (ds : DataStore) (t : Nat) (replica : Replica)
    (replicas : GoMap Replica) (volume : Volume) : Option ScheduleResult :=
  if replica.Spec.NodeID != "" then
    some { ret := none
           err := some ("BUG: Replica " ++ replica.Name ++ " has been scheduled to node " ++
             replica.Spec.NodeID)
           replica := replica }
  else
    match getNodeInfo ds t with
    | (.error err, _) => some { ret := none, err := some err, replica := replica }
    | (.ok nodeInfo, t') =>
      if nodeInfo.length == 0 then some { ret := none, err := none, replica := replica }
      else
        let diskCandidates := (chooseDiskCandidates rt ds t' nodeInfo replicas replica volume).1
        if diskCandidates.length == 0 then
          some { ret := none, err := none, replica := replica }
        else
          match scheduleReplicaToDisk rt replica diskCandidates with
          | none => none
          | some scheduled => some { ret := some scheduled, err := none, replica := scheduled }

/-! ## Specification predicates -/

instance tagLE.isTotal : IsTotal String tagLE :=
  ⟨fun a b => le_total a.toList b.toList⟩

instance tagLE.isTrans : IsTrans String tagLE :=
  ⟨fun _ _ _ h1 h2 => le_trans (α := List Char) h1 h2⟩

instance tagLE.isAntisymm : IsAntisymm String tagLE :=
  ⟨fun _ _ h1 h2 => String.ext (le_antisymm (α := List Char) h1 h2)⟩

/-- The arithmetic of `IsSchedulableToDisk(size, info)` stays within `int64`:
no intermediate result overflows. -/
def ExactArithmetic (size : Int) (info : DiskSchedulingInfo) : Prop :=
  IsInt64 (size + info.StorageScheduled) ∧
  IsInt64 (info.StorageMaximum - info.StorageReserved) ∧
  IsInt64 (Int.tdiv info.OverProvisioningPercentage 100) ∧
  IsInt64 ((info.StorageMaximum - info.StorageReserved) *
    Int.tdiv info.OverProvisioningPercentage 100) ∧
  IsInt64 (info.StorageMaximum * info.MinimalAvailablePercentage) ∧
  IsInt64 (Int.tdiv (info.StorageMaximum * info.MinimalAvailablePercentage) 100)

/-- The filter accepts the disk `fsid` with spec `disk` of the node, examined
at clock `t`, and offers the candidate `d`: the settings are read, the disk has
scheduling enabled, passes the capacity test with the provisional scheduled
capacity and carries the tags of the disk selector. -/
def Accepts (ds : DataStore) (t : Nat) (node : Node) (replica : Replica)
    (replicas : GoMap Replica) (volume : Volume) (fsid : String) (disk : DiskSpec)
    (d : Disk) : Prop :=
  ∃ info,
    (GetDiskSchedulingInfo ds t disk
      (mapIndex node.Status.DiskStatus fsid DiskStatus.zero)).1 = .ok info ∧
    disk.AllowScheduling = true ∧
    IsSchedulableToDisk replica.Spec.VolumeSize
      (addStorageScheduled info
        (storageScheduled replicas
          (mapIndex node.Status.DiskStatus fsid DiskStatus.zero).ScheduledReplica
          node.Name)) = true ∧
    (∀ tag ∈ volume.Spec.DiskSelector, tag ∈ disk.Tags) ∧
    d = { DiskSpec := { disk with Tags := Strings disk.Tags }, NodeID := node.Name }

/-- The over-provisioning and minimal-available settings can be read, at every
moment. -/
def SettingsReadable (ds : DataStore) : Prop :=
  ∀ t, (∃ v, ds.GetSettingAsInt t SettingName.StorageOverProvisioningPercentage = .ok v) ∧
    (∃ v, ds.GetSettingAsInt t SettingName.StorageMinimalAvailablePercentage = .ok v)

/-- The nodes of the replicas that take part in anti-affinity: those with a
node assignment, no deletion marker and no failure timestamp. -/
def activeNodes (replicas : GoMap Replica) : List String :=
  (replicas.filter (fun e =>
    e.2.Spec.NodeID != "" && e.2.DeletionTimestamp.isNone && e.2.Spec.FailedAt == "")).map
    (fun e => e.2.Spec.NodeID)

/-- The declared sizes of the replicas that the double-accounting loop counts
for a disk: those assigned to the node `nodeName` whose identity is not a key
of the record `scheduledReplica` of the disk. -/
def unaccountedSizes (replicas : GoMap Replica) (scheduledReplica : GoMap Int)
    (nodeName : String) : List Int :=
  (replicas.filter (fun e =>
    !mapContains scheduledReplica e.1 && e.2.Spec.NodeID != "" &&
      e.2.Spec.NodeID == nodeName)).map (fun e => e.2.Spec.VolumeSize)

/-! ## A small cluster, for the concrete scenarios of the specification -/

/-- A runtime that visits every map in the order of insertion. -/
def Example.runtime : Runtime :=
  { rangeNodes := fun m => m
    rangeNodes_perm := fun _ => List.Perm.refl _
    rangeDisks := fun m => m
    rangeDisks_perm := fun _ => List.Perm.refl _
    RandomID := "c0ffee42"
    filepathJoin := fun elems => "/".intercalate elems }

/-- A datastore that lists `nodes` and answers the three settings with the
given values, at every moment. -/
def Example.datastore (nodes : List Node) (softAntiAffinity : Except String Bool)
    (overProvisioning minimalAvailable : Int) : DataStore :=
  { ListNodes := fun _ => .ok nodes
    GetSettingAsBool := fun _ _ => softAntiAffinity
    GetSettingAsInt := fun _ name =>
      match name with
      | .StorageOverProvisioningPercentage => .ok overProvisioning
      | _ => .ok minimalAvailable }

/-- A disk spec mounted at `path`. -/
def Example.disk (path : String) (allowScheduling : Bool) (reserved : Int)
    (tags : List String) : DiskSpec :=
  { Path := path, AllowScheduling := allowScheduling, StorageReserved := reserved, Tags := tags }

/-- A disk status that knows of no replica. -/
def Example.status (available scheduled maximum : Int) : DiskStatus :=
  { StorageAvailable := available, StorageScheduled := scheduled, StorageMaximum := maximum,
    ScheduledReplica := [] }

/-- A ready, schedulable node that is not being deleted. -/
def Example.node (name : String) (tags : List String) (disks : GoMap DiskSpec)
    (diskStatus : GoMap DiskStatus) : Node :=
  { Name := name
    DeletionTimestamp := none
    Spec := { AllowScheduling := true, Tags := tags, Disks := disks }
    Status := { Conditions := [("Ready", { Status := "True" })], DiskStatus := diskStatus } }

/-- A replica of the volume `vol` that is not being deleted. -/
def Example.replica (name : String) (size : Int) (nodeID failedAt : String) : Replica :=
  { Name := name
    DeletionTimestamp := none
    Spec := { VolumeName := "vol", VolumeSize := size, NodeID := nodeID, DiskID := "",
              DataPath := "", FailedAt := failedAt } }

/-- The volume `vol` with the given selectors. -/
def Example.volume (nodeSelector diskSelector : List String) : Volume :=
  { Name := "vol", Spec := { NodeSelector := nodeSelector, DiskSelector := diskSelector } }

/-- A node with one disk `A` of 100 units, none reserved, none scheduled, all
available. -/
def Example.plainNode (name : String) (tags : List String) : Node :=
  Example.node name tags [("A", Example.disk "/data" true 0 [])]
    [("A", Example.status 100 0 100)]

/-- The node of the two-disk scenario: disk `A` of 100 units, none reserved,
none scheduled, all available, and a disk `B`; the disks are visited in either
order. -/
def Example.twoDiskNode (diskB : DiskSpec) (statusB : DiskStatus) (visitBFirst : Bool) : Node :=
  Example.node "X" []
    (if visitBFirst then [("B", diskB), ("A", Example.disk "/data" true 0 [])]
      else [("A", Example.disk "/data" true 0 []), ("B", diskB)])
    [("A", Example.status 100 0 100), ("B", statusB)]

/-- The two-disk node with a disabled disk `B` tagged `hdd`. -/
def Example.twoDisks : Node :=
  Example.twoDiskNode (Example.disk "/b" false 0 ["hdd"]) (Example.status 100 0 100) false

/-- Two siblings of 2^62 bytes each on node `X`. -/
def Example.hugeSiblings : GoMap Replica :=
  [("a", Example.replica "a" (2 ^ 62) "X" ""), ("b", Example.replica "b" (2 ^ 62) "X" "")]

/-- The scheduling info of an idle disk of 100 units. -/
def Example.idleInfo : DiskSchedulingInfo :=
  { StorageAvailable := 100, StorageMaximum := 100, StorageReserved := 0, StorageScheduled := 0,
    OverProvisioningPercentage := 100, MinimalAvailablePercentage := 0 }

/-- The part of the contract of `filepath.Join` that the scheduler relies on:
the joined path is empty only when every element is empty. -/
def JoinNonEmpty (join : List String → String) : Prop :=
  ∀ elems : List String, (∃ e ∈ elems, e ≠ "") → join elems ≠ ""

/-- The over-provisioning and minimal-available settings cannot be read, at any
moment. -/
def SettingsUnreadable (ds : DataStore) : Prop :=
  ∀ t, (∃ err, ds.GetSettingAsInt t SettingName.StorageOverProvisioningPercentage = .error err) ∧
    (∃ err, ds.GetSettingAsInt t SettingName.StorageMinimalAvailablePercentage = .error err)

/-- A datastore that answers the listing with `nodes` and whose settings can be
read (over-provisioning 100, minimal-available 0, soft anti-affinity false)
before the clock reaches `readableUntil` only. -/
def Example.flakyDatastore (nodes : Except String (List Node)) (readableUntil : Nat) :
    DataStore :=
  { ListNodes := fun _ => nodes
    GetSettingAsBool := fun t _ =>
      if t < readableUntil then .ok false else .error "settings unavailable"
    GetSettingAsInt := fun t name =>
      if t < readableUntil then
        match name with
        | .StorageOverProvisioningPercentage => .ok 100
        | _ => .ok 0
      else .error "settings unavailable" }

/-- A node with two eligible disks `A` and `B` of 100 units each. -/
def Example.twoEligibleDisks : Node :=
  Example.node "X" []
    [("A", Example.disk "/data" true 0 []), ("B", Example.disk "/b" true 0 [])]
    [("A", Example.status 100 0 100), ("B", Example.status 100 0 100)]

/-! # Verification -/

/-! ## Machine integers: lemmas -/

theorem wrapInt64_of_isInt64 {x : Int} (h : IsInt64 x) : wrapInt64 x = x := by
  obtain ⟨h1, h2⟩ := h
  unfold wrapInt64
  rw [Int.emod_eq_of_lt (by omega) (by omega)]
  omega

theorem isInt64_wrapInt64 (x : Int) : IsInt64 (wrapInt64 x) := by
  unfold wrapInt64 IsInt64
  have h1 := Int.emod_nonneg (x + 2 ^ 63) (show (2 : Int) ^ 64 ≠ 0 by norm_num)
  have h2 := Int.emod_lt_of_pos (x + 2 ^ 63) (show (0 : Int) < 2 ^ 64 by norm_num)
  constructor <;> omega

/-! ## C1: the capacity test -/

/-- The capacity test in the `int64` arithmetic of the code. -/
theorem IsSchedulableToDisk_true_iff (size : Int) (info : DiskSchedulingInfo) :
    IsSchedulableToDisk size info = true ↔
      info.StorageMaximum > 0 ∧ info.StorageAvailable > 0 ∧
      add64 size info.StorageScheduled ≤
        mul64 (sub64 info.StorageMaximum info.StorageReserved)
          (div64 info.OverProvisioningPercentage 100) ∧
      info.StorageAvailable >
        div64 (mul64 info.StorageMaximum info.MinimalAvailablePercentage) 100 := by
  unfold IsSchedulableToDisk
  simp only [Bool.and_eq_true, decide_eq_true_eq, and_assoc]

/-- The capacity test in exact integers, when nothing overflows. -/
theorem IsSchedulableToDisk_true_iff_exact (size : Int) (info : DiskSchedulingInfo)
    (hexact : ExactArithmetic size info) :
    IsSchedulableToDisk size info = true ↔
      info.StorageMaximum > 0 ∧ info.StorageAvailable > 0 ∧
      size + info.StorageScheduled ≤
        (info.StorageMaximum - info.StorageReserved) *
          Int.tdiv info.OverProvisioningPercentage 100 ∧
      info.StorageAvailable >
        Int.tdiv (info.StorageMaximum * info.MinimalAvailablePercentage) 100 := by
  obtain ⟨h1, h2, h3, h4, h5, h6⟩ := hexact
  rw [IsSchedulableToDisk_true_iff]
  simp only [add64, sub64, mul64, div64, wrapInt64_of_isInt64 h1, wrapInt64_of_isInt64 h2,
    wrapInt64_of_isInt64 h3, wrapInt64_of_isInt64 h4, wrapInt64_of_isInt64 h5,
    wrapInt64_of_isInt64 h6]

/-- C1. `IsSchedulableToDisk(size, info)` returns true if and only if
`StorageMaximum > 0`, `StorageAvailable > 0`,
`size + StorageScheduled <= (StorageMaximum - StorageReserved) * (OverProvisioningPercentage / 100)`
with the inner division truncating, and
`StorageAvailable > StorageMaximum * MinimalAvailablePercentage / 100`: for every
size and info in the `int64` arithmetic of the code, and in exact integer
arithmetic whenever no intermediate result overflows.  For max = 100,
reserved = 50, over-provisioning = 100, scheduled = 0 and size = 60 the result
is false, whatever the other figures are. -/
theorem IsSchedulableToDisk_iff (size : Int) (info : DiskSchedulingInfo) :
    (IsSchedulableToDisk size info = true ↔
      info.StorageMaximum > 0 ∧ info.StorageAvailable > 0 ∧
      add64 size info.StorageScheduled ≤
        mul64 (sub64 info.StorageMaximum info.StorageReserved)
          (div64 info.OverProvisioningPercentage 100) ∧
      info.StorageAvailable >
        div64 (mul64 info.StorageMaximum info.MinimalAvailablePercentage) 100) ∧
    (ExactArithmetic size info →
      (IsSchedulableToDisk size info = true ↔
        info.StorageMaximum > 0 ∧ info.StorageAvailable > 0 ∧
        size + info.StorageScheduled ≤
          (info.StorageMaximum - info.StorageReserved) *
            Int.tdiv info.OverProvisioningPercentage 100 ∧
        info.StorageAvailable >
          Int.tdiv (info.StorageMaximum * info.MinimalAvailablePercentage) 100)) ∧
    (∀ available minimalAvailable : Int,
      IsSchedulableToDisk 60
        { StorageAvailable := available, StorageMaximum := 100, StorageReserved := 50,
          StorageScheduled := 0, OverProvisioningPercentage := 100,
          MinimalAvailablePercentage := minimalAvailable } = false) := by
  refine ⟨IsSchedulableToDisk_true_iff size info, IsSchedulableToDisk_true_iff_exact size info,
    ?_⟩
  intro available minimalAvailable
  have h60 : ¬ add64 60 0 ≤ mul64 (sub64 100 50) (div64 100 100) := by decide
  unfold IsSchedulableToDisk
  simp [h60]

/-- C1, witness: a disk of 100 units with 50 reserved takes a replica of 50
units, in exact arithmetic. -/
theorem IsSchedulableToDisk_iff_witness :
    ExactArithmetic 50
      { StorageAvailable := 100, StorageMaximum := 100, StorageReserved := 50,
        StorageScheduled := 0, OverProvisioningPercentage := 100,
        MinimalAvailablePercentage := 25 } ∧
    (IsSchedulableToDisk 50
      { StorageAvailable := 100, StorageMaximum := 100, StorageReserved := 50,
        StorageScheduled := 0, OverProvisioningPercentage := 100,
        MinimalAvailablePercentage := 25 } = true ↔
      (100 : Int) > 0 ∧ (100 : Int) > 0 ∧
      (50 : Int) + 0 ≤ (100 - 50) * Int.tdiv 100 100 ∧
      (100 : Int) > Int.tdiv (100 * 25) 100) :=
  ⟨by unfold ExactArithmetic IsInt64; decide,
   (IsSchedulableToDisk_iff 50 _).2.1 (by unfold ExactArithmetic IsInt64; decide)⟩

/-! ## The tag checker -/

theorem tagLE_total (a b : String) : tagLE a b ∨ tagLE b a := le_total a.toList b.toList

theorem tagLE_trans {a b c : String} (h1 : tagLE a b) (h2 : tagLE b c) : tagLE a c :=
  le_trans (α := List Char) h1 h2

theorem tagLE_antisymm {a b : String} (h1 : tagLE a b) (h2 : tagLE b a) : a = b :=
  String.ext (le_antisymm (α := List Char) h1 h2)

theorem tagLT_iff_not_tagLE (a b : String) : tagLT a b ↔ ¬ tagLE b a :=
  (not_le (α := List Char)).symm

theorem StringsAreSorted_iff (a : List String) :
    StringsAreSorted a = true ↔ a.Sorted tagLE := by
  induction a with
  | nil => simp [StringsAreSorted]
  | cons x rest ih =>
    cases rest with
    | nil => simp [StringsAreSorted]
    | cons y rest =>
      rw [StringsAreSorted, Bool.and_eq_true, ih]
      simp only [Bool.not_eq_true', decide_eq_false_iff_not, tagLT_iff_not_tagLE, not_not]
      constructor
      · rintro ⟨hxy, hs⟩
        refine List.sorted_cons.2 ⟨?_, hs⟩
        intro z hz
        rcases List.mem_cons.1 hz with rfl | hz
        · exact hxy
        · exact tagLE_trans hxy (List.rel_of_sorted_cons hs z hz)
      · intro h
        have h2 := List.sorted_cons.1 h
        exact ⟨h2.1 y (List.mem_cons_self _ _), h2.2⟩

theorem Strings_sorted (a : List String) : (Strings a).Sorted tagLE :=
  List.sorted_insertionSort tagLE a

theorem Strings_perm (a : List String) : (Strings a).Perm a :=
  List.perm_insertionSort tagLE a

theorem Strings_of_sorted {a : List String} (h : a.Sorted tagLE) : Strings a = a :=
  List.Sorted.insertionSort_eq h

theorem searchLoop_spec (f : Nat → Bool) (n : Nat)
    (hmono : ∀ k k', k ≤ k' → k' < n → f k = true → f k' = true) :
    ∀ fuel i j, j - i ≤ fuel → i ≤ j → j ≤ n →
      (∀ k, k < i → f k = false) → (∀ k, j ≤ k → k < n → f k = true) →
      (searchLoop f fuel i j ≤ n ∧ (∀ k, k < searchLoop f fuel i j → f k = false) ∧
        (∀ k, searchLoop f fuel i j ≤ k → k < n → f k = true)) := by
  intro fuel
  induction fuel with
  | zero =>
    intro i j hfuel hij hjn hlow hhigh
    have hi : i = j := by omega
    subst hi
    exact ⟨hjn, hlow, hhigh⟩
  | succ fuel ih =>
    intro i j hfuel hij hjn hlow hhigh
    by_cases hlt : i < j
    · have hmid1 : i ≤ (i + j) / 2 := by omega
      have hmid2 : (i + j) / 2 < j := by omega
      cases hf : f ((i + j) / 2) with
      | false =>
        have hstep : searchLoop f (fuel + 1) i j = searchLoop f fuel ((i + j) / 2 + 1) j := by
          simp [searchLoop, hlt, hf]
        rw [hstep]
        refine ih ((i + j) / 2 + 1) j (by omega) (by omega) hjn ?_ hhigh
        intro k hk
        cases hfk : f k with
        | false => rfl
        | true =>
          have := hmono k ((i + j) / 2) (by omega) (by omega) hfk
          rw [hf] at this
          exact absurd this (by decide)
      | true =>
        have hstep : searchLoop f (fuel + 1) i j = searchLoop f fuel i ((i + j) / 2) := by
          simp [searchLoop, hlt, hf]
        rw [hstep]
        refine ih i ((i + j) / 2) (by omega) (by omega) (by omega) hlow ?_
        intro k hk hkn
        exact hmono _ k hk hkn hf
    · have hstep : searchLoop f (fuel + 1) i j = i := by
        simp [searchLoop, hlt]
      rw [hstep]
      have hi : i = j := by omega
      subst hi
      exact ⟨hjn, hlow, hhigh⟩

theorem SearchStrings_spec {a : List String} (hs : a.Sorted tagLE) (x : String) :
    SearchStrings a x ≤ a.length ∧
    (∀ k s, k < SearchStrings a x → a[k]? = some s → ¬ tagLE x s) ∧
    (∀ k s, SearchStrings a x ≤ k → a[k]? = some s → tagLE x s) := by
  have hmono : ∀ k k', k ≤ k' → k' < a.length →
      (fun i => match a[i]? with
        | some s => decide (tagLE x s)
        | none => true) k = true →
      (fun i => match a[i]? with
        | some s => decide (tagLE x s)
        | none => true) k' = true := by
    intro k k' hkk hk' hfk
    have hk : k < a.length := by omega
    simp only [List.getElem?_eq_getElem hk, List.getElem?_eq_getElem hk',
      decide_eq_true_eq] at hfk ⊢
    rcases Nat.eq_or_lt_of_le hkk with rfl | hlt
    · exact hfk
    · exact tagLE_trans hfk (List.pairwise_iff_getElem.1 hs k k' hk hk' hlt)
  obtain ⟨h1, h2, h3⟩ := searchLoop_spec _ a.length hmono a.length 0 a.length (by omega)
    (by omega) (by omega) (by intro k hk; omega) (by intro k hk hk'; omega)
  refine ⟨h1, ?_, ?_⟩
  · intro k s hk hks
    have := h2 k hk
    simpa [hks] using this
  · intro k s hk hks
    have hlen : k < a.length := (List.getElem?_eq_some.1 hks).1
    have := h3 k hk hlen
    simpa [hks] using this

theorem SearchStrings_found_iff {a : List String} (hs : a.Sorted tagLE) (x : String) :
    (SearchStrings a x < a.length ∧ a[SearchStrings a x]? = some x) ↔ x ∈ a := by
  obtain ⟨h1, h2, h3⟩ := SearchStrings_spec hs x
  constructor
  · rintro ⟨_, h⟩
    exact List.mem_iff_getElem?.2 ⟨_, h⟩
  · intro hx
    obtain ⟨p, hp⟩ := List.mem_iff_getElem?.1 hx
    have hplen : p < a.length := (List.getElem?_eq_some.1 hp).1
    have hrp : SearchStrings a x ≤ p := by
      by_contra hcon
      exact h2 p x (by omega) hp (le_refl (α := List Char) _)
    have hrlen : SearchStrings a x < a.length := by omega
    refine ⟨hrlen, ?_⟩
    have hget := List.getElem?_eq_getElem hrlen
    have hle1 : tagLE x a[SearchStrings a x] := h3 _ _ (le_refl _) hget
    have hle2 : tagLE a[SearchStrings a x] x := by
      rcases Nat.eq_or_lt_of_le hrp with heq | hlt
      · have : a[SearchStrings a x]? = some x := by rw [heq]; exact hp
        rw [hget] at this
        rw [Option.some.inj this]
        exact le_refl (α := List Char) _
      · have := List.pairwise_iff_getElem.1 hs _ p hrlen hplen hlt
        rwa [(List.getElem?_eq_some.1 hp).2] at this
    rw [hget, tagLE_antisymm hle2 hle1]

theorem checkTagsAreFulfilled_fst (itemTags volumeTags : List String) :
    (checkTagsAreFulfilled itemTags volumeTags).1 = Strings itemTags := by
  unfold checkTagsAreFulfilled
  cases h : StringsAreSorted itemTags with
  | true => simp [Strings_of_sorted ((StringsAreSorted_iff _).1 h)]
  | false => simp

theorem checkTagsAreFulfilled_snd (itemTags volumeTags : List String) :
    (checkTagsAreFulfilled itemTags volumeTags).2 = true ↔ ∀ tag ∈ volumeTags, tag ∈ itemTags := by
  have hfst := checkTagsAreFulfilled_fst itemTags volumeTags
  unfold checkTagsAreFulfilled at hfst ⊢
  simp only at hfst ⊢
  rw [hfst, List.all_eq_true]
  have hs := Strings_sorted itemTags
  constructor
  · intro h tag htag
    have := h tag htag
    simp only [ge_iff_le, Bool.not_eq_true', Bool.or_eq_false_iff, decide_eq_false_iff_not,
      not_le, bne_eq_false_iff_eq] at this
    exact (Strings_perm itemTags).mem_iff.1 ((SearchStrings_found_iff hs tag).1 this)
  · intro h tag htag
    have := (SearchStrings_found_iff hs tag).2 ((Strings_perm itemTags).mem_iff.2 (h tag htag))
    simp only [ge_iff_le, Bool.not_eq_true', Bool.or_eq_false_iff, decide_eq_false_iff_not,
      not_le, bne_eq_false_iff_eq]
    exact this

/-! ## Go maps and the disk filter -/

theorem mapContains_iff {V : Type} (m : GoMap V) (k : String) :
    mapContains m k = true ↔ k ∈ m.map Prod.fst := by
  unfold mapContains
  rw [List.any_eq_true, List.mem_map]
  constructor
  · rintro ⟨e, he, hk⟩
    exact ⟨e, he, beq_iff_eq.1 hk⟩
  · rintro ⟨e, he, hk⟩
    exact ⟨e, he, beq_iff_eq.2 hk⟩

theorem mem_mapInsert {V : Type} {m : GoMap V} {k : String} {v : V} {e : String × V}
    (h : e ∈ mapInsert m k v) : e ∈ m ∨ e = (k, v) := by
  unfold mapInsert at h
  split at h
  · obtain ⟨x, hx, hxe⟩ := List.mem_map.1 h
    by_cases hk : x.1 == k
    · rw [if_pos hk] at hxe; exact Or.inr hxe.symm
    · rw [if_neg hk] at hxe; exact Or.inl (hxe ▸ hx)
  · rcases List.mem_append.1 h with h | h
    · exact Or.inl h
    · exact Or.inr (List.mem_singleton.1 h)

theorem mapInsert_of_not_mem {V : Type} {m : GoMap V} {k : String} (v : V)
    (h : k ∉ m.map Prod.fst) : mapInsert m k v = m ++ [(k, v)] := by
  unfold mapInsert
  rw [if_neg (by rw [mapContains_iff]; exact h)]

theorem mapInsert_ne_nil {V : Type} (m : GoMap V) (k : String) (v : V) :
    mapInsert m k v ≠ [] := by
  unfold mapInsert
  split
  · rename_i h
    intro hnil
    rw [List.map_eq_nil_iff] at hnil
    subst hnil
    simp [mapContains] at h
  · simp

theorem mapInsert_keys {V : Type} (m : GoMap V) (k : String) (v : V) :
    (mapInsert m k v).map Prod.fst =
      if k ∈ m.map Prod.fst then m.map Prod.fst else m.map Prod.fst ++ [k] := by
  unfold mapInsert
  by_cases h : mapContains m k = true
  · rw [if_pos h, if_pos ((mapContains_iff m k).1 h), List.map_map]
    apply List.map_congr_left
    intro e _
    by_cases hk : e.1 == k
    · simp only [Function.comp, if_pos hk]
      exact (beq_iff_eq.1 hk).symm
    · simp only [Function.comp, if_neg hk]
  · rw [if_neg h, if_neg (fun hk => h ((mapContains_iff m k).2 hk))]
    simp

theorem GetDiskSchedulingInfo_ok_iff (ds : DataStore) (t : Nat) (disk : DiskSpec)
    (status : DiskStatus) (info : DiskSchedulingInfo) :
    (GetDiskSchedulingInfo ds t disk status).1 = .ok info ↔
      ∃ overProvisioning minimalAvailable,
        ds.GetSettingAsInt t SettingName.StorageOverProvisioningPercentage =
          .ok overProvisioning ∧
        ds.GetSettingAsInt (t + 1) SettingName.StorageMinimalAvailablePercentage =
          .ok minimalAvailable ∧
        info = { StorageAvailable := status.StorageAvailable
                 StorageScheduled := status.StorageScheduled
                 StorageReserved := disk.StorageReserved
                 StorageMaximum := status.StorageMaximum
                 OverProvisioningPercentage := overProvisioning
                 MinimalAvailablePercentage := minimalAvailable } := by
  unfold GetDiskSchedulingInfo
  cases h1 : ds.GetSettingAsInt t SettingName.StorageOverProvisioningPercentage with
  | error err => simp
  | ok op =>
    cases h2 : ds.GetSettingAsInt (t + 1) SettingName.StorageMinimalAvailablePercentage with
    | error err => simp
    | ok mp =>
      simp only [Except.ok.injEq, exists_and_left, exists_eq_left']
      constructor
      · intro h; exact h.symm
      · intro h; exact h.symm

theorem GetDiskSchedulingInfo_clock (ds : DataStore) (t : Nat) (disk : DiskSpec)
    (status : DiskStatus) (info : DiskSchedulingInfo)
    (h : (GetDiskSchedulingInfo ds t disk status).1 = .ok info) :
    (GetDiskSchedulingInfo ds t disk status).2 = t + 2 := by
  obtain ⟨op, mp, h1, h2, _⟩ := (GetDiskSchedulingInfo_ok_iff ds t disk status info).1 h
  simp [GetDiskSchedulingInfo, h1, h2]

/-- One round of the filter loop when the settings cannot be read. -/
theorem filterNodeDisksLoop_error (ds : DataStore) (node : Node) (replica : Replica)
    (replicas : GoMap Replica) (volume : Volume) (fsid : String) (disk : DiskSpec)
    (rest : List (String × DiskSpec)) (acc : GoMap Disk) (t t' : Nat) (err : String)
    (h : GetDiskSchedulingInfo ds t disk
      (mapIndex node.Status.DiskStatus fsid DiskStatus.zero) = (.error err, t')) :
    filterNodeDisksLoop ds node replica replicas volume ((fsid, disk) :: rest) acc t =
      (acc, t') := by
  simp only [filterNodeDisksLoop, h]

/-- One round of the filter loop when the settings are read. -/
theorem filterNodeDisksLoop_ok (ds : DataStore) (node : Node) (replica : Replica)
    (replicas : GoMap Replica) (volume : Volume) (fsid : String) (disk : DiskSpec)
    (rest : List (String × DiskSpec)) (acc : GoMap Disk) (t t' : Nat)
    (info : DiskSchedulingInfo)
    (h : GetDiskSchedulingInfo ds t disk
      (mapIndex node.Status.DiskStatus fsid DiskStatus.zero) = (.ok info, t')) :
    filterNodeDisksLoop ds node replica replicas volume ((fsid, disk) :: rest) acc t =
      filterNodeDisksLoop ds node replica replicas volume rest
        (if disk.AllowScheduling = true ∧
            IsSchedulableToDisk replica.Spec.VolumeSize
              (addStorageScheduled info
                (storageScheduled replicas
                  (mapIndex node.Status.DiskStatus fsid DiskStatus.zero).ScheduledReplica
                  node.Name)) = true ∧
            (∀ tag ∈ volume.Spec.DiskSelector, tag ∈ disk.Tags)
          then mapInsert acc fsid
            { DiskSpec := { disk with Tags := Strings disk.Tags }, NodeID := node.Name }
          else acc) t' := by
  rw [filterNodeDisksLoop]
  simp only [h]
  by_cases h1 : disk.AllowScheduling = true
  · by_cases h2 : IsSchedulableToDisk replica.Spec.VolumeSize
        (addStorageScheduled info
          (storageScheduled replicas
            (mapIndex node.Status.DiskStatus fsid DiskStatus.zero).ScheduledReplica
            node.Name)) = true
    · by_cases h3 : ∀ tag ∈ volume.Spec.DiskSelector, tag ∈ disk.Tags
      · have h3' := (checkTagsAreFulfilled_snd disk.Tags volume.Spec.DiskSelector).2 h3
        simp [h1, h2, h3', checkTagsAreFulfilled_fst]
        rw [if_pos h3]
      · have h3' : (checkTagsAreFulfilled disk.Tags volume.Spec.DiskSelector).2 = false := by
          cases hc : (checkTagsAreFulfilled disk.Tags volume.Spec.DiskSelector).2 with
          | false => rfl
          | true => exact absurd ((checkTagsAreFulfilled_snd _ _).1 hc) h3
        simp [h1, h2, h3', h3]
    · simp [h1, h2]
  · simp [h1]

theorem GetDiskSchedulingInfo_of_readable {ds : DataStore} (hread : SettingsReadable ds)
    (t : Nat) (disk : DiskSpec) (status : DiskStatus) :
    ∃ info, GetDiskSchedulingInfo ds t disk status = (.ok info, t + 2) := by
  obtain ⟨op, hop⟩ := (hread t).1
  obtain ⟨mp, hmp⟩ := (hread (t + 1)).2
  refine ⟨{ StorageAvailable := status.StorageAvailable,
             StorageScheduled := status.StorageScheduled,
             StorageReserved := disk.StorageReserved,
             StorageMaximum := status.StorageMaximum,
             OverProvisioningPercentage := op,
             MinimalAvailablePercentage := mp }, ?_⟩
  simp only [GetDiskSchedulingInfo, hop, hmp]

/-- Every candidate the filter loop returns was either there before, or is a
disk of the list that the filter accepted at some moment. -/
theorem filterNodeDisksLoop_sound (ds : DataStore) (node : Node) (replica : Replica)
    (replicas : GoMap Replica) (volume : Volume) :
    ∀ (disks : List (String × DiskSpec)) (acc : GoMap Disk) (t : Nat) (e : String × Disk),
      e ∈ (filterNodeDisksLoop ds node replica replicas volume disks acc t).1 →
      e ∈ acc ∨ ∃ disk t', (e.1, disk) ∈ disks ∧
        Accepts ds t' node replica replicas volume e.1 disk e.2 := by
  intro disks
  induction disks with
  | nil => intro acc t e h; exact Or.inl h
  | cons hd rest ih =>
    obtain ⟨fsid, disk⟩ := hd
    intro acc t e h
    have lift : (∃ disk' t', (e.1, disk') ∈ rest ∧
        Accepts ds t' node replica replicas volume e.1 disk' e.2) →
        (e ∈ acc ∨ ∃ disk' t', (e.1, disk') ∈ (fsid, disk) :: rest ∧
        Accepts ds t' node replica replicas volume e.1 disk' e.2) := by
      rintro ⟨d', t', hmem, hacc⟩
      exact Or.inr ⟨d', t', List.mem_cons_of_mem _ hmem, hacc⟩
    cases hg : GetDiskSchedulingInfo ds t disk
      (mapIndex node.Status.DiskStatus fsid DiskStatus.zero) with
    | mk r t1 =>
      cases r with
      | error err =>
        rw [filterNodeDisksLoop_error _ _ _ _ _ _ _ _ _ _ _ _ hg] at h
        exact Or.inl h
      | ok info =>
        rw [filterNodeDisksLoop_ok _ _ _ _ _ _ _ _ _ _ _ _ hg] at h
        rcases ih _ _ _ h with h | h
        · split at h
          · rename_i hcond
            rcases mem_mapInsert h with h | h
            · exact Or.inl h
            · refine Or.inr ⟨disk, t, ?_, info, ?_, hcond.1, ?_, hcond.2.2, ?_⟩
              · rw [h]; exact List.mem_cons_self _ _
              · rw [h]; simp only; rw [hg]
              · rw [h]; exact hcond.2.1
              · rw [h]
          · exact Or.inl h
        · exact lift h

/-- When the settings can be read and the disks of the list have pairwise
distinct identities, none of them among the candidates found before, the
filter loop returns the candidates found before and, for each disk of the
list that it accepts at its turn, one candidate. -/
theorem filterNodeDisksLoop_exact (ds : DataStore) (node : Node) (replica : Replica)
    (replicas : GoMap Replica) (volume : Volume) (hread : SettingsReadable ds) :
    ∀ (disks : List (String × DiskSpec)) (acc : GoMap Disk) (t : Nat),
      (disks.map Prod.fst).Nodup → (∀ k ∈ disks.map Prod.fst, k ∉ acc.map Prod.fst) →
      (acc.map Prod.fst).Nodup →
      (∀ e : String × Disk,
        e ∈ (filterNodeDisksLoop ds node replica replicas volume disks acc t).1 ↔
        e ∈ acc ∨ ∃ i disk, disks[i]? = some (e.1, disk) ∧
          Accepts ds (t + 2 * i) node replica replicas volume e.1 disk e.2) ∧
      ((filterNodeDisksLoop ds node replica replicas volume disks acc t).1.map Prod.fst).Nodup ∧
      (filterNodeDisksLoop ds node replica replicas volume disks acc t).2 =
        t + 2 * disks.length := by
  intro disks
  induction disks with
  | nil =>
    intro acc t _ _ hacc
    refine ⟨fun e => ?_, hacc, rfl⟩
    simp [filterNodeDisksLoop]
  | cons hd rest ih =>
    obtain ⟨fsid, disk⟩ := hd
    intro acc t hnodup hdisj hacc
    obtain ⟨info, hg⟩ := GetDiskSchedulingInfo_of_readable hread t disk
      (mapIndex node.Status.DiskStatus fsid DiskStatus.zero)
    rw [filterNodeDisksLoop_ok _ _ _ _ _ _ _ _ _ _ _ _ hg]
    have hfsid_rest : fsid ∉ rest.map Prod.fst := (List.nodup_cons.1 hnodup).1
    have hrest : (rest.map Prod.fst).Nodup := (List.nodup_cons.1 hnodup).2
    have hfsid_acc : fsid ∉ acc.map Prod.fst := hdisj fsid (List.mem_cons_self _ _)
    have hdisj_rest : ∀ k ∈ rest.map Prod.fst, k ∉ acc.map Prod.fst :=
      fun k hk => hdisj k (List.mem_cons_of_mem _ hk)
    by_cases hcond : disk.AllowScheduling = true ∧
        IsSchedulableToDisk replica.Spec.VolumeSize
          (addStorageScheduled info
            (storageScheduled replicas
              (mapIndex node.Status.DiskStatus fsid DiskStatus.zero).ScheduledReplica
              node.Name)) = true ∧
        (∀ tag ∈ volume.Spec.DiskSelector, tag ∈ disk.Tags)
    · rw [if_pos hcond, mapInsert_of_not_mem _ hfsid_acc]
      obtain ⟨d0, hd0⟩ : ∃ d0 : Disk,
          d0 = { DiskSpec := { disk with Tags := Strings disk.Tags }, NodeID := node.Name } :=
        ⟨_, rfl⟩
      rw [← hd0]
      have hdisj' : ∀ k ∈ rest.map Prod.fst, k ∉ (acc ++ [(fsid, d0)]).map Prod.fst := by
        intro k hk hmem
        rw [List.map_append, List.mem_append] at hmem
        rcases hmem with hmem | hmem
        · exact hdisj_rest k hk hmem
        · simp only [List.map_cons, List.map_nil, List.mem_singleton] at hmem
          exact hfsid_rest (hmem ▸ hk)
      have hacc' : ((acc ++ [(fsid, d0)]).map Prod.fst).Nodup := by
        rw [List.map_append]
        refine List.Nodup.append hacc (by simp) ?_
        intro k hk1 hk2
        simp only [List.map_cons, List.map_nil, List.mem_singleton] at hk2
        exact hfsid_acc (hk2 ▸ hk1)
      obtain ⟨ih1, ih2, ih3⟩ := ih _ (t + 2) hrest hdisj' hacc'
      refine ⟨fun e => ?_, ih2, ?_⟩
      · rw [ih1 e]
        obtain ⟨k, d⟩ := e
        simp only
        constructor
        · rintro (h | ⟨i, disk', hi, hacc⟩)
          · rcases List.mem_append.1 h with h | h
            · exact Or.inl h
            · rw [List.mem_singleton, Prod.mk.injEq] at h
              obtain ⟨hk, hd⟩ := h
              subst hk hd
              refine Or.inr ⟨0, disk, by simp, info, ?_, hcond.1, hcond.2.1, hcond.2.2, hd0⟩
              simp only [Nat.mul_zero, Nat.add_zero]; rw [hg]
          · refine Or.inr ⟨i + 1, disk', by simpa using hi, ?_⟩
            have : t + 2 * (i + 1) = t + 2 + 2 * i := by omega
            rw [this]; exact hacc
        · rintro (h | ⟨i, disk', hi, hacc⟩)
          · exact Or.inl (List.mem_append_left _ h)
          · cases i with
            | zero =>
              simp only [List.getElem?_cons_zero, Option.some.injEq, Prod.mk.injEq] at hi
              obtain ⟨hk, hdisk⟩ := hi
              subst hk hdisk
              obtain ⟨info', _, _, _, _, hd⟩ := hacc
              refine Or.inl (List.mem_append_right _ ?_)
              rw [List.mem_singleton, hd, hd0]
            | succ i =>
              refine Or.inr ⟨i, disk', by simpa using hi, ?_⟩
              have : t + 2 * (i + 1) = t + 2 + 2 * i := by omega
              rw [this] at hacc; exact hacc
      · rw [ih3]; simp only [List.length_cons]; omega
    · rw [if_neg hcond]
      obtain ⟨ih1, ih2, ih3⟩ := ih acc (t + 2) hrest hdisj_rest hacc
      refine ⟨fun e => ?_, ih2, ?_⟩
      · rw [ih1 e]
        obtain ⟨k, d⟩ := e
        simp only
        constructor
        · rintro (h | ⟨i, disk', hi, hacc⟩)
          · exact Or.inl h
          · refine Or.inr ⟨i + 1, disk', by simpa using hi, ?_⟩
            have : t + 2 * (i + 1) = t + 2 + 2 * i := by omega
            rw [this]; exact hacc
        · rintro (h | ⟨i, disk', hi, hacc⟩)
          · exact Or.inl h
          · cases i with
            | zero =>
              simp only [List.getElem?_cons_zero, Option.some.injEq, Prod.mk.injEq] at hi
              obtain ⟨hk, hdisk⟩ := hi
              subst hk hdisk
              obtain ⟨info', hinfo, h1, h2, h3, _⟩ := hacc
              exfalso
              apply hcond
              simp only [Nat.mul_zero, Nat.add_zero] at hinfo
              rw [hg] at hinfo
              simp only [Except.ok.injEq] at hinfo
              rw [hinfo]
              exact ⟨h1, h2, h3⟩
            | succ i =>
              refine Or.inr ⟨i, disk', by simpa using hi, ?_⟩
              have : t + 2 * (i + 1) = t + 2 + 2 * i := by omega
              rw [this] at hacc; exact hacc
      · rw [ih3]; simp only [List.length_cons]; omega

/-! ## The candidate selector -/

theorem scheduledNode_loop_mem (nodes : List Node) :
    ∀ (acc : GoMap Node) (e : String × Node),
      e ∈ nodes.foldl (fun scheduledNode node =>
        if nodeIsSchedulable node then mapInsert scheduledNode node.Name node
        else scheduledNode) acc →
      e ∈ acc ∨ (e.1 = e.2.Name ∧ e.2 ∈ nodes ∧ nodeIsSchedulable e.2 = true) := by
  induction nodes with
  | nil => intro acc e h; exact Or.inl h
  | cons node rest ih =>
    intro acc e h
    rw [List.foldl_cons] at h
    rcases ih _ e h with h | ⟨h1, h2, h3⟩
    · split at h
      · rename_i hs
        rcases mem_mapInsert h with h | h
        · exact Or.inl h
        · refine Or.inr ?_
          rw [h]
          exact ⟨rfl, List.mem_cons_self _ _, hs⟩
      · exact Or.inl h
    · exact Or.inr ⟨h1, List.mem_cons_of_mem _ h2, h3⟩

/-- Every entry of the map `getNodeInfo` builds is keyed by the name of its
node, which is one of the listed nodes and is schedulable. -/
theorem scheduledNode_mem {nodes : List Node} {e : String × Node}
    (h : e ∈ scheduledNode nodes) :
    e.1 = e.2.Name ∧ e.2 ∈ nodes ∧ nodeIsSchedulable e.2 = true := by
  rcases scheduledNode_loop_mem nodes [] e h with h | h
  · cases h
  · exact h

theorem filterNodeDisksForReplica_sound {ds : DataStore} {t : Nat} {node : Node}
    {replica : Replica} {replicas : GoMap Replica} {volume : Volume} {e : String × Disk}
    (h : e ∈ (filterNodeDisksForReplica ds t node replica replicas volume).1) :
    ∃ disk t', (e.1, disk) ∈ node.Spec.Disks ∧
      Accepts ds t' node replica replicas volume e.1 disk e.2 := by
  rcases filterNodeDisksLoop_sound ds node replica replicas volume _ _ _ e h with h | h
  · cases h
  · exact h

/-- When the first pass returns early, it returns the non-empty filter result of
a node that no replica occupies and that carries the tags of the node selector. -/
theorem chooseFirstPass_some (ds : DataStore) (replicas : GoMap Replica) (replica : Replica)
    (volume : Volume) :
    ∀ (nodes : List (String × Node)) (filterdNode : List Node) (t : Nat) (c : GoMap Disk),
      (chooseFirstPass ds replicas replica volume nodes filterdNode t).1 = some c →
      ∃ nodeName node t0, (nodeName, node) ∈ nodes ∧
        nodeIsBlocked replicas nodeName = false ∧
        (∀ tag ∈ volume.Spec.NodeSelector, tag ∈ node.Spec.Tags) ∧
        c = (filterNodeDisksForReplica ds t0 node replica replicas volume).1 ∧ c ≠ [] := by
  intro nodes
  induction nodes with
  | nil => intro fn t c h; simp [chooseFirstPass] at h
  | cons hd rest ih =>
    obtain ⟨nodeName, node⟩ := hd
    intro fn t c h
    have lift : (∃ nodeName' node' t0, (nodeName', node') ∈ rest ∧
        nodeIsBlocked replicas nodeName' = false ∧
        (∀ tag ∈ volume.Spec.NodeSelector, tag ∈ node'.Spec.Tags) ∧
        c = (filterNodeDisksForReplica ds t0 node' replica replicas volume).1 ∧ c ≠ []) →
        ∃ nodeName' node' t0, (nodeName', node') ∈ (nodeName, node) :: rest ∧
        nodeIsBlocked replicas nodeName' = false ∧
        (∀ tag ∈ volume.Spec.NodeSelector, tag ∈ node'.Spec.Tags) ∧
        c = (filterNodeDisksForReplica ds t0 node' replica replicas volume).1 ∧ c ≠ [] := by
      rintro ⟨a, b, t0, h1, h2⟩
      exact ⟨a, b, t0, List.mem_cons_of_mem _ h1, h2⟩
    rw [chooseFirstPass] at h
    simp only at h
    split at h
    · exact lift (ih _ _ _ h)
    · rename_i hpass
      simp only [Bool.or_eq_true, Bool.not_eq_true', not_or, Bool.not_eq_false,
        Bool.not_eq_true] at hpass
      split at h
      · rename_i hlen
        simp only [Option.some.injEq] at h
        refine ⟨nodeName, node, t, List.mem_cons_self _ _, hpass.2,
          (checkTagsAreFulfilled_snd _ _).1 hpass.1, h.symm, ?_⟩
        rw [← h]
        intro hnil
        rw [hnil] at hlen
        simp at hlen
      · exact lift (ih _ _ _ h)

/-- The nodes the first pass sets aside are occupied by a replica of the volume. -/
theorem chooseFirstPass_filterdNode (ds : DataStore) (replicas : GoMap Replica)
    (replica : Replica) (volume : Volume) :
    ∀ (nodes : List (String × Node)) (filterdNode : List Node) (t : Nat) (n : Node),
      n ∈ (chooseFirstPass ds replicas replica volume nodes filterdNode t).2.1 →
      n ∈ filterdNode ∨ ∃ nodeName, (nodeName, n) ∈ nodes ∧
        nodeIsBlocked replicas nodeName = true := by
  intro nodes
  induction nodes with
  | nil => intro fn t n h; exact Or.inl (by simpa [chooseFirstPass] using h)
  | cons hd rest ih =>
    obtain ⟨nodeName, node⟩ := hd
    intro fn t n h
    have lift : (n ∈ (if nodeIsBlocked replicas nodeName = true then fn ++ [node] else fn) ∨
        ∃ nodeName', (nodeName', n) ∈ rest ∧ nodeIsBlocked replicas nodeName' = true) →
        n ∈ fn ∨ ∃ nodeName', (nodeName', n) ∈ (nodeName, node) :: rest ∧
          nodeIsBlocked replicas nodeName' = true := by
      rintro (h | ⟨a, h1, h2⟩)
      · split at h
        · rename_i hb
          rcases List.mem_append.1 h with h | h
          · exact Or.inl h
          · rw [List.mem_singleton] at h
            exact Or.inr ⟨nodeName, by rw [h]; exact List.mem_cons_self _ _, hb⟩
        · exact Or.inl h
      · exact Or.inr ⟨a, List.mem_cons_of_mem _ h1, h2⟩
    rw [chooseFirstPass] at h
    simp only at h
    split at h
    · exact lift (ih _ _ _ h)
    · split at h
      · exact lift (Or.inl h)
      · exact lift (ih _ _ _ h)

/-- The second pass returns the candidates it was given, or the filter result
of one of the nodes it visits. -/
theorem chooseSecondPass_result (ds : DataStore) (replicas : GoMap Replica)
    (replica : Replica) (volume : Volume) :
    ∀ (nodes : List Node) (c : GoMap Disk) (t : Nat),
      (chooseSecondPass ds replicas replica volume nodes c t).1 = c ∨
      ∃ n t0, n ∈ nodes ∧ (chooseSecondPass ds replicas replica volume nodes c t).1 =
        (filterNodeDisksForReplica ds t0 n replica replicas volume).1 := by
  intro nodes
  induction nodes with
  | nil => intro c t; exact Or.inl rfl
  | cons node rest ih =>
    intro c t
    rw [chooseSecondPass]
    rcases ih (filterNodeDisksForReplica ds t node replica replicas volume).1
      (filterNodeDisksForReplica ds t node replica replicas volume).2 with h | ⟨n, t0, h1, h2⟩
    · exact Or.inr ⟨node, t, List.mem_cons_self _ _, h⟩
    · exact Or.inr ⟨n, t0, List.mem_cons_of_mem _ h1, h2⟩

/-- Where a candidate of `chooseDiskCandidates` comes from: the filter result of
a node of `nodeInfo` that either is occupied by no replica and carries the tags
of the node selector, or is occupied by a replica while the soft anti-affinity
setting did not read false. -/
theorem chooseDiskCandidates_mem (rt : Runtime) (ds : DataStore) (t : Nat)
    (nodeInfo : GoMap Node) (replicas : GoMap Replica) (replica : Replica) (volume : Volume)
    (e : String × Disk)
    (h : e ∈ (chooseDiskCandidates rt ds t nodeInfo replicas replica volume).1) :
    ∃ nodeName node t0, (nodeName, node) ∈ nodeInfo ∧
      e ∈ (filterNodeDisksForReplica ds t0 node replica replicas volume).1 ∧
      ((nodeIsBlocked replicas nodeName = false ∧
          ∀ tag ∈ volume.Spec.NodeSelector, tag ∈ node.Spec.Tags) ∨
        (nodeIsBlocked replicas nodeName = true ∧
          ∃ t', ds.GetSettingAsBool t' SettingName.ReplicaSoftAntiAffinity ≠ .ok false)) := by
  unfold chooseDiskCandidates at h
  cases hp : chooseFirstPass ds replicas replica volume (rt.rangeNodes nodeInfo) [] t with
  | mk first rest =>
    obtain ⟨filterdNode, t'⟩ := rest
    rw [hp] at h
    cases first with
    | some c =>
      simp only at h
      obtain ⟨nodeName, node, t0, hmem, hb, htags, hc, _⟩ :=
        chooseFirstPass_some ds replicas replica volume _ _ _ c (by rw [hp])
      exact ⟨nodeName, node, t0, (rt.rangeNodes_perm nodeInfo).mem_iff.1 hmem, hc ▸ h,
        Or.inl ⟨hb, htags⟩⟩
    | none =>
      simp only at h
      have hsecond : e ∈ (chooseSecondPass ds replicas replica volume filterdNode []
          (t' + 1)).1 →
          ds.GetSettingAsBool t' SettingName.ReplicaSoftAntiAffinity ≠ .ok false →
          ∃ nodeName node t0, (nodeName, node) ∈ nodeInfo ∧
            e ∈ (filterNodeDisksForReplica ds t0 node replica replicas volume).1 ∧
            ((nodeIsBlocked replicas nodeName = false ∧
                ∀ tag ∈ volume.Spec.NodeSelector, tag ∈ node.Spec.Tags) ∨
              (nodeIsBlocked replicas nodeName = true ∧
                ∃ t', ds.GetSettingAsBool t' SettingName.ReplicaSoftAntiAffinity ≠
                  .ok false)) := by
        intro he hsoft
        rcases chooseSecondPass_result ds replicas replica volume filterdNode [] (t' + 1)
          with hnil | ⟨n, t0, hn, hres⟩
        · rw [hnil] at he; cases he
        · have hfn := chooseFirstPass_filterdNode ds replicas replica volume
            (rt.rangeNodes nodeInfo) [] t n (by rw [hp]; exact hn)
          rcases hfn with hfn | ⟨nodeName, hmem, hb⟩
          · cases hfn
          · exact ⟨nodeName, n, t0, (rt.rangeNodes_perm nodeInfo).mem_iff.1 hmem, hres ▸ he,
              Or.inr ⟨hb, t', hsoft⟩⟩
      cases hs : ds.GetSettingAsBool t' SettingName.ReplicaSoftAntiAffinity with
      | error err =>
        rw [hs] at h
        exact hsecond h (by rw [hs]; simp)
      | ok b =>
        cases b with
        | false => rw [hs] at h; cases h
        | true =>
          rw [hs] at h
          exact hsecond h (by rw [hs]; simp)

/-! ## `ScheduleReplica` -/

theorem getNodeInfo_of_list {ds : DataStore} {t : Nat} {nodes : List Node}
    (h : ds.ListNodes t = .ok nodes) : getNodeInfo ds t = (.ok (scheduledNode nodes), t + 1) := by
  simp [getNodeInfo, h]

theorem scheduledNode_loop_of_none (nodes : List Node) (acc : GoMap Node)
    (h : ∀ node ∈ nodes, nodeIsSchedulable node = false) :
    nodes.foldl (fun scheduledNode node =>
      if nodeIsSchedulable node then mapInsert scheduledNode node.Name node
      else scheduledNode) acc = acc := by
  induction nodes generalizing acc with
  | nil => rfl
  | cons node rest ih =>
    have hnode : nodeIsSchedulable node = false := h node (List.mem_cons_self _ _)
    simp only [List.foldl_cons, hnode, Bool.false_eq_true, if_false]
    exact ih acc (fun n hn => h n (List.mem_cons_of_mem _ hn))


theorem scheduleReplicaToDisk_some (rt : Runtime) (replica : Replica)
    (diskCandidates : GoMap Disk) (hne : diskCandidates ≠ []) :
    ∃ fsid disk, (fsid, disk) ∈ diskCandidates ∧
      scheduleReplicaToDisk rt replica diskCandidates =
        some { replica with Spec := { replica.Spec with
          NodeID := disk.NodeID
          DiskID := fsid
          DataPath := rt.filepathJoin
            [disk.DiskSpec.Path, "replicas", replica.Spec.VolumeName ++ "-" ++ rt.RandomID] } } := by
  unfold scheduleReplicaToDisk
  have hperm := rt.rangeDisks_perm diskCandidates
  cases hr : rt.rangeDisks diskCandidates with
  | nil =>
    rw [hr] at hperm
    exact absurd (List.Perm.nil_eq hperm).symm hne
  | cons hd rest =>
    obtain ⟨fsid, disk⟩ := hd
    refine ⟨fsid, disk, hperm.mem_iff.1 (by rw [hr]; exact List.mem_cons_self _ _), rfl⟩

/-- `ScheduleReplica` never panics, and what it returns has one of three shapes:
an error with the replica untouched, `(nil, nil)` with the replica untouched,
or the replica itself, placed on a candidate of `chooseDiskCandidates`. -/
theorem ScheduleReplica_cases (rt : Runtime) (ds : DataStore) (t : Nat) (replica : Replica)
    (replicas : GoMap Replica) (volume : Volume) :
    (∃ err, ScheduleReplica rt ds t replica replicas volume =
      some { ret := none, err := some err, replica := replica }) ∨
    (replica.Spec.NodeID = "" ∧ ScheduleReplica rt ds t replica replicas volume =
      some { ret := none, err := none, replica := replica }) ∨
    (replica.Spec.NodeID = "" ∧ ∃ nodes fsid disk,
      ds.ListNodes t = .ok nodes ∧
      (fsid, disk) ∈ (chooseDiskCandidates rt ds (t + 1) (scheduledNode nodes) replicas replica
        volume).1 ∧
      ScheduleReplica rt ds t replica replicas volume =
        some { ret := some { replica with Spec := { replica.Spec with
                  NodeID := disk.NodeID
                  DiskID := fsid
                  DataPath := rt.filepathJoin [disk.DiskSpec.Path, "replicas",
                    replica.Spec.VolumeName ++ "-" ++ rt.RandomID] } }
               err := none
               replica := { replica with Spec := { replica.Spec with
                  NodeID := disk.NodeID
                  DiskID := fsid
                  DataPath := rt.filepathJoin [disk.DiskSpec.Path, "replicas",
                    replica.Spec.VolumeName ++ "-" ++ rt.RandomID] } } }) := by
  by_cases hnode : replica.Spec.NodeID = ""
  · cases hlist : ds.ListNodes t with
    | error err =>
      refine Or.inl ⟨err, ?_⟩
      simp [ScheduleReplica, hnode, getNodeInfo, hlist]
    | ok nodes =>
      by_cases hlen : (scheduledNode nodes).length = 0
      · refine Or.inr (Or.inl ⟨hnode, ?_⟩)
        simp [ScheduleReplica, hnode, getNodeInfo, hlist, hlen]
      · by_cases hc : (chooseDiskCandidates rt ds (t + 1) (scheduledNode nodes) replicas replica
            volume).1 = []
        · refine Or.inr (Or.inl ⟨hnode, ?_⟩)
          simp [ScheduleReplica, hnode, getNodeInfo, hlist, hlen, hc]
        · obtain ⟨fsid, disk, hmem, hs⟩ := scheduleReplicaToDisk_some rt replica _ hc
          refine Or.inr (Or.inr ⟨hnode, nodes, fsid, disk, rfl, hmem, ?_⟩)
          have hclen : ¬ (chooseDiskCandidates rt ds (t + 1) (scheduledNode nodes) replicas
              replica volume).1.length = 0 := by
            intro h0; exact hc (List.length_eq_zero.1 h0)
          unfold ScheduleReplica
          rw [if_neg (by simp [hnode]), getNodeInfo_of_list hlist]
          simp only [beq_iff_eq, hlen, hclen, if_false, hs]
  · refine Or.inl ⟨"BUG: Replica " ++ replica.Name ++ " has been scheduled to node " ++
      replica.Spec.NodeID, ?_⟩
    unfold ScheduleReplica
    rw [if_pos (by simpa using hnode)]

/-- A placement and where it comes from: when `ScheduleReplica` returns a
replica, the replica was unscheduled, no error is returned, and the replica was
assigned the name of a listed schedulable node `node` and the identity `fsid` of
one of its disks, accepted by the filter at some moment; the node either is
occupied by no replica of the volume and carries the tags of the node selector,
or is occupied while the soft anti-affinity setting did not read false. -/
theorem ScheduleReplica_placed (rt : Runtime) (ds : DataStore) (t : Nat) (replica : Replica)
    (replicas : GoMap Replica) (volume : Volume) (res : ScheduleResult) (r : Replica)
    (h : ScheduleReplica rt ds t replica replicas volume = some res)
    (hr : res.ret = some r) :
    replica.Spec.NodeID = "" ∧ res.err = none ∧ res.replica = r ∧
    ∃ nodes node fsid disk d t0,
      ds.ListNodes t = .ok nodes ∧ node ∈ nodes ∧ nodeIsSchedulable node = true ∧
      (fsid, disk) ∈ node.Spec.Disks ∧
      Accepts ds t0 node replica replicas volume fsid disk d ∧
      r = { replica with Spec := { replica.Spec with
              NodeID := node.Name
              DiskID := fsid
              DataPath := rt.filepathJoin [disk.Path, "replicas",
                replica.Spec.VolumeName ++ "-" ++ rt.RandomID] } } ∧
      ((nodeIsBlocked replicas node.Name = false ∧
          ∀ tag ∈ volume.Spec.NodeSelector, tag ∈ node.Spec.Tags) ∨
        (nodeIsBlocked replicas node.Name = true ∧
          ∃ t', ds.GetSettingAsBool t' SettingName.ReplicaSoftAntiAffinity ≠ .ok false)) := by
  rcases ScheduleReplica_cases rt ds t replica replicas volume with
    ⟨err, he⟩ | ⟨_, he⟩ | ⟨hnode, nodes, fsid, cand, hlist, hmem, he⟩
  · rw [he] at h; cases h; cases hr
  · rw [he] at h; cases h; cases hr
  · rw [he] at h
    cases h
    simp only [Option.some.injEq] at hr
    obtain ⟨nodeName, node, t0, hnodeInfo, hfilter, hpass⟩ :=
      chooseDiskCandidates_mem rt ds _ _ _ _ _ _ hmem
    obtain ⟨hname, hnodes, hsched⟩ := scheduledNode_mem hnodeInfo
    obtain ⟨disk, t1, hdisk, hacc⟩ := filterNodeDisksForReplica_sound hfilter
    simp only at hname hnodes hsched hdisk hacc
    have hcand : cand.DiskSpec.Path = disk.Path ∧ cand.NodeID = node.Name := by
      obtain ⟨_, _, _, _, _, hd⟩ := hacc
      rw [hd]
      exact ⟨rfl, rfl⟩
    refine ⟨hnode, rfl, hr, nodes, node, fsid, disk, cand, t1, hlist, hnodes, hsched, hdisk,
      hacc, ?_, ?_⟩
    · rw [← hr, hcand.1, hcand.2]
    · rw [← hname]; exact hpass

/-- `ScheduleReplica` returns `(nil, nil)` and leaves the replica untouched when
no listed node is schedulable or the candidate selector finds nothing. -/
theorem ScheduleReplica_of_no_candidate (rt : Runtime) (ds : DataStore) (t : Nat)
    (replica : Replica) (replicas : GoMap Replica) (volume : Volume) (nodes : List Node)
    (hunscheduled : replica.Spec.NodeID = "")
    (hlist : ds.ListNodes t = .ok nodes)
    (hnone : scheduledNode nodes = [] ∨
      (chooseDiskCandidates rt ds (t + 1) (scheduledNode nodes) replicas replica volume).1 = []) :
    ScheduleReplica rt ds t replica replicas volume =
      some { ret := none, err := none, replica := replica } := by
  unfold ScheduleReplica
  rw [if_neg (by simp [hunscheduled]), getNodeInfo_of_list hlist]
  rcases hnone with hnone | hnone
  · simp [hnone]
  · simp only [hnone]
    by_cases hlen : (scheduledNode nodes).length = 0 <;> simp [hlen]

/-! ## C2, C3: the outcomes of `ScheduleReplica` without a placement -/

/-- C2. A replica whose node assignment is non-empty is rejected: whatever the
siblings, the volume and the cluster state are, `ScheduleReplica` returns a nil
replica and a non-nil error and leaves every field of the replica as it was. -/
theorem ScheduleReplica_rejects_scheduled (rt : Runtime) (ds : DataStore) (t : Nat)
    (replica : Replica) (replicas : GoMap Replica) (volume : Volume)
    (hscheduled : replica.Spec.NodeID ≠ "") :
    ∃ res err, ScheduleReplica rt ds t replica replicas volume = some res ∧
      res.ret = none ∧ res.err = some err ∧ res.replica = replica := by
  refine ⟨{ ret := none
            err := some ("BUG: Replica " ++ replica.Name ++ " has been scheduled to node " ++
              replica.Spec.NodeID)
            replica := replica }, _, ?_, rfl, rfl, rfl⟩
  unfold ScheduleReplica
  rw [if_pos (by simpa using hscheduled)]

/-- C3. For an unscheduled replica and a cluster state whose nodes can be
listed: when no node is undeleted, ready and schedulable, or when the candidate
selector yields no candidate, `ScheduleReplica` returns `(nil, nil)` and leaves
the replica as it was, so that its node stays empty and its disk and data path
stay empty when they were. -/
theorem ScheduleReplica_no_candidate (rt : Runtime) (ds : DataStore) (t : Nat)
    (replica : Replica) (replicas : GoMap Replica) (volume : Volume) (nodes : List Node)
    (hunscheduled : replica.Spec.NodeID = "")
    (hlist : ds.ListNodes t = .ok nodes)
    (hnone : (∀ node ∈ nodes, nodeIsSchedulable node = false) ∨
      (chooseDiskCandidates rt ds (t + 1) (scheduledNode nodes) replicas replica volume).1 = []) :
    ∃ res, ScheduleReplica rt ds t replica replicas volume = some res ∧
      res.ret = none ∧ res.err = none ∧ res.replica = replica ∧
      res.replica.Spec.NodeID = "" ∧
      (replica.Spec.DiskID = "" → res.replica.Spec.DiskID = "") ∧
      (replica.Spec.DataPath = "" → res.replica.Spec.DataPath = "") := by
  refine ⟨{ ret := none, err := none, replica := replica }, ?_, rfl, rfl, rfl, hunscheduled,
    fun h => h, fun h => h⟩
  refine ScheduleReplica_of_no_candidate rt ds t replica replicas volume nodes hunscheduled
    hlist ?_
  rcases hnone with hnone | hnone
  · exact Or.inl (scheduledNode_loop_of_none nodes [] hnone)
  · exact Or.inr hnone

/-- C2, witness: a replica already on node `X`. -/
theorem ScheduleReplica_rejects_scheduled_witness :
    (Example.replica "r1" 50 "X" "").Spec.NodeID ≠ "" ∧
    ∃ res err, ScheduleReplica Example.runtime (Example.datastore [] (.ok false) 100 0) 0
        (Example.replica "r1" 50 "X" "") [] (Example.volume [] []) = some res ∧
      res.ret = none ∧ res.err = some err ∧ res.replica = Example.replica "r1" 50 "X" "" :=
  ⟨by decide, ScheduleReplica_rejects_scheduled _ _ _ _ _ _ (by decide)⟩

/-- C3, witness: one ready node without any disk. -/
theorem ScheduleReplica_no_candidate_witness :
    ∃ res, ScheduleReplica Example.runtime
        (Example.datastore [Example.node "X" [] [] []] (.ok false) 100 0) 0
        (Example.replica "r1" 50 "" "") [] (Example.volume [] []) = some res ∧
      res.ret = none ∧ res.err = none ∧ res.replica = Example.replica "r1" 50 "" "" ∧
      res.replica.Spec.NodeID = "" ∧
      ((Example.replica "r1" 50 "" "").Spec.DiskID = "" → res.replica.Spec.DiskID = "") ∧
      ((Example.replica "r1" 50 "" "").Spec.DataPath = "" → res.replica.Spec.DataPath = "") :=
  ScheduleReplica_no_candidate Example.runtime
    (Example.datastore [Example.node "X" [] [] []] (.ok false) 100 0) 0
    (Example.replica "r1" 50 "" "") [] (Example.volume [] []) [Example.node "X" [] [] []]
    (by decide) rfl (Or.inr (by decide))

/-! ## C7: the tag checker on sorted tags -/

/-- C7. For candidate tags sorted ascending and any required tags,
`checkTagsAreFulfilled` returns true if and only if every required tag occurs
among the candidate tags, and leaves the candidate tags as they are; so it
returns true when no tag is required, and false when tags are required of a
candidate that has none. -/
theorem checkTagsAreFulfilled_sorted (candidateTags requiredTags : List String)
    (hsorted : candidateTags.Sorted tagLE) :
    ((checkTagsAreFulfilled candidateTags requiredTags).2 = true ↔
      ∀ tag ∈ requiredTags, tag ∈ candidateTags) ∧
    (checkTagsAreFulfilled candidateTags requiredTags).1 = candidateTags ∧
    (checkTagsAreFulfilled candidateTags []).2 = true ∧
    (requiredTags ≠ [] → (checkTagsAreFulfilled [] requiredTags).2 = false) := by
  refine ⟨checkTagsAreFulfilled_snd _ _, ?_, ?_, ?_⟩
  · rw [checkTagsAreFulfilled_fst, Strings_of_sorted hsorted]
  · rw [checkTagsAreFulfilled_snd]
    intro tag htag
    cases htag
  · intro hne
    cases hc : (checkTagsAreFulfilled [] requiredTags).2 with
    | false => rfl
    | true =>
      have hall := (checkTagsAreFulfilled_snd [] requiredTags).1 hc
      cases requiredTags with
      | nil => exact absurd rfl hne
      | cons tag rest => exact absurd (hall tag (List.mem_cons_self _ _)) (List.not_mem_nil _)

/-- C7, witness: a disk tagged `hdd` and `ssd` fulfils the selector `ssd`. -/
theorem checkTagsAreFulfilled_sorted_witness :
    List.Sorted tagLE ["hdd", "ssd"] ∧
    ((checkTagsAreFulfilled ["hdd", "ssd"] ["ssd"]).2 = true ↔
      ∀ tag ∈ ["ssd"], tag ∈ ["hdd", "ssd"]) ∧
    (checkTagsAreFulfilled ["hdd", "ssd"] ["ssd"]).1 = ["hdd", "ssd"] ∧
    (checkTagsAreFulfilled ["hdd", "ssd"] []).2 = true ∧
    (["ssd"] ≠ [] → (checkTagsAreFulfilled [] ["ssd"]).2 = false) :=
  ⟨by decide, checkTagsAreFulfilled_sorted ["hdd", "ssd"] ["ssd"] (by decide)⟩


/-! ## C4: hard anti-affinity -/

theorem nodeIsBlocked_eq_false_iff (replicas : GoMap Replica) (nodeName : String) :
    nodeIsBlocked replicas nodeName = false ↔
      ∀ e ∈ replicas, e.2.Spec.NodeID ≠ "" → e.2.DeletionTimestamp = none →
        e.2.Spec.FailedAt = "" → e.2.Spec.NodeID ≠ nodeName := by
  unfold nodeIsBlocked
  rw [List.any_eq_false]
  constructor
  · intro h e he h1 h2 h3 h4
    apply h e he
    simp only [occupies, Bool.and_eq_true, bne_iff_ne, ne_eq, beq_iff_eq,
      Option.isNone_iff_eq_none]
    exact ⟨⟨⟨h1, h4⟩, h2⟩, h3⟩
  · intro h e he hocc
    simp only [occupies, Bool.and_eq_true, bne_iff_ne, ne_eq, beq_iff_eq,
      Option.isNone_iff_eq_none] at hocc
    exact h e he hocc.1.1.1 hocc.1.2 hocc.2 hocc.1.1.2

theorem not_mem_activeNodes_of_not_blocked {replicas : GoMap Replica} {nodeName : String}
    (h : nodeIsBlocked replicas nodeName = false) : nodeName ∉ activeNodes replicas := by
  rw [nodeIsBlocked_eq_false_iff] at h
  intro hmem
  unfold activeNodes at hmem
  obtain ⟨e, he, hname⟩ := List.mem_map.1 hmem
  obtain ⟨he1, he2⟩ := List.mem_filter.1 he
  simp only [Bool.and_eq_true, bne_iff_ne, ne_eq, beq_iff_eq,
    Option.isNone_iff_eq_none] at he2
  exact h e he1 he2.1.1 he2.1.2 he2.2 hname

/-- C4. No self-collision under hard anti-affinity: when the soft anti-affinity
setting reads false whenever it is read, `ScheduleReplica` returns a result, and
if the result is a replica, its node differs from the node of every sibling that
has a node assignment, no deletion marker and no failure timestamp; so the
nodes of the active replicas stay pairwise distinct when they were.  When every
schedulable node hosts an active sibling (in particular when the only ready
node does), the result for an unscheduled replica is `(nil, nil)`. -/
theorem ScheduleReplica_hard_anti_affinity (rt : Runtime) (ds : DataStore) (t : Nat)
    (replica : Replica) (replicas : GoMap Replica) (volume : Volume)
    (hhard : ∀ t', ds.GetSettingAsBool t' SettingName.ReplicaSoftAntiAffinity = .ok false) :
    ∃ res, ScheduleReplica rt ds t replica replicas volume = some res ∧
      (∀ r, res.ret = some r →
        (∀ e ∈ replicas, e.2.Spec.NodeID ≠ "" → e.2.DeletionTimestamp = none →
          e.2.Spec.FailedAt = "" → e.2.Spec.NodeID ≠ r.Spec.NodeID) ∧
        ((activeNodes replicas).Nodup → (r.Spec.NodeID :: activeNodes replicas).Nodup)) ∧
      (∀ nodes, replica.Spec.NodeID = "" → ds.ListNodes t = .ok nodes →
        (∀ node ∈ nodes, nodeIsSchedulable node = true →
          nodeIsBlocked replicas node.Name = true) →
        res = { ret := none, err := none, replica := replica }) := by
  have htotal : ∃ res, ScheduleReplica rt ds t replica replicas volume = some res := by
    rcases ScheduleReplica_cases rt ds t replica replicas volume with
      ⟨_, h⟩ | ⟨_, h⟩ | ⟨_, _, _, _, _, _, h⟩ <;> exact ⟨_, h⟩
  obtain ⟨res, hres⟩ := htotal
  refine ⟨res, hres, ?_, ?_⟩
  · intro r hr
    obtain ⟨_, _, _, nodes, node, fsid, disk, d, t0, _, _, _, _, _, hrep, hpass⟩ :=
      ScheduleReplica_placed rt ds t replica replicas volume res r hres hr
    have hnodeID : r.Spec.NodeID = node.Name := by rw [hrep]
    have hfree : nodeIsBlocked replicas node.Name = false := by
      rcases hpass with ⟨h, _⟩ | ⟨_, t', ht'⟩
      · exact h
      · exact absurd (hhard t') ht'
    rw [hnodeID]
    exact ⟨(nodeIsBlocked_eq_false_iff _ _).1 hfree,
      fun hnodup => List.nodup_cons.2 ⟨not_mem_activeNodes_of_not_blocked hfree, hnodup⟩⟩
  · intro nodes hunscheduled hlist hblocked
    have hempty : (chooseDiskCandidates rt ds (t + 1) (scheduledNode nodes) replicas replica
        volume).1 = [] := by
      apply List.eq_nil_iff_forall_not_mem.2
      intro e he
      obtain ⟨nodeName, node, t0, hmem, _, hpass⟩ :=
        chooseDiskCandidates_mem rt ds _ _ _ _ _ e he
      obtain ⟨hname, hnodes, hsched⟩ := scheduledNode_mem hmem
      simp only at hname hnodes hsched
      rcases hpass with ⟨h, _⟩ | ⟨_, t', ht'⟩
      · rw [hname, hblocked node hnodes hsched] at h
        cases h
      · exact ht' (hhard t')
    have := ScheduleReplica_of_no_candidate rt ds t replica replicas volume nodes hunscheduled
      hlist (Or.inr hempty)
    rw [this] at hres
    exact (Option.some.inj hres).symm


/-- C4, witness: node `X` hosts the sibling `r0`, node `Y` is free, and the
setting reads false; the replica goes to `Y`. -/
theorem ScheduleReplica_hard_anti_affinity_witness :
    (∀ t', (Example.datastore [Example.plainNode "X" [], Example.plainNode "Y" []]
      (.ok false) 100 0).GetSettingAsBool t' SettingName.ReplicaSoftAntiAffinity = .ok false) ∧
    (∃ res, ScheduleReplica Example.runtime
        (Example.datastore [Example.plainNode "X" [], Example.plainNode "Y" []]
          (.ok false) 100 0) 0
        (Example.replica "r1" 50 "" "") [("r0", Example.replica "r0" 10 "X" "")]
        (Example.volume [] []) = some res ∧
      (∀ r, res.ret = some r →
        (∀ e ∈ [("r0", Example.replica "r0" 10 "X" "")], e.2.Spec.NodeID ≠ "" →
          e.2.DeletionTimestamp = none → e.2.Spec.FailedAt = "" →
          e.2.Spec.NodeID ≠ r.Spec.NodeID) ∧
        ((activeNodes [("r0", Example.replica "r0" 10 "X" "")]).Nodup →
          (r.Spec.NodeID :: activeNodes [("r0", Example.replica "r0" 10 "X" "")]).Nodup)) ∧
      (∀ nodes, (Example.replica "r1" 50 "" "").Spec.NodeID = "" →
        (Example.datastore [Example.plainNode "X" [], Example.plainNode "Y" []]
          (.ok false) 100 0).ListNodes 0 = .ok nodes →
        (∀ node ∈ nodes, nodeIsSchedulable node = true →
          nodeIsBlocked [("r0", Example.replica "r0" 10 "X" "")] node.Name = true) →
        res = { ret := none, err := none, replica := Example.replica "r1" 50 "" "" })) ∧
    (ScheduleReplica Example.runtime
        (Example.datastore [Example.plainNode "X" [], Example.plainNode "Y" []]
          (.ok false) 100 0) 0
        (Example.replica "r1" 50 "" "") [("r0", Example.replica "r0" 10 "X" "")]
        (Example.volume [] [])).map (fun res => res.ret.map (fun r => r.Spec.NodeID)) =
      some (some "Y") :=
  ⟨fun _ => rfl,
   ScheduleReplica_hard_anti_affinity Example.runtime
    (Example.datastore [Example.plainNode "X" [], Example.plainNode "Y" []] (.ok false) 100 0) 0
    (Example.replica "r1" 50 "" "") [("r0", Example.replica "r0" 10 "X" "")]
    (Example.volume [] []) (fun _ => rfl),
   by decide⟩


/-! ## C5: tag satisfaction -/

/-- C5 (the code at the failing input). Node `X` carries no tag and hosts the
active sibling `r0`; the volume requires the node tag `gpu`; soft anti-affinity
reads true.  The relaxation pass filters the disks of `X` without looking at its
tags, and the replica is placed on `X`. -/
theorem ScheduleReplica_relaxation_ignores_node_selector :
    (ScheduleReplica Example.runtime
        (Example.datastore [Example.plainNode "X" []] (.ok true) 100 0) 0
        (Example.replica "r1" 50 "" "") [("r0", Example.replica "r0" 10 "X" "")]
        (Example.volume ["gpu"] [])).map (fun res => res.ret.map (fun r => r.Spec.NodeID)) =
      some (some "X") ∧
    "gpu" ∈ (Example.volume ["gpu"] []).Spec.NodeSelector ∧
    "gpu" ∉ (Example.plainNode "X" []).Spec.Tags := by
  decide

/-! ## C6: capacity at decision time -/

theorem mul_tdiv_le_tdiv_mul {a p : Int} (ha : 0 ≤ a) (hp : 0 ≤ p) :
    a * Int.tdiv p 100 ≤ Int.tdiv (a * p) 100 := by
  rw [Int.tdiv_eq_ediv hp (by norm_num), Int.tdiv_eq_ediv (Int.mul_nonneg ha hp) (by norm_num)]
  rw [Int.le_ediv_iff_mul_le (by norm_num)]
  have h := Int.ediv_mul_le p (show (100 : Int) ≠ 0 by norm_num)
  calc a * (p / 100) * 100 = a * (p / 100 * 100) := by ring
    _ ≤ a * p := Int.mul_le_mul_of_nonneg_left h ha

/-- C6 (counterexample). A replica of size 0 is placed on disk `A` of node `X`,
whose figures are max = 100, reserved = 600, scheduled = 0, available = 100,
with over-provisioning 50 and minimal-available 0: the code compares
`0 + 0 <= (100 - 600) * (50 / 100) = 0`, while the bound of the claim,
`(100 - 600) * 50 / 100 = -250`, does not hold. -/
theorem ScheduleReplica_capacity_counterexample :
    (ScheduleReplica Example.runtime
        (Example.datastore
          [Example.node "X" [] [("A", Example.disk "/data" true 600 [])]
            [("A", Example.status 100 0 100)]] (.ok false) 50 0) 0
        (Example.replica "r1" 0 "" "") [] (Example.volume [] [])).map
      (fun res => res.ret.map (fun r => (r.Spec.NodeID, r.Spec.DiskID))) =
      some (some ("X", "A")) ∧
    ¬ ((0 : Int) + (Example.status 100 0 100).StorageScheduled ≤
      Int.tdiv (((Example.status 100 0 100).StorageMaximum -
        (Example.disk "/data" true 600 []).StorageReserved) * 50) 100) := by
  decide


theorem ScheduleReplica_total (rt : Runtime) (ds : DataStore) (t : Nat) (replica : Replica)
    (replicas : GoMap Replica) (volume : Volume) :
    ∃ res, ScheduleReplica rt ds t replica replicas volume = some res := by
  rcases ScheduleReplica_cases rt ds t replica replicas volume with
    ⟨_, h⟩ | ⟨_, h⟩ | ⟨_, _, _, _, _, _, h⟩ <;> exact ⟨_, h⟩

/-- C6 (amended). Capacity respected: when `ScheduleReplica` returns a replica,
the figures `info` of the assigned disk at decision time (the status of the
disk, the reservation of its spec, the two settings as read, and the scheduled
capacity including the provisional sibling amount) satisfy, in the `int64`
arithmetic of the code, `size + scheduled <= (max - reserved) * (overProvisioning / 100)`
with the inner division truncating, and `available > max * minAvailable / 100`.
When moreover nothing overflows, `reserved <= max` and `overProvisioning >= 0`,
they satisfy `size + scheduled <= (max - reserved) * overProvisioning / 100`
with the product divided by 100. -/
theorem ScheduleReplica_capacity (rt : Runtime) (ds : DataStore) (t : Nat)
    (replica : Replica) (replicas : GoMap Replica) (volume : Volume) :
    ∃ res, ScheduleReplica rt ds t replica replicas volume = some res ∧
      ∀ r, res.ret = some r →
        ∃ nodes node fsid disk t0 overProvisioning minimalAvailable info,
          ds.ListNodes t = .ok nodes ∧ node ∈ nodes ∧ (fsid, disk) ∈ node.Spec.Disks ∧
          r.Spec.NodeID = node.Name ∧ r.Spec.DiskID = fsid ∧
          ds.GetSettingAsInt t0 SettingName.StorageOverProvisioningPercentage =
            .ok overProvisioning ∧
          ds.GetSettingAsInt (t0 + 1) SettingName.StorageMinimalAvailablePercentage =
            .ok minimalAvailable ∧
          info = addStorageScheduled
            { StorageAvailable :=
                (mapIndex node.Status.DiskStatus fsid DiskStatus.zero).StorageAvailable
              StorageScheduled :=
                (mapIndex node.Status.DiskStatus fsid DiskStatus.zero).StorageScheduled
              StorageReserved := disk.StorageReserved
              StorageMaximum :=
                (mapIndex node.Status.DiskStatus fsid DiskStatus.zero).StorageMaximum
              OverProvisioningPercentage := overProvisioning
              MinimalAvailablePercentage := minimalAvailable }
            (storageScheduled replicas
              (mapIndex node.Status.DiskStatus fsid DiskStatus.zero).ScheduledReplica
              node.Name) ∧
          add64 replica.Spec.VolumeSize info.StorageScheduled ≤
            mul64 (sub64 info.StorageMaximum info.StorageReserved)
              (div64 info.OverProvisioningPercentage 100) ∧
          info.StorageAvailable >
            div64 (mul64 info.StorageMaximum info.MinimalAvailablePercentage) 100 ∧
          (ExactArithmetic replica.Spec.VolumeSize info →
            info.StorageReserved ≤ info.StorageMaximum →
            0 ≤ info.OverProvisioningPercentage →
            replica.Spec.VolumeSize + info.StorageScheduled ≤
              Int.tdiv ((info.StorageMaximum - info.StorageReserved) *
                info.OverProvisioningPercentage) 100 ∧
            info.StorageAvailable >
              Int.tdiv (info.StorageMaximum * info.MinimalAvailablePercentage) 100) := by
  obtain ⟨res, hres⟩ := ScheduleReplica_total rt ds t replica replicas volume
  refine ⟨res, hres, ?_⟩
  intro r hr
  obtain ⟨_, _, _, nodes, node, fsid, disk, d, t0, hlist, hnode, _, hdisk, hacc, hrep, _⟩ :=
    ScheduleReplica_placed rt ds t replica replicas volume res r hres hr
  obtain ⟨info0, hinfo0, _, hcap, _, _⟩ := hacc
  obtain ⟨op, mp, hop, hmp, hinfo0eq⟩ := (GetDiskSchedulingInfo_ok_iff _ _ _ _ _).1 hinfo0
  rw [hinfo0eq] at hcap
  refine ⟨nodes, node, fsid, disk, t0, op, mp, _, hlist, hnode, hdisk, by rw [hrep],
    by rw [hrep], hop, hmp, rfl, ?_, ?_, ?_⟩
  · exact ((IsSchedulableToDisk_true_iff _ _).1 hcap).2.2.1
  · exact ((IsSchedulableToDisk_true_iff _ _).1 hcap).2.2.2
  · intro hexact hreserved hpercent
    obtain ⟨_, _, h3, h4⟩ := (IsSchedulableToDisk_true_iff_exact _ _ hexact).1 hcap
    exact ⟨le_trans h3 (mul_tdiv_le_tdiv_mul (by omega) hpercent), h4⟩


/-! ## C8: the disk filter -/

theorem wellFormedMap_unique {V : Type} {m : GoMap V} (h : WellFormedMap m) {k : String}
    {v v' : V} (hv : (k, v) ∈ m) (hv' : (k, v') ∈ m) : v = v' := by
  induction m with
  | nil => cases hv
  | cons hd rest ih =>
    unfold WellFormedMap at h ih
    rw [List.map_cons, List.nodup_cons] at h
    rcases List.mem_cons.1 hv with hv | hv <;> rcases List.mem_cons.1 hv' with hv' | hv'
    · rw [← hv] at hv'
      exact (Prod.mk.inj hv').2.symm
    · exact absurd (List.mem_map.2 ⟨(k, v'), hv', by rw [← hv]⟩) h.1
    · exact absurd (List.mem_map.2 ⟨(k, v), hv, by rw [← hv']⟩) h.1
    · exact ih h.2 hv hv'

/-- When the candidate selector finds candidates for an unscheduled replica,
`ScheduleReplica` places the replica on one of them. -/
theorem ScheduleReplica_of_candidates (rt : Runtime) (ds : DataStore) (t : Nat)
    (replica : Replica) (replicas : GoMap Replica) (volume : Volume) (nodes : List Node)
    (hunscheduled : replica.Spec.NodeID = "")
    (hlist : ds.ListNodes t = .ok nodes)
    (hcandidates : (chooseDiskCandidates rt ds (t + 1) (scheduledNode nodes) replicas replica
      volume).1 ≠ []) :
    ∃ fsid disk,
      (fsid, disk) ∈ (chooseDiskCandidates rt ds (t + 1) (scheduledNode nodes) replicas replica
        volume).1 ∧
      ScheduleReplica rt ds t replica replicas volume =
        some { ret := some { replica with Spec := { replica.Spec with
                  NodeID := disk.NodeID
                  DiskID := fsid
                  DataPath := rt.filepathJoin [disk.DiskSpec.Path, "replicas",
                    replica.Spec.VolumeName ++ "-" ++ rt.RandomID] } }
               err := none
               replica := { replica with Spec := { replica.Spec with
                  NodeID := disk.NodeID
                  DiskID := fsid
                  DataPath := rt.filepathJoin [disk.DiskSpec.Path, "replicas",
                    replica.Spec.VolumeName ++ "-" ++ rt.RandomID] } } } := by
  rcases ScheduleReplica_cases rt ds t replica replicas volume with
    ⟨err, he⟩ | ⟨_, he⟩ | ⟨_, nodes', fsid, disk, hlist', hmem, he⟩
  · exfalso
    by_cases hlen : (scheduledNode nodes).length = 0
    · have := ScheduleReplica_of_no_candidate rt ds t replica replicas volume nodes
        hunscheduled hlist (Or.inl (List.length_eq_zero.1 hlen))
      rw [this] at he
      cases he
    · obtain ⟨fsid, disk, _, hs⟩ := scheduleReplicaToDisk_some rt replica _ hcandidates
      have hclen : ¬ (chooseDiskCandidates rt ds (t + 1) (scheduledNode nodes) replicas
          replica volume).1.length = 0 := fun h0 => hcandidates (List.length_eq_zero.1 h0)
      unfold ScheduleReplica at he
      rw [if_neg (by simp [hunscheduled]), getNodeInfo_of_list hlist] at he
      simp only [beq_iff_eq, hlen, hclen, if_false, hs] at he
      cases he
  · exfalso
    by_cases hlen : (scheduledNode nodes).length = 0
    · have hnil : scheduledNode nodes = [] := List.length_eq_zero.1 hlen
      apply hcandidates
      apply List.eq_nil_iff_forall_not_mem.2
      intro e hmem
      obtain ⟨_, _, _, hin, _⟩ := chooseDiskCandidates_mem rt ds _ _ _ _ _ e hmem
      rw [hnil] at hin
      cases hin
    · obtain ⟨fsid, disk, _, hs⟩ := scheduleReplicaToDisk_some rt replica _ hcandidates
      have hclen : ¬ (chooseDiskCandidates rt ds (t + 1) (scheduledNode nodes) replicas
          replica volume).1.length = 0 := fun h0 => hcandidates (List.length_eq_zero.1 h0)
      unfold ScheduleReplica at he
      rw [if_neg (by simp [hunscheduled]), getNodeInfo_of_list hlist] at he
      simp only [beq_iff_eq, hlen, hclen, if_false, hs] at he
      cases he
  · rw [hlist] at hlist'
    cases hlist'
    exact ⟨fsid, disk, hmem, he⟩


/-- The candidates of the two-disk scenario, whatever the order in which the
runtime visits maps: disk `A` alone. -/
theorem twoDiskNode_candidates (rt : Runtime) (soft : Except String Bool) (pathB : String)
    (reservedB : Int) (tagsB : List String) (statusB : DiskStatus) (visitBFirst : Bool) :
    (chooseDiskCandidates rt
      (Example.datastore
        [Example.twoDiskNode (Example.disk pathB false reservedB tagsB) statusB visitBFirst]
        soft 100 0) 1
      (scheduledNode
        [Example.twoDiskNode (Example.disk pathB false reservedB tagsB) statusB visitBFirst])
      [] (Example.replica "r1" 50 "" "") (Example.volume [] [])).1 =
      [("A", { DiskSpec := Example.disk "/data" true 0 [], NodeID := "X" })] := by
  have hnodes : scheduledNode
      [Example.twoDiskNode (Example.disk pathB false reservedB tagsB) statusB visitBFirst] =
      [("X", Example.twoDiskNode (Example.disk pathB false reservedB tagsB) statusB
        visitBFirst)] := by
    cases visitBFirst <;> rfl
  have hrange := List.perm_singleton.1 (rt.rangeNodes_perm
    [("X", Example.twoDiskNode (Example.disk pathB false reservedB tagsB) statusB visitBFirst)])
  unfold chooseDiskCandidates
  rw [hnodes, hrange]
  cases visitBFirst <;> rfl

/-- C8. When the over-provisioning and minimal-available settings can be read,
`filterNodeDisksForReplica` returns exactly the disks of the node that it
accepts (`Accepts`): scheduling enabled, capacity test passed for the size of
the replica on the scheduling info of the disk (read when the disk is visited,
the `i`-th disk at clock `t + 2 * i`, with the provisional scheduled capacity
added), every tag of the disk selector carried.  Each candidate is keyed by the
identity of its disk, carries the spec of the disk (its tags in ascending order,
as the tag check leaves them) and the name of the node; the result is a
well-formed map.  A disk with scheduling disabled is no candidate, nor is a disk
tagged `hdd` for the selector `ssd`.  In the two-disk scenario the replica of
size 50 is placed on disk `A`, whatever disk `B` reports, whatever order maps
are visited in. -/
theorem filterNodeDisksForReplica_exact (ds : DataStore) (t : Nat) (node : Node)
    (replica : Replica) (replicas : GoMap Replica) (volume : Volume)
    (hread : SettingsReadable ds) (hdisks : WellFormedMap node.Spec.Disks) :
    (∀ fsid d, (fsid, d) ∈ (filterNodeDisksForReplica ds t node replica replicas volume).1 ↔
      ∃ i disk, node.Spec.Disks[i]? = some (fsid, disk) ∧
        Accepts ds (t + 2 * i) node replica replicas volume fsid disk d) ∧
    WellFormedMap (filterNodeDisksForReplica ds t node replica replicas volume).1 ∧
    (∀ fsid disk, (fsid, disk) ∈ node.Spec.Disks → disk.AllowScheduling = false →
      ∀ d, (fsid, d) ∉ (filterNodeDisksForReplica ds t node replica replicas volume).1) ∧
    (∀ fsid disk, (fsid, disk) ∈ node.Spec.Disks → disk.Tags = ["hdd"] →
      volume.Spec.DiskSelector = ["ssd"] →
      ∀ d, (fsid, d) ∉ (filterNodeDisksForReplica ds t node replica replicas volume).1) ∧
    (∀ (rt : Runtime) (soft : Except String Bool) (pathB : String) (reservedB : Int)
      (tagsB : List String) (statusB : DiskStatus) (visitBFirst : Bool),
      ∃ res r, ScheduleReplica rt
          (Example.datastore
            [Example.twoDiskNode (Example.disk pathB false reservedB tagsB) statusB visitBFirst]
            soft 100 0) 0
          (Example.replica "r1" 50 "" "") [] (Example.volume [] []) = some res ∧
        res.ret = some r ∧ r.Spec.NodeID = "X" ∧ r.Spec.DiskID = "A") := by
  obtain ⟨hmem, hwf, _⟩ := filterNodeDisksLoop_exact ds node replica replicas volume hread
    node.Spec.Disks [] t hdisks (fun _ _ h => by cases h) List.nodup_nil
  have hiff : ∀ fsid d,
      (fsid, d) ∈ (filterNodeDisksForReplica ds t node replica replicas volume).1 ↔
      ∃ i disk, node.Spec.Disks[i]? = some (fsid, disk) ∧
        Accepts ds (t + 2 * i) node replica replicas volume fsid disk d := by
    intro fsid d
    unfold filterNodeDisksForReplica
    rw [hmem (fsid, d)]
    simp only [List.not_mem_nil, false_or]
  have hsame : ∀ fsid disk d, (fsid, disk) ∈ node.Spec.Disks →
      (fsid, d) ∈ (filterNodeDisksForReplica ds t node replica replicas volume).1 →
      disk.AllowScheduling = true ∧ ∀ tag ∈ volume.Spec.DiskSelector, tag ∈ disk.Tags := by
    intro fsid disk d hdisk hd
    obtain ⟨i, disk', hi, _, _, hallow, _, htags, _⟩ := (hiff fsid d).1 hd
    have heq : disk = disk' := wellFormedMap_unique hdisks hdisk
      (List.mem_iff_getElem?.2 ⟨i, hi⟩)
    rw [heq]
    exact ⟨hallow, htags⟩
  refine ⟨hiff, hwf, ?_, ?_, ?_⟩
  · intro fsid disk hdisk hallow d hd
    rw [(hsame fsid disk d hdisk hd).1] at hallow
    cases hallow
  · intro fsid disk hdisk htags hsel d hd
    have := (hsame fsid disk d hdisk hd).2 "ssd" (by rw [hsel]; exact List.mem_singleton_self _)
    rw [htags] at this
    exact absurd (List.mem_singleton.1 this) (by decide)
  · intro rt soft pathB reservedB tagsB statusB visitBFirst
    have hcand := twoDiskNode_candidates rt soft pathB reservedB tagsB statusB visitBFirst
    obtain ⟨fsid, disk, hin, hs⟩ := ScheduleReplica_of_candidates rt
      (Example.datastore
        [Example.twoDiskNode (Example.disk pathB false reservedB tagsB) statusB visitBFirst]
        soft 100 0) 0
      (Example.replica "r1" 50 "" "") [] (Example.volume [] [])
      [Example.twoDiskNode (Example.disk pathB false reservedB tagsB) statusB visitBFirst]
      rfl rfl (by rw [hcand]; exact List.cons_ne_nil _ _)
    rw [hcand, List.mem_singleton, Prod.mk.injEq] at hin
    refine ⟨_, _, hs, rfl, ?_, ?_⟩
    · simp only [hin.2]
    · simp only [hin.1]


/-- C8, witness: the two-disk node; the filter returns disk `A` alone. -/
theorem filterNodeDisksForReplica_exact_witness :
    SettingsReadable (Example.datastore [Example.twoDisks] (.ok false) 100 0) ∧
    WellFormedMap Example.twoDisks.Spec.Disks ∧
    (∀ fsid d, (fsid, d) ∈ (filterNodeDisksForReplica
        (Example.datastore [Example.twoDisks] (.ok false) 100 0) 0 Example.twoDisks
        (Example.replica "r1" 50 "" "") [] (Example.volume [] [])).1 ↔
      ∃ i disk, Example.twoDisks.Spec.Disks[i]? = some (fsid, disk) ∧
        Accepts (Example.datastore [Example.twoDisks] (.ok false) 100 0) (0 + 2 * i)
          Example.twoDisks (Example.replica "r1" 50 "" "") [] (Example.volume [] [])
          fsid disk d) ∧
    WellFormedMap (filterNodeDisksForReplica
        (Example.datastore [Example.twoDisks] (.ok false) 100 0) 0 Example.twoDisks
        (Example.replica "r1" 50 "" "") [] (Example.volume [] [])).1 ∧
    (filterNodeDisksForReplica
        (Example.datastore [Example.twoDisks] (.ok false) 100 0) 0 Example.twoDisks
        (Example.replica "r1" 50 "" "") [] (Example.volume [] [])).1 =
      [("A", { DiskSpec := Example.disk "/data" true 0 [], NodeID := "X" })] :=
  ⟨fun _ => ⟨⟨_, rfl⟩, ⟨_, rfl⟩⟩, by unfold WellFormedMap; decide,
   (filterNodeDisksForReplica_exact (Example.datastore [Example.twoDisks] (.ok false) 100 0) 0
      Example.twoDisks (Example.replica "r1" 50 "" "") [] (Example.volume [] [])
      (fun _ => ⟨⟨_, rfl⟩, ⟨_, rfl⟩⟩) (by unfold WellFormedMap; decide)).1,
   (filterNodeDisksForReplica_exact (Example.datastore [Example.twoDisks] (.ok false) 100 0) 0
      Example.twoDisks (Example.replica "r1" 50 "" "") [] (Example.volume [] [])
      (fun _ => ⟨⟨_, rfl⟩, ⟨_, rfl⟩⟩) (by unfold WellFormedMap; decide)).2.1,
   by decide⟩

/-! ## C9: the provisional scheduled capacity -/

theorem storageScheduled_loop (scheduledReplica : GoMap Int) (nodeName : String) :
    ∀ (replicas : GoMap Replica) (acc : Int),
      (∀ e ∈ replicas, 0 ≤ e.2.Spec.VolumeSize) → 0 ≤ acc →
      acc + (unaccountedSizes replicas scheduledReplica nodeName).sum < 2 ^ 63 →
      replicas.foldl (fun acc e =>
        if !mapContains scheduledReplica e.1 && e.2.Spec.NodeID != "" &&
          e.2.Spec.NodeID == nodeName
        then add64 acc e.2.Spec.VolumeSize else acc) acc =
      acc + (unaccountedSizes replicas scheduledReplica nodeName).sum := by
  intro replicas
  induction replicas with
  | nil => intro acc _ _ _; simp [unaccountedSizes]
  | cons hd rest ih =>
    intro acc hsizes hacc hsum
    have hhd : 0 ≤ hd.2.Spec.VolumeSize := hsizes hd (List.mem_cons_self _ _)
    have hrest : ∀ e ∈ rest, 0 ≤ e.2.Spec.VolumeSize :=
      fun e he => hsizes e (List.mem_cons_of_mem _ he)
    have htail : 0 ≤ (unaccountedSizes rest scheduledReplica nodeName).sum := by
      apply List.sum_nonneg
      intro x hx
      unfold unaccountedSizes at hx
      obtain ⟨e, he, hxe⟩ := List.mem_map.1 hx
      rw [← hxe]
      exact hrest e (List.mem_filter.1 he).1
    rw [List.foldl_cons]
    by_cases hc : (!mapContains scheduledReplica hd.1 && hd.2.Spec.NodeID != "" &&
        hd.2.Spec.NodeID == nodeName) = true
    · have hunfold : unaccountedSizes (hd :: rest) scheduledReplica nodeName =
          hd.2.Spec.VolumeSize :: unaccountedSizes rest scheduledReplica nodeName := by
        unfold unaccountedSizes
        simp only [List.filter_cons, hc, if_true, List.map_cons]
      rw [hunfold, List.sum_cons] at hsum ⊢
      rw [if_pos hc]
      have hadd : add64 acc hd.2.Spec.VolumeSize = acc + hd.2.Spec.VolumeSize := by
        unfold add64
        apply wrapInt64_of_isInt64
        constructor <;> omega
      rw [hadd, ih _ hrest (by omega) (by omega)]
      ring
    · have hunfold : unaccountedSizes (hd :: rest) scheduledReplica nodeName =
          unaccountedSizes rest scheduledReplica nodeName := by
        unfold unaccountedSizes
        simp only [List.filter_cons, hc, Bool.false_eq_true, if_false]
      rw [hunfold] at hsum ⊢
      rw [if_neg hc]
      exact ih _ hrest hacc hsum

/-- C9 (counterexample). Two siblings of 2^62 bytes on node `X`, unknown to a
disk that reports no scheduled capacity: the sizes are non-negative, their sum
2^63 wraps around to a negative `int64`, the guard `storageScheduled > 0` fails
and the capacity test is fed the reported capacity 0 instead of 0 + 2^63. -/
theorem storageScheduled_overflow_counterexample :
    (∀ e ∈ Example.hugeSiblings, 0 ≤ e.2.Spec.VolumeSize) ∧
    storageScheduled Example.hugeSiblings [] "X" = -(2 ^ 63) ∧
    (addStorageScheduled Example.idleInfo
      (storageScheduled Example.hugeSiblings [] "X")).StorageScheduled = 0 ∧
    (addStorageScheduled Example.idleInfo
      (storageScheduled Example.hugeSiblings [] "X")).StorageScheduled ≠
      Example.idleInfo.StorageScheduled +
        (unaccountedSizes Example.hugeSiblings [] "X").sum := by
  decide

/-- C9 (amended). For a disk of a node and siblings with non-negative declared
sizes, provided that the sum of the sizes counted for the disk, and that sum
added to the reported `StorageScheduled`, do not overflow `int64`: the
scheduled capacity that `filterNodeDisksForReplica` feeds to the capacity test
equals the reported `StorageScheduled` of the disk plus the sum of the declared
sizes of exactly the siblings whose node assignment is this node's name and
whose identity is not a key of the `scheduledReplica` record of the disk.  A
sibling in the record, on another node or on none contributes nothing. -/
theorem storageScheduled_accounting (ds : DataStore) (t : Nat) (node : Node) (fsid : String)
    (disk : DiskSpec) (replicas : GoMap Replica) (info : DiskSchedulingInfo)
    (hinfo : (GetDiskSchedulingInfo ds t disk
      (mapIndex node.Status.DiskStatus fsid DiskStatus.zero)).1 = .ok info)
    (hsizes : ∀ e ∈ replicas, 0 ≤ e.2.Spec.VolumeSize)
    (hsum : (unaccountedSizes replicas
      (mapIndex node.Status.DiskStatus fsid DiskStatus.zero).ScheduledReplica node.Name).sum <
        2 ^ 63)
    (hfit : IsInt64 ((mapIndex node.Status.DiskStatus fsid DiskStatus.zero).StorageScheduled +
      (unaccountedSizes replicas
        (mapIndex node.Status.DiskStatus fsid DiskStatus.zero).ScheduledReplica
        node.Name).sum)) :
    (addStorageScheduled info
      (storageScheduled replicas
        (mapIndex node.Status.DiskStatus fsid DiskStatus.zero).ScheduledReplica
        node.Name)).StorageScheduled =
      (mapIndex node.Status.DiskStatus fsid DiskStatus.zero).StorageScheduled +
        (unaccountedSizes replicas
          (mapIndex node.Status.DiskStatus fsid DiskStatus.zero).ScheduledReplica
          node.Name).sum ∧
    (∀ (name : String) (r : Replica) (scheduledReplica : GoMap Int),
      (mapContains scheduledReplica name = true ∨ r.Spec.NodeID ≠ node.Name ∨
        r.Spec.NodeID = "") →
      unaccountedSizes ((name, r) :: replicas) scheduledReplica node.Name =
        unaccountedSizes replicas scheduledReplica node.Name) := by
  constructor
  · obtain ⟨op, mp, _, _, hinfoeq⟩ := (GetDiskSchedulingInfo_ok_iff _ _ _ _ _).1 hinfo
    have hloop := storageScheduled_loop
      (mapIndex node.Status.DiskStatus fsid DiskStatus.zero).ScheduledReplica node.Name
      replicas 0 hsizes (le_refl _) (by rw [zero_add]; exact hsum)
    rw [zero_add] at hloop
    have hss : storageScheduled replicas
        (mapIndex node.Status.DiskStatus fsid DiskStatus.zero).ScheduledReplica node.Name =
        (unaccountedSizes replicas
          (mapIndex node.Status.DiskStatus fsid DiskStatus.zero).ScheduledReplica
          node.Name).sum := hloop
    rw [hss]
    have hreported : info.StorageScheduled =
        (mapIndex node.Status.DiskStatus fsid DiskStatus.zero).StorageScheduled := by
      rw [hinfoeq]
    unfold addStorageScheduled
    split
    · simp only
      rw [hreported]
      exact wrapInt64_of_isInt64 hfit
    · rename_i hpos
      rw [hreported]
      have hnonneg : 0 ≤ (unaccountedSizes replicas
          (mapIndex node.Status.DiskStatus fsid DiskStatus.zero).ScheduledReplica
          node.Name).sum := by
        apply List.sum_nonneg
        intro x hx
        unfold unaccountedSizes at hx
        obtain ⟨e, he, hxe⟩ := List.mem_map.1 hx
        rw [← hxe]
        exact hsizes e (List.mem_filter.1 he).1
      omega
  · intro name r scheduledReplica hout
    have hc : (!mapContains scheduledReplica name && r.Spec.NodeID != "" &&
        r.Spec.NodeID == node.Name) = false := by
      rcases hout with h | h | h
      · simp [h]
      · simp [h]
      · simp [h]
    unfold unaccountedSizes
    simp only [List.filter_cons, hc, Bool.false_eq_true, if_false]


/-- C9 (amended), witness: a sibling of 10 units on node `X`, unknown to disk
`A`, raises the scheduled capacity of `A` from 0 to 10. -/
theorem storageScheduled_accounting_witness :
    (GetDiskSchedulingInfo (Example.datastore [] (.ok false) 100 0) 0
      (Example.disk "/data" true 0 [])
      (mapIndex (Example.plainNode "X" []).Status.DiskStatus "A" DiskStatus.zero)).1 =
      .ok Example.idleInfo ∧
    (∀ e ∈ [("r0", Example.replica "r0" 10 "X" "")], 0 ≤ e.2.Spec.VolumeSize) ∧
    (addStorageScheduled Example.idleInfo
      (storageScheduled [("r0", Example.replica "r0" 10 "X" "")]
        (mapIndex (Example.plainNode "X" []).Status.DiskStatus "A"
          DiskStatus.zero).ScheduledReplica
        (Example.plainNode "X" []).Name)).StorageScheduled =
      (mapIndex (Example.plainNode "X" []).Status.DiskStatus "A"
        DiskStatus.zero).StorageScheduled +
        (unaccountedSizes [("r0", Example.replica "r0" 10 "X" "")]
          (mapIndex (Example.plainNode "X" []).Status.DiskStatus "A"
            DiskStatus.zero).ScheduledReplica
          (Example.plainNode "X" []).Name).sum ∧
    (unaccountedSizes [("r0", Example.replica "r0" 10 "X" "")]
      (mapIndex (Example.plainNode "X" []).Status.DiskStatus "A"
        DiskStatus.zero).ScheduledReplica
      (Example.plainNode "X" []).Name).sum = 10 :=
  ⟨rfl, by decide,
   (storageScheduled_accounting (Example.datastore [] (.ok false) 100 0) 0
      (Example.plainNode "X" []) "A" (Example.disk "/data" true 0 [])
      [("r0", Example.replica "r0" 10 "X" "")] Example.idleInfo rfl (by decide) (by decide)
      (by unfold IsInt64; decide)).1,
   by decide⟩

/-! ## C10: replicas that are deleted or have failed -/

theorem nodeIsBlocked_insert (replicas₁ replicas₂ : GoMap Replica) (name : String)
    (r : Replica) (nodeName : String)
    (hgone : r.DeletionTimestamp ≠ none ∨ r.Spec.FailedAt ≠ "") :
    nodeIsBlocked (replicas₁ ++ (name, r) :: replicas₂) nodeName =
      nodeIsBlocked (replicas₁ ++ replicas₂) nodeName := by
  have hocc : occupies r nodeName = false := by
    unfold occupies
    rcases hgone with h | h
    · cases hd : r.DeletionTimestamp with
      | none => exact absurd hd h
      | some _ => simp
    · simp [h]
  unfold nodeIsBlocked
  rw [List.any_append, List.any_append, List.any_cons, hocc, Bool.false_or]

theorem storageScheduled_insert (replicas₁ replicas₂ : GoMap Replica) (name : String)
    (r : Replica) (scheduledReplica : GoMap Int) (nodeName : String)
    (hout : r.Spec.NodeID = "" ∨ r.Spec.NodeID ≠ nodeName ∨
      mapContains scheduledReplica name = true) :
    storageScheduled (replicas₁ ++ (name, r) :: replicas₂) scheduledReplica nodeName =
      storageScheduled (replicas₁ ++ replicas₂) scheduledReplica nodeName := by
  have hc : (!mapContains scheduledReplica name && r.Spec.NodeID != "" &&
      r.Spec.NodeID == nodeName) = false := by
    rcases hout with h | h | h
    · simp [h]
    · simp [h]
    · simp [h]
  unfold storageScheduled
  rw [List.foldl_append, List.foldl_append, List.foldl_cons]
  simp only [hc, Bool.false_eq_true, if_false]

/-- The filter loop looks at the replicas only through the provisional
scheduled capacity of each disk. -/
theorem filterNodeDisksLoop_congr (ds : DataStore) (node : Node) (replica : Replica)
    (replicas replicas' : GoMap Replica) (volume : Volume) :
    ∀ (disks : List (String × DiskSpec)) (acc : GoMap Disk) (t : Nat),
      (∀ fsid disk, (fsid, disk) ∈ disks →
        storageScheduled replicas
          (mapIndex node.Status.DiskStatus fsid DiskStatus.zero).ScheduledReplica node.Name =
        storageScheduled replicas'
          (mapIndex node.Status.DiskStatus fsid DiskStatus.zero).ScheduledReplica node.Name) →
      filterNodeDisksLoop ds node replica replicas volume disks acc t =
        filterNodeDisksLoop ds node replica replicas' volume disks acc t := by
  intro disks
  induction disks with
  | nil => intro acc t _; rfl
  | cons hd rest ih =>
    obtain ⟨fsid, disk⟩ := hd
    intro acc t hsame
    have hrest : ∀ fsid' disk', (fsid', disk') ∈ rest →
        storageScheduled replicas
          (mapIndex node.Status.DiskStatus fsid' DiskStatus.zero).ScheduledReplica node.Name =
        storageScheduled replicas'
          (mapIndex node.Status.DiskStatus fsid' DiskStatus.zero).ScheduledReplica node.Name :=
      fun a b h => hsame a b (List.mem_cons_of_mem _ h)
    cases hg : GetDiskSchedulingInfo ds t disk
      (mapIndex node.Status.DiskStatus fsid DiskStatus.zero) with
    | mk res t1 =>
      cases res with
      | error err =>
        rw [filterNodeDisksLoop_error _ _ _ _ _ _ _ _ _ _ _ _ hg,
          filterNodeDisksLoop_error _ _ _ _ _ _ _ _ _ _ _ _ hg]
      | ok info =>
        rw [filterNodeDisksLoop_ok _ _ _ _ _ _ _ _ _ _ _ _ hg,
          filterNodeDisksLoop_ok _ _ _ _ _ _ _ _ _ _ _ _ hg,
          hsame fsid disk (List.mem_cons_self _ _)]
        exact ih _ _ hrest

/-- C10 (counterexample). The sibling `r0` of 60 units on node `X` has failed
and is unknown to disk `A` (100 units).  Adding it to the empty sibling set
raises the provisional scheduled capacity of `A` from 0 to 60 and removes `A`
from the filter result for a replica of 50 units. -/
theorem failed_sibling_counterexample :
    (Example.replica "r0" 60 "X" "2019-01-01T00:00:00Z").Spec.FailedAt ≠ "" ∧
    storageScheduled [] [] "X" = 0 ∧
    storageScheduled [("r0", Example.replica "r0" 60 "X" "2019-01-01T00:00:00Z")] [] "X" = 60 ∧
    (filterNodeDisksForReplica (Example.datastore [] (.ok false) 100 0) 0
      (Example.plainNode "X" []) (Example.replica "r1" 50 "" "") []
      (Example.volume [] [])).1 =
      [("A", { DiskSpec := Example.disk "/data" true 0 [], NodeID := "X" })] ∧
    (filterNodeDisksForReplica (Example.datastore [] (.ok false) 100 0) 0
      (Example.plainNode "X" []) (Example.replica "r1" 50 "" "")
      [("r0", Example.replica "r0" 60 "X" "2019-01-01T00:00:00Z")]
      (Example.volume [] [])).1 = [] := by
  decide

/-- C10 (amended). A sibling that carries a deletion marker or a failure
timestamp is excluded from anti-affinity: adding it to the sibling set never
changes whether a node counts as blocked.  The double-accounting loop does not
look at these markers: adding the sibling changes neither the provisional
scheduled capacity of a disk nor the result of `filterNodeDisksForReplica` when
the sibling is assigned to no node or to another node, or when its identity is
a key of the `scheduledReplica` record of the disk (of every disk of the node);
otherwise its declared size is added like that of any other sibling. -/
theorem deleted_or_failed_sibling (replicas₁ replicas₂ : GoMap Replica) (name : String)
    (r : Replica) (hgone : r.DeletionTimestamp ≠ none ∨ r.Spec.FailedAt ≠ "") :
    (∀ nodeName, nodeIsBlocked (replicas₁ ++ (name, r) :: replicas₂) nodeName =
      nodeIsBlocked (replicas₁ ++ replicas₂) nodeName) ∧
    (∀ (scheduledReplica : GoMap Int) (nodeName : String),
      (r.Spec.NodeID = "" ∨ r.Spec.NodeID ≠ nodeName ∨
        mapContains scheduledReplica name = true) →
      storageScheduled (replicas₁ ++ (name, r) :: replicas₂) scheduledReplica nodeName =
        storageScheduled (replicas₁ ++ replicas₂) scheduledReplica nodeName) ∧
    (∀ (ds : DataStore) (t : Nat) (node : Node) (replica : Replica) (volume : Volume),
      (r.Spec.NodeID = "" ∨ r.Spec.NodeID ≠ node.Name ∨
        ∀ fsid disk, (fsid, disk) ∈ node.Spec.Disks →
          mapContains (mapIndex node.Status.DiskStatus fsid DiskStatus.zero).ScheduledReplica
            name = true) →
      filterNodeDisksForReplica ds t node replica (replicas₁ ++ (name, r) :: replicas₂) volume =
        filterNodeDisksForReplica ds t node replica (replicas₁ ++ replicas₂) volume) ∧
    (∀ (scheduledReplica : GoMap Int) (nodeName : String),
      r.Spec.NodeID ≠ "" → r.Spec.NodeID = nodeName →
      mapContains scheduledReplica name = false →
      storageScheduled (replicas₁ ++ replicas₂ ++ [(name, r)]) scheduledReplica nodeName =
        add64 (storageScheduled (replicas₁ ++ replicas₂) scheduledReplica nodeName)
          r.Spec.VolumeSize) := by
  refine ⟨fun nodeName => nodeIsBlocked_insert _ _ _ _ _ hgone,
    fun rec nodeName hout => storageScheduled_insert _ _ _ _ _ _ hout, ?_, ?_⟩
  · intro ds t node replica volume hout
    unfold filterNodeDisksForReplica
    apply filterNodeDisksLoop_congr
    intro fsid disk hdisk
    apply storageScheduled_insert
    rcases hout with h | h | h
    · exact Or.inl h
    · exact Or.inr (Or.inl h)
    · exact Or.inr (Or.inr (h fsid disk hdisk))
  · intro rec nodeName h1 h2 h3
    unfold storageScheduled
    rw [List.foldl_append, List.foldl_cons, List.foldl_nil]
    have hc : (!mapContains rec name && r.Spec.NodeID != "" && r.Spec.NodeID == nodeName) =
        true := by
      simp only [h3, Bool.not_false, Bool.true_and, Bool.and_eq_true, bne_iff_ne, ne_eq,
        beq_iff_eq]
      exact ⟨h1, h2⟩
    simp only [hc, if_true]

/-- C10 (amended), witness: the failed sibling `r0` on node `Y`. -/
theorem deleted_or_failed_sibling_witness :
    ((Example.replica "r0" 60 "Y" "2019-01-01T00:00:00Z").DeletionTimestamp ≠ none ∨
      (Example.replica "r0" 60 "Y" "2019-01-01T00:00:00Z").Spec.FailedAt ≠ "") ∧
    (∀ nodeName, nodeIsBlocked
        ([] ++ ("r0", Example.replica "r0" 60 "Y" "2019-01-01T00:00:00Z") :: []) nodeName =
      nodeIsBlocked ([] ++ []) nodeName) ∧
    nodeIsBlocked [("r0", Example.replica "r0" 60 "Y" "2019-01-01T00:00:00Z")] "Y" = false ∧
    nodeIsBlocked [("r0", Example.replica "r0" 60 "Y" "")] "Y" = true :=
  ⟨Or.inr (by decide),
   (deleted_or_failed_sibling [] [] "r0" (Example.replica "r0" 60 "Y" "2019-01-01T00:00:00Z")
      (Or.inr (by decide))).1,
   by decide, by decide⟩

/-! ## C11: the nodes the scheduler considers -/

theorem nodeIsSchedulable_iff (node : Node) :
    nodeIsSchedulable node = true ↔
      node.DeletionTimestamp = none ∧
      (GetNodeConditionFromStatus node.Status NodeConditionTypeReady).Status =
        ConditionStatusTrue ∧
      node.Spec.AllowScheduling = true := by
  unfold nodeIsSchedulable
  simp only [Bool.and_eq_true, Option.isNone_iff_eq_none, beq_iff_eq, and_assoc]

theorem scheduledNode_loop_of_nodup (nodes : List Node) :
    ∀ (acc : GoMap Node), (nodes.map Node.Name).Nodup →
      (∀ n ∈ nodes, n.Name ∉ acc.map Prod.fst) →
      nodes.foldl (fun scheduledNode node =>
        if nodeIsSchedulable node then mapInsert scheduledNode node.Name node
        else scheduledNode) acc =
      acc ++ (nodes.filter nodeIsSchedulable).map (fun n => (n.Name, n)) := by
  induction nodes with
  | nil => intro acc _ _; simp
  | cons node rest ih =>
    intro acc hnodup hfresh
    rw [List.map_cons, List.nodup_cons] at hnodup
    have hrest : ∀ n ∈ rest, n.Name ∉ acc.map Prod.fst :=
      fun n hn => hfresh n (List.mem_cons_of_mem _ hn)
    rw [List.foldl_cons]
    by_cases hs : nodeIsSchedulable node = true
    · rw [if_pos hs, mapInsert_of_not_mem _ (hfresh node (List.mem_cons_self _ _))]
      rw [ih _ hnodup.2]
      · simp only [List.filter_cons, hs, if_true, List.map_cons, List.append_assoc,
          List.singleton_append]
      · intro n hn hmem
        rw [List.map_append, List.mem_append] at hmem
        rcases hmem with hmem | hmem
        · exact hrest n hn hmem
        · simp only [List.map_cons, List.map_nil, List.mem_singleton] at hmem
          exact hnodup.1 (List.mem_map.2 ⟨n, hn, hmem⟩)
    · rw [if_neg hs, ih _ hnodup.2 hrest]
      simp only [List.filter_cons, hs, Bool.false_eq_true, if_false]

/-- When the listed nodes have pairwise distinct names, the map `getNodeInfo`
builds holds the schedulable nodes, in the order of the listing. -/
theorem scheduledNode_of_nodup {nodes : List Node} (hnodup : (nodes.map Node.Name).Nodup) :
    scheduledNode nodes = (nodes.filter nodeIsSchedulable).map (fun n => (n.Name, n)) := by
  unfold scheduledNode
  rw [scheduledNode_loop_of_nodup nodes [] hnodup (fun _ _ h => by cases h)]
  rfl

theorem scheduledNode_wellFormed {nodes : List Node} (hnodup : (nodes.map Node.Name).Nodup) :
    WellFormedMap (scheduledNode nodes) := by
  unfold WellFormedMap
  rw [scheduledNode_of_nodup hnodup, List.map_map]
  have : (Prod.fst ∘ fun n : Node => (n.Name, n)) = Node.Name := rfl
  rw [this]
  exact List.Nodup.sublist (List.Sublist.map _ (List.filter_sublist _)) hnodup

/-- C11. When `ScheduleReplica` returns a replica, the node it assigned is one of
the nodes listed by the cluster state reader that is not marked for deletion,
reports its ready condition as true and has scheduling enabled.  `getNodeInfo`
returns nodes of that kind only, each keyed by its name; it returns all of them,
in a well-formed map, when the listed nodes have pairwise distinct names; and
it returns the error of the reader unchanged when listing fails. -/
theorem getNodeInfo_schedulable (rt : Runtime) (ds : DataStore) (t : Nat) (replica : Replica)
    (replicas : GoMap Replica) (volume : Volume) :
    (∃ res, ScheduleReplica rt ds t replica replicas volume = some res ∧
      ∀ r, res.ret = some r →
        ∃ nodes node, ds.ListNodes t = .ok nodes ∧ node ∈ nodes ∧
          r.Spec.NodeID = node.Name ∧ node.DeletionTimestamp = none ∧
          (GetNodeConditionFromStatus node.Status NodeConditionTypeReady).Status =
            ConditionStatusTrue ∧
          node.Spec.AllowScheduling = true) ∧
    (∀ nodes, ds.ListNodes t = .ok nodes →
      ∃ nodeInfo, getNodeInfo ds t = (.ok nodeInfo, t + 1) ∧
        (∀ name node, (name, node) ∈ nodeInfo →
          name = node.Name ∧ node ∈ nodes ∧ node.DeletionTimestamp = none ∧
          (GetNodeConditionFromStatus node.Status NodeConditionTypeReady).Status =
            ConditionStatusTrue ∧
          node.Spec.AllowScheduling = true) ∧
        ((nodes.map Node.Name).Nodup →
          WellFormedMap nodeInfo ∧
          ∀ node ∈ nodes, node.DeletionTimestamp = none →
            (GetNodeConditionFromStatus node.Status NodeConditionTypeReady).Status =
              ConditionStatusTrue →
            node.Spec.AllowScheduling = true → (node.Name, node) ∈ nodeInfo)) ∧
    (∀ err, ds.ListNodes t = .error err → getNodeInfo ds t = (.error err, t + 1)) := by
  refine ⟨?_, ?_, ?_⟩
  · obtain ⟨res, hres⟩ := ScheduleReplica_total rt ds t replica replicas volume
    refine ⟨res, hres, ?_⟩
    intro r hr
    obtain ⟨_, _, _, nodes, node, fsid, disk, d, t0, hlist, hnode, hsched, _, _, hrep, _⟩ :=
      ScheduleReplica_placed rt ds t replica replicas volume res r hres hr
    obtain ⟨h1, h2, h3⟩ := (nodeIsSchedulable_iff node).1 hsched
    exact ⟨nodes, node, hlist, hnode, by rw [hrep], h1, h2, h3⟩
  · intro nodes hlist
    refine ⟨scheduledNode nodes, getNodeInfo_of_list hlist, ?_, ?_⟩
    · intro name node hmem
      obtain ⟨hname, hnodes, hsched⟩ := scheduledNode_mem hmem
      obtain ⟨h1, h2, h3⟩ := (nodeIsSchedulable_iff node).1 hsched
      exact ⟨hname, hnodes, h1, h2, h3⟩
    · intro hnodup
      refine ⟨scheduledNode_wellFormed hnodup, ?_⟩
      intro node hnode h1 h2 h3
      rw [scheduledNode_of_nodup hnodup]
      exact List.mem_map.2 ⟨node, List.mem_filter.2 ⟨hnode,
        (nodeIsSchedulable_iff node).2 ⟨h1, h2, h3⟩⟩, rfl⟩
  · intro err hlist
    simp [getNodeInfo, hlist]

/-! ## C12: the placement assigner -/

theorem intercalate_go_length (s : String) :
    ∀ (elems : List String) (acc : String),
      acc.length ≤ (String.intercalate.go acc s elems).length := by
  intro elems
  induction elems with
  | nil => intro acc; exact le_refl _
  | cons a rest ih =>
    intro acc
    have h := ih (acc ++ s ++ a)
    rw [String.intercalate.go]
    simp only [String.length_append] at h
    omega

theorem ne_empty_of_length_pos {s : String} (h : 0 < s.length) : s ≠ "" := by
  intro hs
  rw [hs] at h
  exact absurd h (by decide)

/-- The path join of the example runtime satisfies the contract. -/
theorem Example.runtime_joinNonEmpty : JoinNonEmpty Example.runtime.filepathJoin := by
  intro elems hne
  show String.intercalate "/" elems ≠ ""
  obtain ⟨e, he, hene⟩ := hne
  cases elems with
  | nil => cases he
  | cons a rest =>
    cases rest with
    | nil =>
      rw [List.mem_singleton] at he
      subst he
      exact hene
    | cons b rest =>
      apply ne_empty_of_length_pos
      have h := intercalate_go_length "/" rest (a ++ "/" ++ b)
      have hlen : (a ++ "/" ++ b).length = a.length + 1 + b.length := by
        simp only [String.length_append]
        rfl
      show 0 < (String.intercalate.go a "/" (b :: rest)).length
      rw [String.intercalate.go]
      omega

/-- C12. From a non-empty candidate set `scheduleReplicaToDisk` picks one element
(key `k`, disk `d`) and sets the node of the replica to the node identity of
`d`, its disk identity to `k` and its data path to `d`'s path joined
(`filepath.Join`) with `replicas` and `<volume name>-<random suffix>`; every
other field of the replica is unchanged.  So a successful `ScheduleReplica`
returns the replica it was given with only node, disk and data path changed:
the node is the name of the chosen node, the disk the identity of the chosen
disk, and, `filepath.Join` returning an empty path only for empty elements, the
data path is not empty. -/
theorem scheduleReplicaToDisk_assigns (rt : Runtime) (replica : Replica)
    (diskCandidates : GoMap Disk) (hne : diskCandidates ≠ []) :
    (∃ k d r', (k, d) ∈ diskCandidates ∧
      scheduleReplicaToDisk rt replica diskCandidates = some r' ∧
      r'.Spec.NodeID = d.NodeID ∧ r'.Spec.DiskID = k ∧
      r'.Spec.DataPath = rt.filepathJoin
        [d.DiskSpec.Path, "replicas", replica.Spec.VolumeName ++ "-" ++ rt.RandomID] ∧
      r'.Name = replica.Name ∧ r'.DeletionTimestamp = replica.DeletionTimestamp ∧
      r'.Spec.VolumeName = replica.Spec.VolumeName ∧
      r'.Spec.VolumeSize = replica.Spec.VolumeSize ∧
      r'.Spec.FailedAt = replica.Spec.FailedAt) ∧
    (∀ (ds : DataStore) (t : Nat) (replicas : GoMap Replica) (volume : Volume)
      (res : ScheduleResult) (r : Replica),
      ScheduleReplica rt ds t replica replicas volume = some res → res.ret = some r →
      res.replica = r ∧ res.err = none ∧
      r.Name = replica.Name ∧ r.DeletionTimestamp = replica.DeletionTimestamp ∧
      r.Spec.VolumeName = replica.Spec.VolumeName ∧
      r.Spec.VolumeSize = replica.Spec.VolumeSize ∧
      r.Spec.FailedAt = replica.Spec.FailedAt ∧
      ∃ nodes node fsid disk, ds.ListNodes t = .ok nodes ∧ node ∈ nodes ∧
        (fsid, disk) ∈ node.Spec.Disks ∧
        r.Spec.NodeID = node.Name ∧ r.Spec.DiskID = fsid ∧
        r.Spec.DataPath = rt.filepathJoin
          [disk.Path, "replicas", replica.Spec.VolumeName ++ "-" ++ rt.RandomID] ∧
        (JoinNonEmpty rt.filepathJoin → node.Name ≠ "" → fsid ≠ "" →
          r.Spec.NodeID ≠ "" ∧ r.Spec.DiskID ≠ "" ∧ r.Spec.DataPath ≠ "")) := by
  constructor
  · obtain ⟨k, d, hmem, hs⟩ := scheduleReplicaToDisk_some rt replica diskCandidates hne
    exact ⟨k, d, _, hmem, hs, rfl, rfl, rfl, rfl, rfl, rfl, rfl, rfl⟩
  · intro ds t replicas volume res r hres hr
    obtain ⟨_, herr, hrep, nodes, node, fsid, disk, d, t0, hlist, hnode, _, hdisk, _, hr', _⟩ :=
      ScheduleReplica_placed rt ds t replica replicas volume res r hres hr
    refine ⟨hrep, herr, by rw [hr'], by rw [hr'], by rw [hr'], by rw [hr'], by rw [hr'],
      nodes, node, fsid, disk, hlist, hnode, hdisk, by rw [hr'], by rw [hr'], by rw [hr'], ?_⟩
    intro hjoin hname hfsid
    refine ⟨by rw [hr']; exact hname, by rw [hr']; exact hfsid, ?_⟩
    rw [hr']
    exact hjoin _ ⟨"replicas", by simp, by decide⟩

/-- C12, witness: one candidate, disk `A` of node `X`. -/
theorem scheduleReplicaToDisk_assigns_witness :
    ([("A", ({ DiskSpec := Example.disk "/data" true 0 [], NodeID := "X" } : Disk))] ≠ []) ∧
    (∃ k d r', (k, d) ∈
        [("A", ({ DiskSpec := Example.disk "/data" true 0 [], NodeID := "X" } : Disk))] ∧
      scheduleReplicaToDisk Example.runtime (Example.replica "r1" 50 "" "")
        [("A", { DiskSpec := Example.disk "/data" true 0 [], NodeID := "X" })] = some r' ∧
      r'.Spec.NodeID = d.NodeID ∧ r'.Spec.DiskID = k ∧
      r'.Spec.DataPath = Example.runtime.filepathJoin
        [d.DiskSpec.Path, "replicas",
          (Example.replica "r1" 50 "" "").Spec.VolumeName ++ "-" ++ Example.runtime.RandomID] ∧
      r'.Name = (Example.replica "r1" 50 "" "").Name ∧
      r'.DeletionTimestamp = (Example.replica "r1" 50 "" "").DeletionTimestamp ∧
      r'.Spec.VolumeName = (Example.replica "r1" 50 "" "").Spec.VolumeName ∧
      r'.Spec.VolumeSize = (Example.replica "r1" 50 "" "").Spec.VolumeSize ∧
      r'.Spec.FailedAt = (Example.replica "r1" 50 "" "").Spec.FailedAt) ∧
    (scheduleReplicaToDisk Example.runtime (Example.replica "r1" 50 "" "")
        [("A", { DiskSpec := Example.disk "/data" true 0 [], NodeID := "X" })]).map
      (fun r => (r.Spec.NodeID, r.Spec.DiskID, r.Spec.DataPath)) =
      some ("X", "A", "/data/replicas/vol-c0ffee42") :=
  ⟨by decide,
   (scheduleReplicaToDisk_assigns Example.runtime (Example.replica "r1" 50 "" "")
      [("A", { DiskSpec := Example.disk "/data" true 0 [], NodeID := "X" })] (by decide)).1,
   by decide⟩

/-! ## C13: a soft anti-affinity setting that cannot be read -/

theorem GetDiskSchedulingInfo_congr_ds {ds ds' : DataStore}
    (hint : ds.GetSettingAsInt = ds'.GetSettingAsInt) (t : Nat) (disk : DiskSpec)
    (status : DiskStatus) :
    GetDiskSchedulingInfo ds t disk status = GetDiskSchedulingInfo ds' t disk status := by
  unfold GetDiskSchedulingInfo
  rw [hint]

/-- The disk filter reads the datastore through `GetSettingAsInt` only. -/
theorem filterNodeDisksLoop_congr_ds {ds ds' : DataStore}
    (hint : ds.GetSettingAsInt = ds'.GetSettingAsInt) (node : Node) (replica : Replica)
    (replicas : GoMap Replica) (volume : Volume) :
    ∀ (disks : List (String × DiskSpec)) (acc : GoMap Disk) (t : Nat),
      filterNodeDisksLoop ds node replica replicas volume disks acc t =
        filterNodeDisksLoop ds' node replica replicas volume disks acc t := by
  intro disks
  induction disks with
  | nil => intro acc t; rfl
  | cons hd rest ih =>
    obtain ⟨fsid, disk⟩ := hd
    intro acc t
    cases hg : GetDiskSchedulingInfo ds t disk
      (mapIndex node.Status.DiskStatus fsid DiskStatus.zero) with
    | mk res t1 =>
      have hg' := hg
      rw [GetDiskSchedulingInfo_congr_ds hint] at hg'
      cases res with
      | error err =>
        rw [filterNodeDisksLoop_error _ _ _ _ _ _ _ _ _ _ _ _ hg,
          filterNodeDisksLoop_error _ _ _ _ _ _ _ _ _ _ _ _ hg']
      | ok info =>
        rw [filterNodeDisksLoop_ok _ _ _ _ _ _ _ _ _ _ _ _ hg,
          filterNodeDisksLoop_ok _ _ _ _ _ _ _ _ _ _ _ _ hg']
        exact ih _ _

theorem filterNodeDisksForReplica_congr_ds {ds ds' : DataStore}
    (hint : ds.GetSettingAsInt = ds'.GetSettingAsInt) (t : Nat) (node : Node)
    (replica : Replica) (replicas : GoMap Replica) (volume : Volume) :
    filterNodeDisksForReplica ds t node replica replicas volume =
      filterNodeDisksForReplica ds' t node replica replicas volume :=
  filterNodeDisksLoop_congr_ds hint node replica replicas volume _ _ _

theorem chooseFirstPass_congr_ds {ds ds' : DataStore}
    (hint : ds.GetSettingAsInt = ds'.GetSettingAsInt) (replicas : GoMap Replica)
    (replica : Replica) (volume : Volume) :
    ∀ (nodes : List (String × Node)) (filterdNode : List Node) (t : Nat),
      chooseFirstPass ds replicas replica volume nodes filterdNode t =
        chooseFirstPass ds' replicas replica volume nodes filterdNode t := by
  intro nodes
  induction nodes with
  | nil => intro fn t; rfl
  | cons hd rest ih =>
    obtain ⟨nodeName, node⟩ := hd
    intro fn t
    rw [chooseFirstPass, chooseFirstPass]
    simp only [filterNodeDisksForReplica_congr_ds hint, ih]

theorem chooseSecondPass_congr_ds {ds ds' : DataStore}
    (hint : ds.GetSettingAsInt = ds'.GetSettingAsInt) (replicas : GoMap Replica)
    (replica : Replica) (volume : Volume) :
    ∀ (nodes : List Node) (c : GoMap Disk) (t : Nat),
      chooseSecondPass ds replicas replica volume nodes c t =
        chooseSecondPass ds' replicas replica volume nodes c t := by
  intro nodes
  induction nodes with
  | nil => intro c t; rfl
  | cons node rest ih =>
    intro c t
    rw [chooseSecondPass, chooseSecondPass]
    simp only [filterNodeDisksForReplica_congr_ds hint, ih]

/-- An unscheduled replica and a successful listing never end in an error. -/
theorem ScheduleReplica_err_none (rt : Runtime) (ds : DataStore) (t : Nat) (replica : Replica)
    (replicas : GoMap Replica) (volume : Volume) (nodes : List Node)
    (hunscheduled : replica.Spec.NodeID = "") (hlist : ds.ListNodes t = .ok nodes) :
    ∃ res, ScheduleReplica rt ds t replica replicas volume = some res ∧ res.err = none := by
  by_cases hc : (chooseDiskCandidates rt ds (t + 1) (scheduledNode nodes) replicas replica
      volume).1 = []
  · exact ⟨_, ScheduleReplica_of_no_candidate rt ds t replica replicas volume nodes
      hunscheduled hlist (Or.inr hc), rfl⟩
  · obtain ⟨fsid, disk, _, hs⟩ := ScheduleReplica_of_candidates rt ds t replica replicas volume
      nodes hunscheduled hlist hc
    exact ⟨_, hs, rfl⟩

/-- C13. A soft anti-affinity setting that cannot be read is treated as
permissive: for every map of ready nodes, sibling set, replica and volume,
`chooseDiskCandidates` and `ScheduleReplica` give the same result on a datastore
where reading the setting fails as on one where it reads true, everything else
being equal; and with an unscheduled replica and a successful listing
`ScheduleReplica` returns no error. -/
theorem chooseDiskCandidates_setting_unreadable (rt : Runtime) (ds ds' : DataStore) (t : Nat)
    (nodeInfo : GoMap Node) (replicas : GoMap Replica) (replica : Replica) (volume : Volume)
    (hlist : ds.ListNodes = ds'.ListNodes)
    (hint : ds.GetSettingAsInt = ds'.GetSettingAsInt)
    (hfail : ∀ t', ∃ err,
      ds.GetSettingAsBool t' SettingName.ReplicaSoftAntiAffinity = .error err)
    (htrue : ∀ t', ds'.GetSettingAsBool t' SettingName.ReplicaSoftAntiAffinity = .ok true) :
    chooseDiskCandidates rt ds t nodeInfo replicas replica volume =
      chooseDiskCandidates rt ds' t nodeInfo replicas replica volume ∧
    ScheduleReplica rt ds t replica replicas volume =
      ScheduleReplica rt ds' t replica replicas volume ∧
    (replica.Spec.NodeID = "" → ∀ nodes, ds.ListNodes t = .ok nodes →
      ∃ res, ScheduleReplica rt ds t replica replicas volume = some res ∧ res.err = none) := by
  have hchoose : ∀ (t : Nat) (nodeInfo : GoMap Node),
      chooseDiskCandidates rt ds t nodeInfo replicas replica volume =
        chooseDiskCandidates rt ds' t nodeInfo replicas replica volume := by
    intro t nodeInfo
    unfold chooseDiskCandidates
    rw [chooseFirstPass_congr_ds hint]
    cases hp : chooseFirstPass ds' replicas replica volume (rt.rangeNodes nodeInfo) [] t with
    | mk first rest =>
      obtain ⟨filterdNode, t'⟩ := rest
      cases first with
      | some c => rfl
      | none =>
        obtain ⟨err, herr⟩ := hfail t'
        simp only [herr, htrue t', chooseSecondPass_congr_ds hint]
  refine ⟨hchoose t nodeInfo, ?_, ?_⟩
  · unfold ScheduleReplica getNodeInfo
    rw [hlist]
    simp only [hchoose]
  · intro hunscheduled nodes hnodes
    exact ScheduleReplica_err_none rt ds t replica replicas volume nodes hunscheduled hnodes

/-- C13, witness: node `X` hosts the sibling `r0`; with the setting unreadable
the replica is placed on `X`, as it is when the setting reads true. -/
theorem chooseDiskCandidates_setting_unreadable_witness :
    (∀ t', ∃ err, (Example.datastore [Example.plainNode "X" []] (.error "unavailable")
      100 0).GetSettingAsBool t' SettingName.ReplicaSoftAntiAffinity = .error err) ∧
    (∀ t', (Example.datastore [Example.plainNode "X" []] (.ok true)
      100 0).GetSettingAsBool t' SettingName.ReplicaSoftAntiAffinity = .ok true) ∧
    (chooseDiskCandidates Example.runtime
        (Example.datastore [Example.plainNode "X" []] (.error "unavailable") 100 0) 1
        [("X", Example.plainNode "X" [])] [("r0", Example.replica "r0" 10 "X" "")]
        (Example.replica "r1" 50 "" "") (Example.volume [] []) =
      chooseDiskCandidates Example.runtime
        (Example.datastore [Example.plainNode "X" []] (.ok true) 100 0) 1
        [("X", Example.plainNode "X" [])] [("r0", Example.replica "r0" 10 "X" "")]
        (Example.replica "r1" 50 "" "") (Example.volume [] [])) ∧
    (ScheduleReplica Example.runtime
        (Example.datastore [Example.plainNode "X" []] (.error "unavailable") 100 0) 0
        (Example.replica "r1" 50 "" "") [("r0", Example.replica "r0" 10 "X" "")]
        (Example.volume [] [])).map
      (fun res => (res.err, res.ret.map (fun r => r.Spec.NodeID))) =
      some (none, some "X") :=
  ⟨fun _ => ⟨_, rfl⟩, fun _ => rfl,
   (chooseDiskCandidates_setting_unreadable Example.runtime
      (Example.datastore [Example.plainNode "X" []] (.error "unavailable") 100 0)
      (Example.datastore [Example.plainNode "X" []] (.ok true) 100 0) 1
      [("X", Example.plainNode "X" [])] [("r0", Example.replica "r0" 10 "X" "")]
      (Example.replica "r1" 50 "" "") (Example.volume [] []) rfl rfl
      (fun _ => ⟨_, rfl⟩) (fun _ => rfl)).1,
   by decide⟩

/-! ## C14: the relaxation pass keeps the last blocked node only -/

/-- When the first pass does not return early, `filterdNode` holds the blocked
nodes in the order of the enumeration. -/
theorem chooseFirstPass_none_filterdNode (ds : DataStore) (replicas : GoMap Replica)
    (replica : Replica) (volume : Volume) :
    ∀ (nodes : List (String × Node)) (filterdNode : List Node) (t : Nat),
      (chooseFirstPass ds replicas replica volume nodes filterdNode t).1 = none →
      (chooseFirstPass ds replicas replica volume nodes filterdNode t).2.1 =
        filterdNode ++ (nodes.filter (fun e => nodeIsBlocked replicas e.1)).map Prod.snd := by
  intro nodes
  induction nodes with
  | nil => intro fn t _; simp [chooseFirstPass]
  | cons hd rest ih =>
    obtain ⟨nodeName, node⟩ := hd
    intro fn t h
    rw [chooseFirstPass] at h ⊢
    simp only at h ⊢
    by_cases hb : nodeIsBlocked replicas nodeName = true
    · simp only [hb, Bool.or_true, if_true] at h ⊢
      rw [ih _ _ h]
      simp only [List.filter_cons, hb, if_true, List.map_cons, List.append_assoc,
        List.singleton_append]
    · have hb' : nodeIsBlocked replicas nodeName = false := by
        cases hx : nodeIsBlocked replicas nodeName with
        | false => rfl
        | true => exact absurd hx hb
      simp only [hb', Bool.or_false, Bool.false_eq_true, if_false] at h ⊢
      split at h
      · rename_i htags
        simp only [htags, if_true]
        rw [ih _ _ h]
        simp only [List.filter_cons, hb', Bool.false_eq_true, if_false]
      · rename_i htags
        simp only [htags, if_false, Bool.false_eq_true]
        split at h
        · cases h
        · rename_i hlen
          simp only [hlen, if_false, Bool.false_eq_true]
          rw [ih _ _ h]
          simp only [List.filter_cons, hb', Bool.false_eq_true, if_false]

/-- The second pass ends with the filter result of the last node it visits. -/
theorem chooseSecondPass_append_last (ds : DataStore) (replicas : GoMap Replica)
    (replica : Replica) (volume : Volume) (last : Node) :
    ∀ (init : List Node) (c : GoMap Disk) (t : Nat),
      chooseSecondPass ds replicas replica volume (init ++ [last]) c t =
        filterNodeDisksForReplica ds
          (chooseSecondPass ds replicas replica volume init c t).2 last replica replicas
          volume := by
  intro init
  induction init with
  | nil => intro c t; rfl
  | cons node rest ih =>
    intro c t
    rw [List.cons_append, chooseSecondPass, chooseSecondPass]
    exact ih _ _

theorem ok_true_ne_ok_false : (Except.ok true : Except String Bool) ≠ Except.ok false :=
  fun h => by cases h

/-- C14. Anti-affinity relaxation overwrites rather than unions.  When pass 1
yields no candidate (it ends at clock `t'` with the blocked nodes `filterdNode`,
in enumeration order) and the soft anti-affinity setting, read at `t'`, reads
true or cannot be read, `chooseDiskCandidates` returns the result of
`filterNodeDisksForReplica` for the last blocked node, run when the blocked
nodes before it have been filtered, and the empty set when no node is blocked.
So when the last blocked node has no eligible disk the returned set is empty,
whatever the blocked nodes before it offer. -/
theorem chooseDiskCandidates_relaxation (rt : Runtime) (ds : DataStore) (t : Nat)
    (nodeInfo : GoMap Node) (replicas : GoMap Replica) (replica : Replica) (volume : Volume)
    (filterdNode : List Node) (t' : Nat)
    (hfirst : chooseFirstPass ds replicas replica volume (rt.rangeNodes nodeInfo) [] t =
      (none, filterdNode, t'))
    (hsoft : ds.GetSettingAsBool t' SettingName.ReplicaSoftAntiAffinity ≠ .ok false) :
    filterdNode =
      ((rt.rangeNodes nodeInfo).filter (fun e => nodeIsBlocked replicas e.1)).map Prod.snd ∧
    (filterdNode = [] →
      (chooseDiskCandidates rt ds t nodeInfo replicas replica volume).1 = []) ∧
    (∀ init last, filterdNode = init ++ [last] →
      chooseDiskCandidates rt ds t nodeInfo replicas replica volume =
        filterNodeDisksForReplica ds
          (chooseSecondPass ds replicas replica volume init [] (t' + 1)).2 last replica
          replicas volume) ∧
    (∀ init last, filterdNode = init ++ [last] →
      (∀ t0, (filterNodeDisksForReplica ds t0 last replica replicas volume).1 = []) →
      (chooseDiskCandidates rt ds t nodeInfo replicas replica volume).1 = []) := by
  have hresult : chooseDiskCandidates rt ds t nodeInfo replicas replica volume =
      chooseSecondPass ds replicas replica volume filterdNode [] (t' + 1) := by
    unfold chooseDiskCandidates
    rw [hfirst]
    cases hs : ds.GetSettingAsBool t' SettingName.ReplicaSoftAntiAffinity with
    | error err => simp only [hs]
    | ok b =>
      cases b with
      | false => exact absurd hs hsoft
      | true => simp only [hs]
  have hlast : ∀ init last, filterdNode = init ++ [last] →
      chooseDiskCandidates rt ds t nodeInfo replicas replica volume =
        filterNodeDisksForReplica ds
          (chooseSecondPass ds replicas replica volume init [] (t' + 1)).2 last replica
          replicas volume := by
    intro init last hfn
    rw [hresult, hfn, chooseSecondPass_append_last]
  refine ⟨?_, ?_, hlast, ?_⟩
  · have h := chooseFirstPass_none_filterdNode ds replicas replica volume
      (rt.rangeNodes nodeInfo) [] t (by rw [hfirst])
    rw [hfirst] at h
    simpa using h
  · intro hnil
    rw [hresult, hnil]
    rfl
  · intro init last hfn hempty
    rw [hlast init last hfn]
    exact hempty _

/-- C14, witness: nodes `A` (one eligible disk) and `B` (no disk) both host an
active sibling and soft anti-affinity reads true.  Enumerated as `[A, B]` the
candidate set is empty and `ScheduleReplica` returns `(nil, nil)`; enumerated
as `[B, A]` the replica is placed on `A`. -/
theorem chooseDiskCandidates_relaxation_witness :
    (chooseFirstPass
        (Example.datastore [Example.plainNode "A" [], Example.node "B" [] [] []] (.ok true)
          100 0)
        [("r0", Example.replica "r0" 10 "A" ""), ("r2", Example.replica "r2" 10 "B" "")]
        (Example.replica "r1" 50 "" "") (Example.volume [] [])
        (Example.runtime.rangeNodes
          [("A", Example.plainNode "A" []), ("B", Example.node "B" [] [] [])]) [] 1 =
      (none, [Example.plainNode "A" [], Example.node "B" [] [] []], 1)) ∧
    ((Example.datastore [Example.plainNode "A" [], Example.node "B" [] [] []] (.ok true)
        100 0).GetSettingAsBool 1 SettingName.ReplicaSoftAntiAffinity ≠ .ok false) ∧
    (chooseDiskCandidates Example.runtime
        (Example.datastore [Example.plainNode "A" [], Example.node "B" [] [] []] (.ok true)
          100 0) 1
        [("A", Example.plainNode "A" []), ("B", Example.node "B" [] [] [])]
        [("r0", Example.replica "r0" 10 "A" ""), ("r2", Example.replica "r2" 10 "B" "")]
        (Example.replica "r1" 50 "" "") (Example.volume [] [])).1 = [] ∧
    (filterNodeDisksForReplica
        (Example.datastore [Example.plainNode "A" [], Example.node "B" [] [] []] (.ok true)
          100 0) 2 (Example.plainNode "A" []) (Example.replica "r1" 50 "" "")
        [("r0", Example.replica "r0" 10 "A" ""), ("r2", Example.replica "r2" 10 "B" "")]
        (Example.volume [] [])).1 =
      [("A", { DiskSpec := Example.disk "/data" true 0 [], NodeID := "A" })] ∧
    ScheduleReplica Example.runtime
        (Example.datastore [Example.plainNode "A" [], Example.node "B" [] [] []] (.ok true)
          100 0) 0 (Example.replica "r1" 50 "" "")
        [("r0", Example.replica "r0" 10 "A" ""), ("r2", Example.replica "r2" 10 "B" "")]
        (Example.volume [] []) =
      some { ret := none, err := none, replica := Example.replica "r1" 50 "" "" } ∧
    (ScheduleReplica Example.runtime
        (Example.datastore [Example.node "B" [] [] [], Example.plainNode "A" []] (.ok true)
          100 0) 0 (Example.replica "r1" 50 "" "")
        [("r0", Example.replica "r0" 10 "A" ""), ("r2", Example.replica "r2" 10 "B" "")]
        (Example.volume [] [])).map (fun res => res.ret.map (fun r => r.Spec.NodeID)) =
      some (some "A") :=
  ⟨by decide,
   ok_true_ne_ok_false,
   (chooseDiskCandidates_relaxation Example.runtime
      (Example.datastore [Example.plainNode "A" [], Example.node "B" [] [] []] (.ok true)
        100 0) 1
      [("A", Example.plainNode "A" []), ("B", Example.node "B" [] [] [])]
      [("r0", Example.replica "r0" 10 "A" ""), ("r2", Example.replica "r2" 10 "B" "")]
      (Example.replica "r1" 50 "" "") (Example.volume [] [])
      [Example.plainNode "A" [], Example.node "B" [] [] []] 1 (by decide)
      ok_true_ne_ok_false).2.2.2
      [Example.plainNode "A" []] (Example.node "B" [] [] []) rfl (fun _ => rfl),
   by decide, by decide, by decide⟩

/-! ## C15: disk settings that cannot be read -/

/-- When the settings cannot be read at the turn of a disk, the filter loop
returns what it has accumulated over the disks before. -/
theorem filterNodeDisksLoop_abort (ds : DataStore) (node : Node) (replica : Replica)
    (replicas : GoMap Replica) (volume : Volume) (fsid : String) (disk : DiskSpec)
    (post : List (String × DiskSpec)) (err : String) :
    ∀ (pre : List (String × DiskSpec)) (acc : GoMap Disk) (t : Nat),
      (GetDiskSchedulingInfo ds
        (filterNodeDisksLoop ds node replica replicas volume pre acc t).2 disk
        (mapIndex node.Status.DiskStatus fsid DiskStatus.zero)).1 = .error err →
      (filterNodeDisksLoop ds node replica replicas volume (pre ++ (fsid, disk) :: post)
        acc t).1 =
        (filterNodeDisksLoop ds node replica replicas volume pre acc t).1 := by
  intro pre
  induction pre with
  | nil =>
    intro acc t h
    cases hg : GetDiskSchedulingInfo ds t disk
      (mapIndex node.Status.DiskStatus fsid DiskStatus.zero) with
    | mk res t1 =>
      have h' : (GetDiskSchedulingInfo ds t disk
          (mapIndex node.Status.DiskStatus fsid DiskStatus.zero)).1 = .error err := h
      rw [hg] at h'
      simp only at h'
      subst h'
      rw [List.nil_append, filterNodeDisksLoop_error _ _ _ _ _ _ _ _ _ _ _ _ hg]
      rfl
  | cons hd rest ih =>
    obtain ⟨fsid', disk'⟩ := hd
    intro acc t h
    rw [List.cons_append]
    cases hg : GetDiskSchedulingInfo ds t disk'
      (mapIndex node.Status.DiskStatus fsid' DiskStatus.zero) with
    | mk res t1 =>
      cases res with
      | error err' =>
        rw [filterNodeDisksLoop_error _ _ _ _ _ _ _ _ _ _ _ _ hg,
          filterNodeDisksLoop_error _ _ _ _ _ _ _ _ _ _ _ _ hg]
      | ok info =>
        rw [filterNodeDisksLoop_ok _ _ _ _ _ _ _ _ _ _ _ _ hg] at h ⊢
        rw [filterNodeDisksLoop_ok _ _ _ _ _ _ _ _ _ _ _ _ hg]
        exact ih _ _ h

theorem filterNodeDisksForReplica_of_unreadable {ds : DataStore}
    (hunreadable : SettingsUnreadable ds) (t : Nat) (node : Node) (replica : Replica)
    (replicas : GoMap Replica) (volume : Volume) :
    (filterNodeDisksForReplica ds t node replica replicas volume).1 = [] := by
  unfold filterNodeDisksForReplica
  cases hdisks : node.Spec.Disks with
  | nil => rfl
  | cons hd rest =>
    obtain ⟨fsid, disk⟩ := hd
    obtain ⟨err, herr⟩ := (hunreadable t).1
    have hg : GetDiskSchedulingInfo ds t disk
        (mapIndex node.Status.DiskStatus fsid DiskStatus.zero) = (.error err, t + 1) := by
      simp only [GetDiskSchedulingInfo, herr]
    rw [filterNodeDisksLoop_error _ _ _ _ _ _ _ _ _ _ _ _ hg]

/-- C15 (counterexample). The settings cannot be read at any moment and listing
the nodes fails: for an unscheduled replica `ScheduleReplica` returns the
listing error, not `(nil, nil)`. -/
theorem settings_unreadable_counterexample :
    SettingsUnreadable (Example.flakyDatastore (.error "listing failed") 0) ∧
    (Example.replica "r1" 50 "" "").Spec.NodeID = "" ∧
    ScheduleReplica Example.runtime (Example.flakyDatastore (.error "listing failed") 0) 0
        (Example.replica "r1" 50 "" "") [] (Example.volume [] []) =
      some { ret := none, err := some "listing failed",
             replica := Example.replica "r1" 50 "" "" } ∧
    ScheduleReplica Example.runtime (Example.flakyDatastore (.error "listing failed") 0) 0
        (Example.replica "r1" 50 "" "") [] (Example.volume [] []) ≠
      some { ret := none, err := none, replica := Example.replica "r1" 50 "" "" } :=
  ⟨fun _ => ⟨⟨_, rfl⟩, ⟨_, rfl⟩⟩, rfl, by decide, by decide⟩

/-- C15 (amended). A failure to read the over-provisioning or minimal-available
setting is not surfaced as an error: `filterNodeDisksForReplica` stops at the
disk at whose turn the read fails and returns the candidates accumulated over
the disks before it, and `ScheduleReplica`, for an unscheduled replica and a
successful listing of the nodes, returns a nil error.  When those settings
cannot be read at any moment, the filter result of every node is empty and
`ScheduleReplica` returns `(nil, nil)` for every unscheduled replica, provided
that listing the nodes succeeds. -/
theorem settings_unreadable (ds : DataStore) (replica : Replica) (replicas : GoMap Replica)
    (volume : Volume) :
    (∀ (node : Node) (pre post : List (String × DiskSpec)) (fsid : String) (disk : DiskSpec)
      (t : Nat) (err : String),
      node.Spec.Disks = pre ++ (fsid, disk) :: post →
      (GetDiskSchedulingInfo ds
        (filterNodeDisksLoop ds node replica replicas volume pre [] t).2 disk
        (mapIndex node.Status.DiskStatus fsid DiskStatus.zero)).1 = .error err →
      (filterNodeDisksForReplica ds t node replica replicas volume).1 =
        (filterNodeDisksLoop ds node replica replicas volume pre [] t).1) ∧
    (∀ (rt : Runtime) (t : Nat) (nodes : List Node),
      replica.Spec.NodeID = "" → ds.ListNodes t = .ok nodes →
      ∃ res, ScheduleReplica rt ds t replica replicas volume = some res ∧ res.err = none) ∧
    (SettingsUnreadable ds →
      (∀ (t : Nat) (node : Node),
        (filterNodeDisksForReplica ds t node replica replicas volume).1 = []) ∧
      (∀ (rt : Runtime) (t : Nat) (nodes : List Node),
        replica.Spec.NodeID = "" → ds.ListNodes t = .ok nodes →
        ScheduleReplica rt ds t replica replicas volume =
          some { ret := none, err := none, replica := replica })) := by
  refine ⟨?_, ?_, ?_⟩
  · intro node pre post fsid disk t err hdisks hfail
    unfold filterNodeDisksForReplica
    rw [hdisks]
    exact filterNodeDisksLoop_abort ds node replica replicas volume fsid disk post err pre [] t
      hfail
  · intro rt t nodes hunscheduled hlist
    exact ScheduleReplica_err_none rt ds t replica replicas volume nodes hunscheduled hlist
  · intro hunreadable
    refine ⟨fun t node => filterNodeDisksForReplica_of_unreadable hunreadable t node replica
      replicas volume, ?_⟩
    intro rt t nodes hunscheduled hlist
    apply ScheduleReplica_of_no_candidate rt ds t replica replicas volume nodes hunscheduled
      hlist
    refine Or.inr (List.eq_nil_iff_forall_not_mem.2 ?_)
    intro e he
    obtain ⟨_, node, t0, _, hfilter, _⟩ := chooseDiskCandidates_mem rt ds _ _ _ _ _ e he
    rw [filterNodeDisksForReplica_of_unreadable hunreadable] at hfilter
    cases hfilter

/-- C15 (amended), witness: the settings can be read at clocks 0 and 1 only.  Of
the two eligible disks of node `X`, disk `A` is examined at clock 0 and kept;
the read fails at the turn of disk `B`, and the filter returns `A` alone. -/
theorem settings_unreadable_witness :
    (Example.twoEligibleDisks.Spec.Disks =
      [("A", Example.disk "/data" true 0 [])] ++ ("B", Example.disk "/b" true 0 []) :: []) ∧
    ((GetDiskSchedulingInfo (Example.flakyDatastore (.ok [Example.twoEligibleDisks]) 2)
        (filterNodeDisksLoop (Example.flakyDatastore (.ok [Example.twoEligibleDisks]) 2)
          Example.twoEligibleDisks (Example.replica "r1" 50 "" "") [] (Example.volume [] [])
          [("A", Example.disk "/data" true 0 [])] [] 0).2
        (Example.disk "/b" true 0 [])
        (mapIndex Example.twoEligibleDisks.Status.DiskStatus "B" DiskStatus.zero)).1 =
      .error "settings unavailable") ∧
    ((filterNodeDisksForReplica (Example.flakyDatastore (.ok [Example.twoEligibleDisks]) 2) 0
        Example.twoEligibleDisks (Example.replica "r1" 50 "" "") []
        (Example.volume [] [])).1 =
      (filterNodeDisksLoop (Example.flakyDatastore (.ok [Example.twoEligibleDisks]) 2)
        Example.twoEligibleDisks (Example.replica "r1" 50 "" "") [] (Example.volume [] [])
        [("A", Example.disk "/data" true 0 [])] [] 0).1) ∧
    ((filterNodeDisksForReplica (Example.flakyDatastore (.ok [Example.twoEligibleDisks]) 2) 0
        Example.twoEligibleDisks (Example.replica "r1" 50 "" "") []
        (Example.volume [] [])).1 =
      [("A", { DiskSpec := Example.disk "/data" true 0 [], NodeID := "X" })]) ∧
    SettingsUnreadable (Example.flakyDatastore (.ok [Example.twoEligibleDisks]) 0) ∧
    ScheduleReplica Example.runtime (Example.flakyDatastore (.ok [Example.twoEligibleDisks]) 0)
        0 (Example.replica "r1" 50 "" "") [] (Example.volume [] []) =
      some { ret := none, err := none, replica := Example.replica "r1" 50 "" "" } :=
  ⟨rfl, rfl,
   (settings_unreadable (Example.flakyDatastore (.ok [Example.twoEligibleDisks]) 2)
      (Example.replica "r1" 50 "" "") [] (Example.volume [] [])).1
      Example.twoEligibleDisks [("A", Example.disk "/data" true 0 [])] []
      "B" (Example.disk "/b" true 0 []) 0 "settings unavailable" rfl rfl,
   by decide, fun _ => ⟨⟨_, rfl⟩, ⟨_, rfl⟩⟩, by decide⟩

/-! ## C16: the tag checker sorts what it finds unsorted -/

/-- C16. Self-healing sort of `checkTagsAreFulfilled`: for every list of
candidate tags, sorted or not, and every required list, the candidate list is
after the call sorted ascending and a permutation of what it was before, and it
is what it was before when that was sorted; what it becomes does not depend on
the required list.  The boolean result is true if and only if every required
tag occurs in the candidate list, so it is the same for any two candidate lists
that are permutations of each other.  The call writes to the candidate list
only: the required list is an input that is read and never assigned (the
embedding returns the new value of the one list the code writes).  For the
candidates `ssd, hdd` and the required tag `hdd` the call leaves `hdd, ssd` and
returns true. -/
theorem checkTagsAreFulfilled_self_healing (candidateTags requiredTags : List String) :
    (checkTagsAreFulfilled candidateTags requiredTags).1.Sorted tagLE ∧
    (checkTagsAreFulfilled candidateTags requiredTags).1.Perm candidateTags ∧
    (candidateTags.Sorted tagLE →
      (checkTagsAreFulfilled candidateTags requiredTags).1 = candidateTags) ∧
    (∀ otherRequired : List String,
      (checkTagsAreFulfilled candidateTags otherRequired).1 =
        (checkTagsAreFulfilled candidateTags requiredTags).1) ∧
    ((checkTagsAreFulfilled candidateTags requiredTags).2 = true ↔
      ∀ tag ∈ requiredTags, tag ∈ candidateTags) ∧
    (∀ permutedTags : List String, candidateTags.Perm permutedTags →
      (checkTagsAreFulfilled candidateTags requiredTags).2 =
        (checkTagsAreFulfilled permutedTags requiredTags).2) ∧
    checkTagsAreFulfilled ["ssd", "hdd"] ["hdd"] = (["hdd", "ssd"], true) := by
  refine ⟨?_, ?_, ?_, ?_, checkTagsAreFulfilled_snd _ _, ?_, by decide⟩
  · rw [checkTagsAreFulfilled_fst]
    exact Strings_sorted _
  · rw [checkTagsAreFulfilled_fst]
    exact Strings_perm _
  · intro hsorted
    rw [checkTagsAreFulfilled_fst, Strings_of_sorted hsorted]
  · intro otherRequired
    rw [checkTagsAreFulfilled_fst, checkTagsAreFulfilled_fst]
  · intro permutedTags hperm
    rw [Bool.eq_iff_iff, checkTagsAreFulfilled_snd, checkTagsAreFulfilled_snd]
    constructor
    · intro h tag htag
      exact hperm.mem_iff.1 (h tag htag)
    · intro h tag htag
      exact hperm.mem_iff.2 (h tag htag)

/-! ## C17: pass 1 finds a placement when there is one -/

theorem filterNodeDisksLoop_ne_nil_of_acc (ds : DataStore) (node : Node) (replica : Replica)
    (replicas : GoMap Replica) (volume : Volume) :
    ∀ (disks : List (String × DiskSpec)) (acc : GoMap Disk) (t : Nat), acc ≠ [] →
      (filterNodeDisksLoop ds node replica replicas volume disks acc t).1 ≠ [] := by
  intro disks
  induction disks with
  | nil => intro acc t h; exact h
  | cons hd rest ih =>
    obtain ⟨fsid, disk⟩ := hd
    intro acc t h
    cases hg : GetDiskSchedulingInfo ds t disk
      (mapIndex node.Status.DiskStatus fsid DiskStatus.zero) with
    | mk res t1 =>
      cases res with
      | error err =>
        rw [filterNodeDisksLoop_error _ _ _ _ _ _ _ _ _ _ _ _ hg]
        exact h
      | ok info =>
        rw [filterNodeDisksLoop_ok _ _ _ _ _ _ _ _ _ _ _ _ hg]
        apply ih
        split
        · exact mapInsert_ne_nil _ _ _
        · exact h

/-- With readable settings, a node that has a disk the filter accepts whenever
it examines it has a non-empty filter result. -/
theorem filterNodeDisksLoop_ne_nil (ds : DataStore) (node : Node) (replica : Replica)
    (replicas : GoMap Replica) (volume : Volume) (hread : SettingsReadable ds)
    (fsid : String) (disk : DiskSpec) (henabled : disk.AllowScheduling = true)
    (hcap : ∀ t0 info,
      (GetDiskSchedulingInfo ds t0 disk
        (mapIndex node.Status.DiskStatus fsid DiskStatus.zero)).1 = .ok info →
      IsSchedulableToDisk replica.Spec.VolumeSize
        (addStorageScheduled info
          (storageScheduled replicas
            (mapIndex node.Status.DiskStatus fsid DiskStatus.zero).ScheduledReplica
            node.Name)) = true)
    (htags : ∀ tag ∈ volume.Spec.DiskSelector, tag ∈ disk.Tags) :
    ∀ (disks : List (String × DiskSpec)) (acc : GoMap Disk) (t : Nat),
      (fsid, disk) ∈ disks →
      (filterNodeDisksLoop ds node replica replicas volume disks acc t).1 ≠ [] := by
  intro disks
  induction disks with
  | nil => intro acc t h; cases h
  | cons hd rest ih =>
    obtain ⟨fsid', disk'⟩ := hd
    intro acc t hmem
    obtain ⟨info, hg⟩ := GetDiskSchedulingInfo_of_readable hread t disk'
      (mapIndex node.Status.DiskStatus fsid' DiskStatus.zero)
    rw [filterNodeDisksLoop_ok _ _ _ _ _ _ _ _ _ _ _ _ hg]
    rcases List.mem_cons.1 hmem with heq | hrest
    · rw [Prod.mk.injEq] at heq
      obtain ⟨h1, h2⟩ := heq
      subst h1 h2
      apply filterNodeDisksLoop_ne_nil_of_acc
      rw [if_pos ⟨henabled, hcap t info (by rw [hg]), htags⟩]
      exact mapInsert_ne_nil _ _ _
    · exact ih _ _ hrest

/-- The first pass returns early when it meets a node that no replica occupies,
that carries the tags of the node selector and whose filter result is never
empty. -/
theorem chooseFirstPass_ne_none (ds : DataStore) (replicas : GoMap Replica)
    (replica : Replica) (volume : Volume) (nodeName : String) (node : Node)
    (hfree : nodeIsBlocked replicas nodeName = false)
    (htags : ∀ tag ∈ volume.Spec.NodeSelector, tag ∈ node.Spec.Tags)
    (hfilter : ∀ t, (filterNodeDisksForReplica ds t node replica replicas volume).1 ≠ []) :
    ∀ (nodes : List (String × Node)) (filterdNode : List Node) (t : Nat),
      (nodeName, node) ∈ nodes →
      (chooseFirstPass ds replicas replica volume nodes filterdNode t).1 ≠ none := by
  intro nodes
  induction nodes with
  | nil => intro fn t h; cases h
  | cons hd rest ih =>
    obtain ⟨nodeName', node'⟩ := hd
    intro fn t hmem
    rw [chooseFirstPass]
    simp only
    rcases List.mem_cons.1 hmem with heq | hrest
    · rw [Prod.mk.injEq] at heq
      obtain ⟨h1, h2⟩ := heq
      subst h1 h2
      have hok := (checkTagsAreFulfilled_snd _ _).2 htags
      have hlen : (filterNodeDisksForReplica ds t node replica replicas volume).1.length > 0 :=
        List.length_pos.2 (hfilter t)
      simp only [hok, hfree, Bool.not_true, Bool.or_false, Bool.false_eq_true, if_false, hlen,
        if_true]
      exact fun h => by cases h
    · split
      · exact ih _ _ hrest
      · split
        · exact fun h => by cases h
        · exact ih _ _ hrest

theorem chooseDiskCandidates_of_first_pass (rt : Runtime) (ds : DataStore) (t : Nat)
    (nodeInfo : GoMap Node) (replicas : GoMap Replica) (replica : Replica) (volume : Volume)
    (c : GoMap Disk)
    (h : (chooseFirstPass ds replicas replica volume (rt.rangeNodes nodeInfo) [] t).1 = some c) :
    (chooseDiskCandidates rt ds t nodeInfo replicas replica volume).1 = c := by
  unfold chooseDiskCandidates
  cases hp : chooseFirstPass ds replicas replica volume (rt.rangeNodes nodeInfo) [] t with
  | mk first rest =>
    rw [hp] at h
    simp only at h
    subst h
    rfl

/-- C17. Completeness of pass 1: for an unscheduled replica, when listing the
nodes succeeds (the listed nodes having pairwise distinct names), the disk
settings can be read, and some listed node is undeleted, ready and schedulable,
carries the tags of the node selector, hosts no active sibling and has a disk
that has scheduling enabled, passes the capacity test with the provisional
scheduled amount whenever it is examined and carries the tags of the disk
selector, `ScheduleReplica` returns a replica and a nil error, whatever the
soft anti-affinity setting reads and whatever the order in which the nodes are
visited; the assigned node is a schedulable listed node that hosts no active
sibling. -/
theorem ScheduleReplica_complete (rt : Runtime) (ds : DataStore) (t : Nat) (replica : Replica)
    (replicas : GoMap Replica) (volume : Volume) (nodes : List Node) (node : Node)
    (fsid : String) (disk : DiskSpec)
    (hunscheduled : replica.Spec.NodeID = "")
    (hlist : ds.ListNodes t = .ok nodes)
    (hnames : (nodes.map Node.Name).Nodup)
    (hread : SettingsReadable ds)
    (hnode : node ∈ nodes)
    (hundeleted : node.DeletionTimestamp = none)
    (hready : (GetNodeConditionFromStatus node.Status NodeConditionTypeReady).Status =
      ConditionStatusTrue)
    (hschedulable : node.Spec.AllowScheduling = true)
    (hselector : ∀ tag ∈ volume.Spec.NodeSelector, tag ∈ node.Spec.Tags)
    (hfree : ∀ e ∈ replicas, e.2.Spec.NodeID ≠ "" → e.2.DeletionTimestamp = none →
      e.2.Spec.FailedAt = "" → e.2.Spec.NodeID ≠ node.Name)
    (hdisk : (fsid, disk) ∈ node.Spec.Disks)
    (henabled : disk.AllowScheduling = true)
    (hcap : ∀ t0 info,
      (GetDiskSchedulingInfo ds t0 disk
        (mapIndex node.Status.DiskStatus fsid DiskStatus.zero)).1 = .ok info →
      IsSchedulableToDisk replica.Spec.VolumeSize
        (addStorageScheduled info
          (storageScheduled replicas
            (mapIndex node.Status.DiskStatus fsid DiskStatus.zero).ScheduledReplica
            node.Name)) = true)
    (hdiskSelector : ∀ tag ∈ volume.Spec.DiskSelector, tag ∈ disk.Tags) :
    ∃ res r, ScheduleReplica rt ds t replica replicas volume = some res ∧
      res.ret = some r ∧ res.err = none ∧ res.replica = r ∧
      (∀ e ∈ replicas, e.2.Spec.NodeID ≠ "" → e.2.DeletionTimestamp = none →
        e.2.Spec.FailedAt = "" → e.2.Spec.NodeID ≠ r.Spec.NodeID) ∧
      ∃ chosen ∈ nodes, r.Spec.NodeID = chosen.Name ∧ nodeIsSchedulable chosen = true := by
  have hin : (node.Name, node) ∈ rt.rangeNodes (scheduledNode nodes) := by
    apply (rt.rangeNodes_perm _).mem_iff.2
    rw [scheduledNode_of_nodup hnames]
    exact List.mem_map.2 ⟨node, List.mem_filter.2 ⟨hnode,
      (nodeIsSchedulable_iff node).2 ⟨hundeleted, hready, hschedulable⟩⟩, rfl⟩
  have hfilter : ∀ t0, (filterNodeDisksForReplica ds t0 node replica replicas volume).1 ≠ [] :=
    fun t0 => filterNodeDisksLoop_ne_nil ds node replica replicas volume hread fsid disk
      henabled hcap hdiskSelector _ _ _ hdisk
  have hfirst := chooseFirstPass_ne_none ds replicas replica volume node.Name node
    ((nodeIsBlocked_eq_false_iff _ _).2 hfree) hselector hfilter _ [] (t + 1) hin
  obtain ⟨c, hc⟩ := Option.ne_none_iff_exists'.1 hfirst
  obtain ⟨nodeName', node', t0, hmem', hfree', _, hceq, hcne⟩ :=
    chooseFirstPass_some ds replicas replica volume _ _ _ c hc
  have hcands := chooseDiskCandidates_of_first_pass rt ds (t + 1) (scheduledNode nodes) replicas
    replica volume c hc
  obtain ⟨fsid', d', hd', hs⟩ := ScheduleReplica_of_candidates rt ds t replica replicas volume
    nodes hunscheduled hlist (by rw [hcands]; exact hcne)
  rw [hcands, hceq] at hd'
  obtain ⟨disk', t1, _, hacc⟩ := filterNodeDisksForReplica_sound hd'
  have hnodeID : d'.NodeID = node'.Name := by
    obtain ⟨_, _, _, _, _, hd⟩ := hacc
    simp only at hd
    rw [hd]
  obtain ⟨hname', hnodes', hsched'⟩ :=
    scheduledNode_mem ((rt.rangeNodes_perm _).mem_iff.1 hmem')
  simp only at hname' hnodes' hsched'
  refine ⟨_, _, hs, rfl, rfl, rfl, ?_, node', hnodes', hnodeID, hsched'⟩
  show ∀ e ∈ replicas, e.2.Spec.NodeID ≠ "" → e.2.DeletionTimestamp = none →
    e.2.Spec.FailedAt = "" → e.2.Spec.NodeID ≠ d'.NodeID
  rw [hnodeID, ← hname']
  exact (nodeIsBlocked_eq_false_iff _ _).1 hfree'

/-- C17, witness: node `X` hosts the sibling `r0`, node `Y` is free and has the
eligible disk `A`; the soft anti-affinity setting cannot be read. -/
theorem ScheduleReplica_complete_witness :
    (Example.replica "r1" 50 "" "").Spec.NodeID = "" ∧
    (([Example.plainNode "X" [], Example.plainNode "Y" []].map Node.Name).Nodup) ∧
    SettingsReadable (Example.datastore [Example.plainNode "X" [], Example.plainNode "Y" []]
      (.error "unavailable") 100 0) ∧
    (∃ res r, ScheduleReplica Example.runtime
        (Example.datastore [Example.plainNode "X" [], Example.plainNode "Y" []]
          (.error "unavailable") 100 0) 0
        (Example.replica "r1" 50 "" "") [("r0", Example.replica "r0" 10 "X" "")]
        (Example.volume [] []) = some res ∧
      res.ret = some r ∧ res.err = none ∧ res.replica = r ∧
      (∀ e ∈ [("r0", Example.replica "r0" 10 "X" "")], e.2.Spec.NodeID ≠ "" →
        e.2.DeletionTimestamp = none → e.2.Spec.FailedAt = "" →
        e.2.Spec.NodeID ≠ r.Spec.NodeID) ∧
      ∃ chosen ∈ [Example.plainNode "X" [], Example.plainNode "Y" []],
        r.Spec.NodeID = chosen.Name ∧ nodeIsSchedulable chosen = true) :=
  ⟨rfl, by decide, fun _ => ⟨⟨_, rfl⟩, ⟨_, rfl⟩⟩,
   ScheduleReplica_complete Example.runtime
    (Example.datastore [Example.plainNode "X" [], Example.plainNode "Y" []]
      (.error "unavailable") 100 0) 0
    (Example.replica "r1" 50 "" "") [("r0", Example.replica "r0" 10 "X" "")]
    (Example.volume [] []) [Example.plainNode "X" [], Example.plainNode "Y" []]
    (Example.plainNode "Y" []) "A" (Example.disk "/data" true 0 [])
    rfl rfl (by decide) (fun _ => ⟨⟨_, rfl⟩, ⟨_, rfl⟩⟩) (by decide) rfl rfl rfl
    (by decide) (by decide) (by decide) rfl
    (fun _ _ h => by cases h; decide) (by decide)⟩

/-! ## C18: the over-provisioning percentage counts in whole hundreds -/

theorem wrapInt64_zero : wrapInt64 0 = 0 := by decide

/-- C18. `IsSchedulableToDisk` depends on the over-provisioning percentage only
through its truncated quotient by 100: two infos that differ only in
percentages with the same quotient give the same result for every size, so
every percentage from 100 to 199 behaves like 100.  For a percentage from 0 to
99 the capacity ceiling is 0, whatever the maximum and reserved capacity: the
disk is rejected for every size for which `size + StorageScheduled`, computed
in `int64`, is positive, hence for every size with `size + StorageScheduled > 0`
in exact integers when that sum does not overflow. -/
theorem IsSchedulableToDisk_over_provisioning (size : Int) (info : DiskSchedulingInfo)
    (p q : Int) :
    (Int.tdiv p 100 = Int.tdiv q 100 →
      IsSchedulableToDisk size { info with OverProvisioningPercentage := p } =
        IsSchedulableToDisk size { info with OverProvisioningPercentage := q }) ∧
    (100 ≤ p → p ≤ 199 →
      IsSchedulableToDisk size { info with OverProvisioningPercentage := p } =
        IsSchedulableToDisk size { info with OverProvisioningPercentage := 100 }) ∧
    (0 ≤ p → p ≤ 99 →
      mul64 (sub64 info.StorageMaximum info.StorageReserved) (div64 p 100) = 0 ∧
      (add64 size info.StorageScheduled > 0 →
        IsSchedulableToDisk size { info with OverProvisioningPercentage := p } = false) ∧
      (IsInt64 (size + info.StorageScheduled) → size + info.StorageScheduled > 0 →
        IsSchedulableToDisk size { info with OverProvisioningPercentage := p } = false)) := by
  have hquot : ∀ a b : Int, Int.tdiv a 100 = Int.tdiv b 100 →
      IsSchedulableToDisk size { info with OverProvisioningPercentage := a } =
        IsSchedulableToDisk size { info with OverProvisioningPercentage := b } := by
    intro a b h
    unfold IsSchedulableToDisk div64
    simp only [h]
  refine ⟨hquot p q, ?_, ?_⟩
  · intro h1 h2
    apply hquot
    rw [Int.tdiv_eq_ediv (by omega) (by norm_num),
      Int.tdiv_eq_ediv (by norm_num) (by norm_num)]
    omega
  · intro h1 h2
    have hzero : Int.tdiv p 100 = 0 := by
      rw [Int.tdiv_eq_ediv h1 (by norm_num)]
      omega
    have hceiling : mul64 (sub64 info.StorageMaximum info.StorageReserved) (div64 p 100) = 0 := by
      unfold mul64 div64
      rw [hzero, wrapInt64_zero, mul_zero, wrapInt64_zero]
    have hreject : add64 size info.StorageScheduled > 0 →
        IsSchedulableToDisk size { info with OverProvisioningPercentage := p } = false := by
      intro hpos
      cases hc : IsSchedulableToDisk size { info with OverProvisioningPercentage := p } with
      | false => rfl
      | true =>
        have h3 := ((IsSchedulableToDisk_true_iff _ _).1 hc).2.2.1
        simp only at h3
        rw [hceiling] at h3
        omega
    refine ⟨hceiling, hreject, ?_⟩
    intro hfit hpos
    apply hreject
    unfold add64
    rw [wrapInt64_of_isInt64 hfit]
    exact hpos

/-! ## C19: the capacity test is monotone in demand -/

/-- C19. `IsSchedulableToDisk` is monotone in demand over exact integers: when
a disk is schedulable for a size, nothing overflowing, it is schedulable for
every smaller size for which nothing overflows, and it stays schedulable when
its `StorageScheduled` is lowered, every other field fixed, as long as nothing
overflows. -/
theorem IsSchedulableToDisk_monotone (size size' scheduled' : Int) (info : DiskSchedulingInfo)
    (hexact : ExactArithmetic size info)
    (hschedulable : IsSchedulableToDisk size info = true) :
    (size' ≤ size → ExactArithmetic size' info → IsSchedulableToDisk size' info = true) ∧
    (scheduled' ≤ info.StorageScheduled →
      ExactArithmetic size { info with StorageScheduled := scheduled' } →
      IsSchedulableToDisk size { info with StorageScheduled := scheduled' } = true) := by
  obtain ⟨h1, h2, h3, h4⟩ := (IsSchedulableToDisk_true_iff_exact size info hexact).1 hschedulable
  constructor
  · intro hle hexact'
    rw [IsSchedulableToDisk_true_iff_exact size' info hexact']
    exact ⟨h1, h2, by omega, h4⟩
  · intro hle hexact'
    rw [IsSchedulableToDisk_true_iff_exact _ _ hexact']
    exact ⟨h1, h2, by simp only; omega, h4⟩

/-- C19, witness: an idle disk of 100 units takes a replica of 60 units, hence
one of 50 units; with 30 units scheduled instead of 40 it still takes 60. -/
theorem IsSchedulableToDisk_monotone_witness :
    ExactArithmetic 60 { Example.idleInfo with StorageScheduled := 40 } ∧
    IsSchedulableToDisk 60 { Example.idleInfo with StorageScheduled := 40 } = true ∧
    ((50 : Int) ≤ 60 → ExactArithmetic 50 { Example.idleInfo with StorageScheduled := 40 } →
      IsSchedulableToDisk 50 { Example.idleInfo with StorageScheduled := 40 } = true) ∧
    ((30 : Int) ≤ ({ Example.idleInfo with StorageScheduled := 40 } :
        DiskSchedulingInfo).StorageScheduled →
      ExactArithmetic 60 { ({ Example.idleInfo with StorageScheduled := 40 } :
        DiskSchedulingInfo) with StorageScheduled := 30 } →
      IsSchedulableToDisk 60 { ({ Example.idleInfo with StorageScheduled := 40 } :
        DiskSchedulingInfo) with StorageScheduled := 30 } = true) ∧
    ExactArithmetic 50 { Example.idleInfo with StorageScheduled := 40 } ∧
    IsSchedulableToDisk 50 { Example.idleInfo with StorageScheduled := 40 } = true :=
  ⟨by unfold ExactArithmetic IsInt64; decide, by decide,
   (IsSchedulableToDisk_monotone 60 50 30 { Example.idleInfo with StorageScheduled := 40 }
      (by unfold ExactArithmetic IsInt64; decide) (by decide)).1,
   (IsSchedulableToDisk_monotone 60 50 30 { Example.idleInfo with StorageScheduled := 40 }
      (by unfold ExactArithmetic IsInt64; decide) (by decide)).2,
   by unfold ExactArithmetic IsInt64; decide, by decide⟩

end Scheduler
